import Mathlib

set_option maxRecDepth 16384

/-!
# Verification of the mlkem-native polynomial arithmetic core

This file gives a shallow embedding of the polynomial arithmetic of the
mlkem-native repository (forward and inverse NTT, base multiplication,
byte serialization, compression codecs and the message codec) and proves
the properties claimed in the specification about them.

Machine integers are modelled as `ℤ` (for the signed 16/32-bit coefficient
arithmetic) and `ℕ` (for the unsigned byte/codec arithmetic).  A store into
an `int16_t` is modelled by the explicit two's-complement wrap `wrap16`.
Intermediate `int32_t` computations whose operands are products or sums of
16-bit values never exceed `2^31 - 1` in absolute value, so no 32-bit wrap
is applied to them; the hypotheses of every lemma keep the values in range.

Congruences modulo q = 3329 are stated in `Zq := ZMod 3329`.  Throughout,
`169 = 2^(-16) mod 3329` (since `169 * 65536 = 1 + 3327 * 3329`), so
`169` plays the role of the Montgomery factor `R⁻¹`.
-/

/-- Two's-complement wrap of an integer into the `int16_t` range
`[-32768, 32767]`.  Models the C cast `(int16_t)x`. -/
def wrap16 (x : ℤ) : ℤ := (x + 32768) % 65536 - 32768

theorem wrap16_bounds (x : ℤ) : -32768 ≤ wrap16 x ∧ wrap16 x ≤ 32767 := by
  unfold wrap16; omega

theorem wrap16_eq_of (x : ℤ) (h1 : -32768 ≤ x) (h2 : x ≤ 32767) : wrap16 x = x := by
  unfold wrap16; omega

/-- The wrap preserves the residue modulo 2^16. -/
theorem wrap16_emod (x : ℤ) : wrap16 x % 65536 = x % 65536 := by
  unfold wrap16; omega

/-- Modelled from the spec: `montgomery_reduce` of `reduce.h` (the file is not
under `src/`; only its callers are).  Spec §4.1: for 32-bit `a` with
`|a| < q·2^15`, returns `a·2^-16 mod q` in `(−q, q)`.  This is the standard
signed Montgomery reduction used by all ML-KEM implementations:
`u = (int16_t)(a * QINV)` with `QINV = -3327 = q⁻¹ mod 2^16`, then
`(int16_t)((a - u * q) >> 16)`; the arithmetic right shift is floor
division `Int.fdiv`. -/
def montgomery_reduce (a : ℤ) : ℤ :=
  wrap16 ((a - wrap16 (a * -3327) * 3329).fdiv 65536)

/-- Modelled from the spec: `fqmul` of `reduce.h` (not under `src/`).
Spec §4.1: Montgomery multiplication `a·b·2^-16 mod q`. -/
def fqmul (a b : ℤ) : ℤ := montgomery_reduce (a * b)

/-- Modelled from the spec: `barrett_reduce` of `reduce.h` (not under
`src/`).  Spec §4.1: signed Barrett reduction returning the (unique)
representative of `a mod q` in `(−q/2, q/2]`, i.e. in `[-1664, 1664]`;
accepts any `int16_t`. -/
def barrett_reduce (a : ℤ) : ℤ := (a + 1664) % 3329 - 1664

/-- The residue ring `Z_q` for `q = 3329`. -/
abbrev Zq := ZMod 3329

theorem exists_u_montgomery_reduce (a : ℤ)
    (h1 : -1073741824 ≤ a) (h2 : a ≤ 1073741824) :
    ∃ u : ℤ, -32768 ≤ u ∧ u ≤ 32767 ∧
      65536 * montgomery_reduce a = a - u * 3329 := by
  refine ⟨wrap16 (a * -3327), (wrap16_bounds _).1, (wrap16_bounds _).2, ?_⟩
  have hu1 := (wrap16_bounds (a * -3327)).1
  have hu2 := (wrap16_bounds (a * -3327)).2
  have hdvd : (65536:ℤ) ∣ (a - wrap16 (a * -3327) * 3329) := by
    have := wrap16_emod (a * -3327)
    omega
  have hq : (a - wrap16 (a * -3327) * 3329).fdiv 65536
      = (a - wrap16 (a * -3327) * 3329) / 65536 :=
    Int.fdiv_eq_ediv _ (by norm_num)
  have hmul : 65536 * ((a - wrap16 (a * -3327) * 3329) / 65536)
      = a - wrap16 (a * -3327) * 3329 := Int.mul_ediv_cancel' hdvd
  have hqb1 : -32768 ≤ (a - wrap16 (a * -3327) * 3329) / 65536 := by omega
  have hqb2 : (a - wrap16 (a * -3327) * 3329) / 65536 ≤ 32767 := by omega
  unfold montgomery_reduce
  rw [hq, wrap16_eq_of _ hqb1 hqb2]
  exact hmul

theorem montgomery_reduce_cast (a : ℤ)
    (h1 : -1073741824 ≤ a) (h2 : a ≤ 1073741824) :
    ((montgomery_reduce a : ℤ) : Zq) = 169 * (a : Zq) := by
  obtain ⟨u, _, _, he⟩ := exists_u_montgomery_reduce a h1 h2
  have hc : ((65536 * montgomery_reduce a : ℤ) : Zq) = ((a - u * 3329 : ℤ) : Zq) := by
    rw [he]
  push_cast at hc
  have h0 : (3329 : Zq) = 0 := by decide
  rw [h0, mul_zero, sub_zero] at hc
  have hone : (169 : Zq) * 65536 = 1 := by decide
  calc ((montgomery_reduce a : ℤ) : Zq)
      = (169 * 65536) * ((montgomery_reduce a : ℤ) : Zq) := by rw [hone, one_mul]
    _ = 169 * ((65536 : Zq) * ((montgomery_reduce a : ℤ) : Zq)) := by ring
    _ = 169 * (a : Zq) := by rw [hc]

/-- Main lemma for `fqmul` as used in the NTT butterflies: one factor is a
genuine `int16_t`, the other is bounded by `q - 1` (a zeta constant or a
reduced coefficient); the result is bounded by `q - 1` and congruent to
`a·b·2^-16`. -/
theorem fqmul_main (a b : ℤ) (ha1 : -32768 ≤ a) (ha2 : a ≤ 32768)
    (hb1 : -3328 ≤ b) (hb2 : b ≤ 3328) :
    (-3328 ≤ fqmul a b ∧ fqmul a b ≤ 3328) ∧
      ((fqmul a b : ℤ) : Zq) = 169 * (a : Zq) * (b : Zq) := by
  have hab1 : -1073741824 ≤ a * b := by nlinarith
  have hab2 : a * b ≤ 1073741824 := by nlinarith
  constructor
  · obtain ⟨u, hu1, hu2, he⟩ := exists_u_montgomery_reduce (a * b) hab1 hab2
    have habs1 : -(109051904:ℤ) ≤ a * b := by nlinarith
    have habs2 : (a * b:ℤ) ≤ 109051904 := by nlinarith
    unfold fqmul
    omega
  · unfold fqmul
    rw [montgomery_reduce_cast (a * b) hab1 hab2]
    push_cast
    ring

theorem fqmul_comm (a b : ℤ) : fqmul a b = fqmul b a := by
  unfold fqmul; rw [mul_comm]

theorem barrett_main (a : ℤ) :
    (-1664 ≤ barrett_reduce a ∧ barrett_reduce a ≤ 1664) ∧
      ((barrett_reduce a : ℤ) : Zq) = (a : Zq) := by
  constructor
  · unfold barrett_reduce; omega
  · rw [ZMod.intCast_eq_intCast_iff]
    show barrett_reduce a % 3329 = a % 3329
    unfold barrett_reduce; omega

/-! ## Zeta tables (`zetas.i`) -/

/-- Constant zeta values for NTT layers 1, 2 and 3 (`zetas.i`). -/
def mlkem_l1zeta1 : ℤ := -758

def mlkem_l2zeta2 : ℤ := -359

def mlkem_l2zeta3 : ℤ := -1517

def mlkem_l3zeta4 : ℤ := 1493

def mlkem_l3zeta5 : ℤ := 1422

def mlkem_l3zeta6 : ℤ := 287

def mlkem_l3zeta7 : ℤ := 202

/-- Zeta values for layer 4 (`zetas.i`). -/
def mlkem_layer4_zetas : List ℤ := [-171, 622, 1577, 182, 962, -1202, -1474, 1468]

/-- Zeta values for layer 5, 'even' positions (`zetas.i`). -/
def mlkem_layer5_even_zetas : List ℤ := [573, 264, -829, -1602, -681, 732, -1542, -205]

/-- Zeta values for layer 5, 'odd' positions (`zetas.i`). -/
def mlkem_layer5_odd_zetas : List ℤ := [-1325, 383, 1458, -130, 1017, 608, 411, -1571]

/-- Zeta values for layer 6 (`zetas.i`). -/
def mlkem_layer6_zetas : List ℤ :=
  [1223, 652, -552, 1015, -1293, 1491, -282, -1544, 516, -8, -320,
   -666, -1618, -1162, 126, 1469, -853, -90, -271, 830, 107, -1421,
   -247, -951, -398, 961, -1508, -725, 448, -1065, 677, -1275]

/-- Zeta values for layer 7 (`zetas.i`). -/
def mlkem_layer7_zetas : List ℤ :=
  [-1103, 430, 555, 843, -1251, 871, 1550, 105, 422, 587, 177,
   -235, -291, -460, 1574, 1653, -246, 778, 1159, -147, -777, 1483,
   -602, 1119, -1590, 644, -872, 349, 418, 329, -156, -75, 817,
   1097, 603, 610, 1322, -1285, -1465, 384, -1215, -136, 1218, -1335,
   -874, 220, -1187, -1659, -1185, -1530, -1278, 794, -1510, -854, -870,
   478, -108, -308, 996, 991, 958, -1460, 1522, 1628]

theorem mlkem_layer4_zetas_bound (n : ℕ) :
    -3328 ≤ mlkem_layer4_zetas.getD n 0 ∧ mlkem_layer4_zetas.getD n 0 ≤ 3328 := by
  have hb : ∀ m < 8, -3328 ≤ mlkem_layer4_zetas.getD m 0 ∧
      mlkem_layer4_zetas.getD m 0 ≤ 3328 := by decide
  rcases Nat.lt_or_ge n 8 with h | h
  · exact hb n h
  · rw [List.getD_eq_default]
    · omega
    · simpa [mlkem_layer4_zetas] using h

theorem mlkem_layer5_even_zetas_bound (n : ℕ) :
    -3328 ≤ mlkem_layer5_even_zetas.getD n 0 ∧ mlkem_layer5_even_zetas.getD n 0 ≤ 3328 := by
  have hb : ∀ m < 8, -3328 ≤ mlkem_layer5_even_zetas.getD m 0 ∧
      mlkem_layer5_even_zetas.getD m 0 ≤ 3328 := by decide
  rcases Nat.lt_or_ge n 8 with h | h
  · exact hb n h
  · rw [List.getD_eq_default]
    · omega
    · simpa [mlkem_layer5_even_zetas] using h

theorem mlkem_layer5_odd_zetas_bound (n : ℕ) :
    -3328 ≤ mlkem_layer5_odd_zetas.getD n 0 ∧ mlkem_layer5_odd_zetas.getD n 0 ≤ 3328 := by
  have hb : ∀ m < 8, -3328 ≤ mlkem_layer5_odd_zetas.getD m 0 ∧
      mlkem_layer5_odd_zetas.getD m 0 ≤ 3328 := by decide
  rcases Nat.lt_or_ge n 8 with h | h
  · exact hb n h
  · rw [List.getD_eq_default]
    · omega
    · simpa [mlkem_layer5_odd_zetas] using h

theorem mlkem_layer6_zetas_bound (n : ℕ) :
    -3328 ≤ mlkem_layer6_zetas.getD n 0 ∧ mlkem_layer6_zetas.getD n 0 ≤ 3328 := by
  have hb : ∀ m < 32, -3328 ≤ mlkem_layer6_zetas.getD m 0 ∧
      mlkem_layer6_zetas.getD m 0 ≤ 3328 := by decide
  rcases Nat.lt_or_ge n 32 with h | h
  · exact hb n h
  · rw [List.getD_eq_default]
    · omega
    · simpa [mlkem_layer6_zetas] using h

theorem mlkem_layer7_zetas_bound (n : ℕ) :
    -3328 ≤ mlkem_layer7_zetas.getD n 0 ∧ mlkem_layer7_zetas.getD n 0 ≤ 3328 := by
  have hb : ∀ m < 64, -3328 ≤ mlkem_layer7_zetas.getD m 0 ∧
      mlkem_layer7_zetas.getD m 0 ≤ 3328 := by decide
  rcases Nat.lt_or_ge n 64 with h | h
  · exact hb n h
  · rw [List.getD_eq_default]
    · omega
    · simpa [mlkem_layer7_zetas] using h

/-! ## Polynomials and butterflies -/

/-- A polynomial: coefficient `i` (for `i < 256`) is an `int16_t` modelled
as an integer.  Indices `≥ 256` are irrelevant to every claim. -/
def poly := ℕ → ℤ

/-- The Cooley-Tukey butterfly of the forward NTT (`ntt.c`):
`t1 = fqmul(hi, zeta); t2 = lo; hi' = t2 - t1; lo' = t2 + t1`, each store
wrapping into `int16_t`.  The first component is the new low coefficient. -/
def ct_butterfly (a b z : ℤ) : ℤ × ℤ :=
  let t := fqmul b z
  (wrap16 (a + t), wrap16 (a - t))

/-- The Gentleman-Sande butterfly of the inverse NTT (`ntt.c`):
`lo' = lo + hi; hi' = fqmul(hi - lo, zeta)`. -/
def gs_butterfly (a b z : ℤ) : ℤ × ℤ :=
  (wrap16 (a + b), fqmul (wrap16 (b - a)) z)

theorem ct_butterfly_main (a b z A : ℤ) (ha1 : -A ≤ a) (ha2 : a ≤ A)
    (hb1 : -32768 ≤ b) (hb2 : b ≤ 32768)
    (hz1 : -3328 ≤ z) (hz2 : z ≤ 3328) (hA : A + 3328 ≤ 32767) :
    (-(A + 3328) ≤ (ct_butterfly a b z).1 ∧ (ct_butterfly a b z).1 ≤ A + 3328) ∧
    (-(A + 3328) ≤ (ct_butterfly a b z).2 ∧ (ct_butterfly a b z).2 ≤ A + 3328) ∧
    (((ct_butterfly a b z).1 : ℤ) : Zq) = (a : Zq) + 169 * (z : Zq) * (b : Zq) ∧
    (((ct_butterfly a b z).2 : ℤ) : Zq) = (a : Zq) - 169 * (z : Zq) * (b : Zq) := by
  obtain ⟨⟨hf1, hf2⟩, hfc⟩ := fqmul_main b z hb1 hb2 hz1 hz2
  have e1 : (ct_butterfly a b z).1 = a + fqmul b z := by
    show wrap16 (a + fqmul b z) = a + fqmul b z
    apply wrap16_eq_of <;> omega
  have e2 : (ct_butterfly a b z).2 = a - fqmul b z := by
    show wrap16 (a - fqmul b z) = a - fqmul b z
    apply wrap16_eq_of <;> omega
  refine ⟨by omega, by omega, ?_, ?_⟩
  · rw [e1]; push_cast; rw [hfc]; ring
  · rw [e2]; push_cast; rw [hfc]; ring

theorem gs_butterfly_main (a b z A : ℤ) (ha1 : -A ≤ a) (ha2 : a ≤ A)
    (hb1 : -A ≤ b) (hb2 : b ≤ A)
    (hz1 : -3328 ≤ z) (hz2 : z ≤ 3328) (hA : A + A ≤ 32767) :
    (-(A + A) ≤ (gs_butterfly a b z).1 ∧ (gs_butterfly a b z).1 ≤ A + A) ∧
    (-3328 ≤ (gs_butterfly a b z).2 ∧ (gs_butterfly a b z).2 ≤ 3328) ∧
    (((gs_butterfly a b z).1 : ℤ) : Zq) = (a : Zq) + (b : Zq) ∧
    (((gs_butterfly a b z).2 : ℤ) : Zq) = 169 * (z : Zq) * ((b : Zq) - (a : Zq)) := by
  have e1 : (gs_butterfly a b z).1 = a + b := by
    show wrap16 (a + b) = a + b
    apply wrap16_eq_of <;> omega
  have ew : wrap16 (b - a) = b - a := by apply wrap16_eq_of <;> omega
  have e2 : (gs_butterfly a b z).2 = fqmul (b - a) z := by
    show fqmul (wrap16 (b - a)) z = fqmul (b - a) z
    rw [ew]
  obtain ⟨⟨hf1, hf2⟩, hfc⟩ := fqmul_main (b - a) z (by omega) (by omega) hz1 hz2
  refine ⟨by omega, by omega, ?_, ?_⟩
  · rw [e1]; push_cast; ring
  · rw [e2, hfc]; push_cast; ring

/-! ## The reference NTT of `src/unnamed/part_000` (`mlkem/ntt.c`)

Each in-place C layer touches disjoint groups of coefficients, one group
per iteration of its loop; the functional embedding gives the value of
coefficient `i` after the layer by replaying the butterflies of the group
containing `i` and selecting the component that ends up at position `i`. -/

namespace Ref

/-- `ntt_layer123` of `part_000`: merged forward layers 1-3.  For
`j = i % 32` the group is `j, j+32, …, j+224` (C variables `ci1 … ci8`),
transformed by four layer-1, four layer-2 and four layer-3 butterflies in
source order. -/
def ntt_layer123 (r : poly) : poly := fun i =>
  let j := i % 32
  let p1 := ct_butterfly (r j) (r (j + 128)) mlkem_l1zeta1
  let p2 := ct_butterfly (r (j + 64)) (r (j + 192)) mlkem_l1zeta1
  let p3 := ct_butterfly (r (j + 32)) (r (j + 160)) mlkem_l1zeta1
  let p4 := ct_butterfly (r (j + 96)) (r (j + 224)) mlkem_l1zeta1
  let q1 := ct_butterfly p1.1 p2.1 mlkem_l2zeta2
  let q2 := ct_butterfly p1.2 p2.2 mlkem_l2zeta3
  let q3 := ct_butterfly p3.1 p4.1 mlkem_l2zeta2
  let q4 := ct_butterfly p3.2 p4.2 mlkem_l2zeta3
  let s1 := ct_butterfly q1.1 q3.1 mlkem_l3zeta4
  let s2 := ct_butterfly q1.2 q3.2 mlkem_l3zeta5
  let s3 := ct_butterfly q2.1 q4.1 mlkem_l3zeta6
  let s4 := ct_butterfly q2.2 q4.2 mlkem_l3zeta7
  if i / 32 = 0 then s1.1 else if i / 32 = 1 then s1.2
  else if i / 32 = 2 then s2.1 else if i / 32 = 3 then s2.2
  else if i / 32 = 4 then s3.1 else if i / 32 = 5 then s3.2
  else if i / 32 = 6 then s4.1 else s4.2

/-- `ntt_layer45` of `part_000` (via `ntt_layer45_butterfly`): merged
forward layers 4-5 on the 32-coefficient subtree `s = i / 32`, quadruple
`b, b+8, b+16, b+24` for `b = 32s + i % 8`. -/
def ntt_layer45 (r : poly) : poly := fun i =>
  let s := i / 32
  let b := 32 * s + i % 8
  let z1 := mlkem_layer4_zetas.getD s 0
  let z2 := mlkem_layer5_even_zetas.getD s 0
  let z3 := mlkem_layer5_odd_zetas.getD s 0
  let p1 := ct_butterfly (r b) (r (b + 16)) z1
  let p2 := ct_butterfly (r (b + 8)) (r (b + 24)) z1
  let q1 := ct_butterfly p1.1 p2.1 z2
  let q2 := ct_butterfly p1.2 p2.2 z3
  if i % 32 / 8 = 0 then q1.1 else if i % 32 / 8 = 1 then q1.2
  else if i % 32 / 8 = 2 then q2.1 else q2.2

/-- `ntt_layer6` of `part_000` (via `ntt_layer6_butterfly`): pairs at
distance 4 inside the 8-coefficient block `i / 8`. -/
def ntt_layer6 (r : poly) : poly := fun i =>
  let b := 8 * (i / 8) + i % 4
  let z := mlkem_layer6_zetas.getD (i / 8) 0
  let p := ct_butterfly (r b) (r (b + 4)) z
  if i % 8 / 4 = 0 then p.1 else p.2

/-- `ntt_layer7` of `part_000` (via `ntt_layer7_butterfly`): the block
`4·(i/4)` holds `c0 c1 c2 c3`; `zc2 = fqmul(c2, zeta)`,
`zc3 = fqmul(c3, zeta)`; outputs `c0+zc2, c1+zc3, c0-zc2, c1-zc3`. -/
def ntt_layer7 (r : poly) : poly := fun i =>
  let b := 4 * (i / 4)
  let z := mlkem_layer7_zetas.getD (i / 4) 0
  let zc2 := fqmul (r (b + 2)) z
  let zc3 := fqmul (r (b + 3)) z
  if i % 4 = 0 then wrap16 (r b + zc2)
  else if i % 4 = 1 then wrap16 (r (b + 1) + zc3)
  else if i % 4 = 2 then wrap16 (r b - zc2)
  else wrap16 (r (b + 1) - zc3)

/-- `poly_ntt` of `part_000`: layers 1-3, 4-5, 6, 7 in order. -/
def poly_ntt (p : poly) : poly := ntt_layer7 (ntt_layer6 (ntt_layer45 (ntt_layer123 p)))

/-- `invntt_layer7_invert` of `part_000` (via
`invntt_layer7_invert_butterfly`): every coefficient is first multiplied
by `MONT_F = 1441` with `fqmul`, then the inverse layer-7 butterfly runs
with zeta index `63 - i/4`; the sums are Barrett-reduced. -/
def invntt_layer7_invert (r : poly) : poly := fun i =>
  let b := 4 * (i / 4)
  let z := mlkem_layer7_zetas.getD (63 - i / 4) 0
  let c0 := fqmul (r b) 1441
  let c1 := fqmul (r (b + 1)) 1441
  let c2 := fqmul (r (b + 2)) 1441
  let c3 := fqmul (r (b + 3)) 1441
  if i % 4 = 0 then barrett_reduce (wrap16 (c0 + c2))
  else if i % 4 = 1 then barrett_reduce (wrap16 (c1 + c3))
  else if i % 4 = 2 then fqmul (wrap16 (c2 - c0)) z
  else fqmul (wrap16 (c3 - c1)) z

/-- `invntt_layer6` of `part_000` (via `invntt_layer6_butterfly`): pairs
at distance 4 inside block `i / 8`, zeta index `31 - i/8`, reduction
deferred on the sum side. -/
def invntt_layer6 (r : poly) : poly := fun i =>
  let z := mlkem_layer6_zetas.getD (31 - i / 8) 0
  if i % 8 / 4 = 0 then wrap16 (r i + r (i + 4))
  else fqmul (wrap16 (r i - r (i - 4))) z

/-- `invntt_layer54` of `part_000` (via `invntt_layer54_butterfly`):
merged inverse layers 5 and 4 on subtree `t = i / 32` with zeta index
`7 - t`; layer 5 defers reduction, layer 4 Barrett-reduces the sums. -/
def invntt_layer54 (r : poly) : poly := fun i =>
  let t := i / 32
  let b := 32 * t + i % 8
  let l4z := mlkem_layer4_zetas.getD (7 - t) 0
  let l5z1 := mlkem_layer5_even_zetas.getD (7 - t) 0
  let l5z2 := mlkem_layer5_odd_zetas.getD (7 - t) 0
  let p1 := gs_butterfly (r b) (r (b + 8)) l5z2
  let p2 := gs_butterfly (r (b + 16)) (r (b + 24)) l5z1
  if i % 32 / 8 = 0 then barrett_reduce (wrap16 (p1.1 + p2.1))
  else if i % 32 / 8 = 1 then barrett_reduce (wrap16 (p1.2 + p2.2))
  else if i % 32 / 8 = 2 then fqmul (wrap16 (p2.1 - p1.1)) l4z
  else fqmul (wrap16 (p2.2 - p1.2)) l4z

/-- `invntt_layer321` of `part_000`: merged inverse layers 3, 2, 1 on the
group `j, j+32, …, j+224` for `j = i % 32`, all reductions deferred. -/
def invntt_layer321 (r : poly) : poly := fun i =>
  let j := i % 32
  let a1 := gs_butterfly (r j) (r (j + 32)) mlkem_l3zeta7
  let a2 := gs_butterfly (r (j + 64)) (r (j + 96)) mlkem_l3zeta6
  let a3 := gs_butterfly (r (j + 128)) (r (j + 160)) mlkem_l3zeta5
  let a4 := gs_butterfly (r (j + 192)) (r (j + 224)) mlkem_l3zeta4
  let b1 := gs_butterfly a1.1 a2.1 mlkem_l2zeta3
  let b2 := gs_butterfly a1.2 a2.2 mlkem_l2zeta3
  let b3 := gs_butterfly a3.1 a4.1 mlkem_l2zeta2
  let b4 := gs_butterfly a3.2 a4.2 mlkem_l2zeta2
  let d1 := gs_butterfly b1.1 b3.1 mlkem_l1zeta1
  let d2 := gs_butterfly b2.1 b4.1 mlkem_l1zeta1
  let d3 := gs_butterfly b1.2 b3.2 mlkem_l1zeta1
  let d4 := gs_butterfly b2.2 b4.2 mlkem_l1zeta1
  if i / 32 = 0 then d1.1 else if i / 32 = 1 then d2.1
  else if i / 32 = 2 then d3.1 else if i / 32 = 3 then d4.1
  else if i / 32 = 4 then d1.2 else if i / 32 = 5 then d2.2
  else if i / 32 = 6 then d3.2 else d4.2

/-- `poly_invntt_tomont` of `part_000`: inverse layers 7, 6, 5-4, 3-2-1. -/
def poly_invntt_tomont (p : poly) : poly :=
  invntt_layer321 (invntt_layer54 (invntt_layer6 (invntt_layer7_invert p)))

end Ref

/-! ## The forward NTT of `src/unnamed/part_001`

An earlier variant of the same forward NTT living in the tree alongside
`part_000`: layers 1-3 use file-local constants, layers 4-5 read a
file-local struct table, and layers 6 and 7 call `fqmul(zeta, coeff)`
with the arguments in the opposite order. -/

namespace Alt

/-- `zeta_subtree_entry` of `part_001`. -/
structure zeta_subtree_entry where
  parent_zeta : ℤ
  left_child_zeta : ℤ
  right_child_zeta : ℤ

/-- `layer45_zetas` of `part_001`. -/
def layer45_zetas : List zeta_subtree_entry :=
  [⟨-171, 573, -1325⟩, ⟨622, 264, 383⟩, ⟨1577, -829, 1458⟩,
   ⟨182, -1602, -130⟩, ⟨962, -681, 1017⟩, ⟨-1202, 732, 608⟩,
   ⟨-1474, -1542, 411⟩, ⟨1468, -205, -1571⟩]

/-- `layer6_zetas` of `part_001`. -/
def layer6_zetas : List ℤ :=
  [1223, 652, -552, 1015, -1293, 1491, -282, -1544, 516, -8, -320,
   -666, -1618, -1162, 126, 1469, -853, -90, -271, 830, 107, -1421,
   -247, -951, -398, 961, -1508, -725, 448, -1065, 677, -1275]

/-- `layer7_zetas` of `part_001`. -/
def layer7_zetas : List ℤ :=
  [-1103, 430, 555, 843, -1251, 871, 1550, 105, 422, 587, 177,
   -235, -291, -460, 1574, 1653, -246, 778, 1159, -147, -777, 1483,
   -602, 1119, -1590, 644, -872, 349, 418, 329, -156, -75, 817,
   1097, 603, 610, 1322, -1285, -1465, 384, -1215, -136, 1218, -1335,
   -874, 220, -1187, -1659, -1185, -1530, -1278, 794, -1510, -854, -870,
   478, -108, -308, 996, 991, 958, -1460, 1522, 1628]

/-- `ntt_layer123` of `part_001` (file-local constants `z1 … z7`). -/
def ntt_layer123 (r : poly) : poly := fun i =>
  let j := i % 32
  let p1 := ct_butterfly (r j) (r (j + 128)) (-758)
  let p2 := ct_butterfly (r (j + 64)) (r (j + 192)) (-758)
  let p3 := ct_butterfly (r (j + 32)) (r (j + 160)) (-758)
  let p4 := ct_butterfly (r (j + 96)) (r (j + 224)) (-758)
  let q1 := ct_butterfly p1.1 p2.1 (-359)
  let q2 := ct_butterfly p1.2 p2.2 (-1517)
  let q3 := ct_butterfly p3.1 p4.1 (-359)
  let q4 := ct_butterfly p3.2 p4.2 (-1517)
  let s1 := ct_butterfly q1.1 q3.1 1493
  let s2 := ct_butterfly q1.2 q3.2 1422
  let s3 := ct_butterfly q2.1 q4.1 287
  let s4 := ct_butterfly q2.2 q4.2 202
  if i / 32 = 0 then s1.1 else if i / 32 = 1 then s1.2
  else if i / 32 = 2 then s2.1 else if i / 32 = 3 then s2.2
  else if i / 32 = 4 then s3.1 else if i / 32 = 5 then s3.2
  else if i / 32 = 6 then s4.1 else s4.2

/-- `ntt_layer45` of `part_001` (via `ntt_layer45_slice`). -/
def ntt_layer45 (r : poly) : poly := fun i =>
  let s := i / 32
  let e := layer45_zetas.getD s ⟨0, 0, 0⟩
  let b := 32 * s + i % 8
  let p1 := ct_butterfly (r b) (r (b + 16)) e.parent_zeta
  let p2 := ct_butterfly (r (b + 8)) (r (b + 24)) e.parent_zeta
  let q1 := ct_butterfly p1.1 p2.1 e.left_child_zeta
  let q2 := ct_butterfly p1.2 p2.2 e.right_child_zeta
  if i % 32 / 8 = 0 then q1.1 else if i % 32 / 8 = 1 then q1.2
  else if i % 32 / 8 = 2 then q2.1 else q2.2

/-- `ntt_layer6` of `part_001` (via `ntt_layer6_slice`): note
`fqmul(zeta, r[ci2])`, arguments commuted relative to `part_000`. -/
def ntt_layer6 (r : poly) : poly := fun i =>
  let b := 8 * (i / 8) + i % 4
  let z := layer6_zetas.getD (i / 8) 0
  let t := fqmul z (r (b + 4))
  if i % 8 / 4 = 0 then wrap16 (r b + t) else wrap16 (r b - t)

/-- `ntt_layer7` of `part_001` (via `ntt_layer7_slice`): note
`fqmul(zeta, c2)` and `fqmul(zeta, c3)`, arguments commuted. -/
def ntt_layer7 (r : poly) : poly := fun i =>
  let b := 4 * (i / 4)
  let z := layer7_zetas.getD (i / 4) 0
  let zc2 := fqmul z (r (b + 2))
  let zc3 := fqmul z (r (b + 3))
  if i % 4 = 0 then wrap16 (r b + zc2)
  else if i % 4 = 1 then wrap16 (r (b + 1) + zc3)
  else if i % 4 = 2 then wrap16 (r b - zc2)
  else wrap16 (r (b + 1) - zc3)

/-- `poly_ntt` of `part_001`. -/
def poly_ntt (p : poly) : poly := ntt_layer7 (ntt_layer6 (ntt_layer45 (ntt_layer123 p)))

end Alt

/-! ### Equality of the two forward NTT implementations -/

theorem alt_layer123_eq (r : poly) : Alt.ntt_layer123 r = Ref.ntt_layer123 r := rfl

theorem alt_layer45_zeta_parent (s : ℕ) :
    (Alt.layer45_zetas.getD s ⟨0, 0, 0⟩).parent_zeta = mlkem_layer4_zetas.getD s 0 := by
  rcases Nat.lt_or_ge s 8 with h | h
  · have hb : ∀ m < 8, (Alt.layer45_zetas.getD m ⟨0, 0, 0⟩).parent_zeta
        = mlkem_layer4_zetas.getD m 0 := by decide
    exact hb s h
  · rw [List.getD_eq_default _ _ (by simpa [Alt.layer45_zetas] using h),
      List.getD_eq_default _ _ (by simpa [mlkem_layer4_zetas] using h)]

theorem alt_layer45_zeta_left (s : ℕ) :
    (Alt.layer45_zetas.getD s ⟨0, 0, 0⟩).left_child_zeta = mlkem_layer5_even_zetas.getD s 0 := by
  rcases Nat.lt_or_ge s 8 with h | h
  · have hb : ∀ m < 8, (Alt.layer45_zetas.getD m ⟨0, 0, 0⟩).left_child_zeta
        = mlkem_layer5_even_zetas.getD m 0 := by decide
    exact hb s h
  · rw [List.getD_eq_default _ _ (by simpa [Alt.layer45_zetas] using h),
      List.getD_eq_default _ _ (by simpa [mlkem_layer5_even_zetas] using h)]

theorem alt_layer45_zeta_right (s : ℕ) :
    (Alt.layer45_zetas.getD s ⟨0, 0, 0⟩).right_child_zeta = mlkem_layer5_odd_zetas.getD s 0 := by
  rcases Nat.lt_or_ge s 8 with h | h
  · have hb : ∀ m < 8, (Alt.layer45_zetas.getD m ⟨0, 0, 0⟩).right_child_zeta
        = mlkem_layer5_odd_zetas.getD m 0 := by decide
    exact hb s h
  · rw [List.getD_eq_default _ _ (by simpa [Alt.layer45_zetas] using h),
      List.getD_eq_default _ _ (by simpa [mlkem_layer5_odd_zetas] using h)]

theorem alt_layer45_eq (r : poly) : Alt.ntt_layer45 r = Ref.ntt_layer45 r := by
  funext i
  simp only [Alt.ntt_layer45, Ref.ntt_layer45, alt_layer45_zeta_parent,
    alt_layer45_zeta_left, alt_layer45_zeta_right]

theorem alt_layer6_eq (r : poly) : Alt.ntt_layer6 r = Ref.ntt_layer6 r := by
  funext i
  have hz : Alt.layer6_zetas = mlkem_layer6_zetas := rfl
  simp only [Alt.ntt_layer6, Ref.ntt_layer6, ct_butterfly, hz]
  rw [fqmul_comm]

theorem alt_layer7_eq (r : poly) : Alt.ntt_layer7 r = Ref.ntt_layer7 r := by
  funext i
  have hz : Alt.layer7_zetas = mlkem_layer7_zetas := rfl
  simp only [Alt.ntt_layer7, Ref.ntt_layer7, hz]
  rw [fqmul_comm (mlkem_layer7_zetas.getD (i / 4) 0) (r (4 * (i / 4) + 2)),
    fqmul_comm (mlkem_layer7_zetas.getD (i / 4) 0) (r (4 * (i / 4) + 3))]

theorem alt_poly_ntt_eq (p : poly) : Alt.poly_ntt p = Ref.poly_ntt p := by
  rw [Alt.poly_ntt, Ref.poly_ntt, alt_layer123_eq, alt_layer45_eq, alt_layer6_eq,
    alt_layer7_eq]

/-! ## The NTT modulo q

Modulo `q`, every butterfly is linear, `fqmul b z ≡ 169·z·b` and
`barrett_reduce` is the identity, so each C layer is congruent to a
generic radix-2 layer over `Zq`.  `fwdLayer d w` is the Cooley-Tukey layer
pairing `i` with `i + d`; `invLayer d v` is the Gentleman-Sande layer on
the same pairs. -/

/-- A polynomial reduced modulo q. -/
def polyq := ℕ → Zq

/-- Forward (Cooley-Tukey) layer with pair distance `d` and twiddle `w`. -/
def fwdLayer (d : ℕ) (w : ℕ → Zq) (x : polyq) : polyq := fun i =>
  if i / d % 2 = 0 then x i + w i * x (i + d) else x (i - d) - w i * x i

/-- Inverse (Gentleman-Sande) layer with pair distance `d` and twiddle `v`. -/
def invLayer (d : ℕ) (v : ℕ → Zq) (x : polyq) : polyq := fun i =>
  if i / d % 2 = 0 then x i + x (i + d) else (x i - x (i - d)) * v i

/-- A zeta constant in Montgomery interpretation: `fqmul · z ≡ 169·z·`. -/
def wz (z : ℤ) : Zq := 169 * (z : Zq)

/-- Twiddles of forward layers 1-7 as functions of the coefficient index,
mirroring the zeta table indexing of `ntt.c`. -/
def wf1 : ℕ → Zq := fun _ => wz mlkem_l1zeta1

def wf2 : ℕ → Zq := fun i => wz ([mlkem_l2zeta2, mlkem_l2zeta3].getD (i / 128) 0)

def wf3 : ℕ → Zq := fun i =>
  wz ([mlkem_l3zeta4, mlkem_l3zeta5, mlkem_l3zeta6, mlkem_l3zeta7].getD (i / 64) 0)

def wf4 : ℕ → Zq := fun i => wz (mlkem_layer4_zetas.getD (i / 32) 0)

def wf5 : ℕ → Zq := fun i =>
  wz (if i / 16 % 2 = 0 then mlkem_layer5_even_zetas.getD (i / 32) 0
      else mlkem_layer5_odd_zetas.getD (i / 32) 0)

def wf6 : ℕ → Zq := fun i => wz (mlkem_layer6_zetas.getD (i / 8) 0)

def wf7 : ℕ → Zq := fun i => wz (mlkem_layer7_zetas.getD (i / 4) 0)

/-- Twiddles of the inverse layers, mirroring `invntt_layer*` of `ntt.c`. -/
def vi7 : ℕ → Zq := fun i => wz (mlkem_layer7_zetas.getD (63 - i / 4) 0)

def vi6 : ℕ → Zq := fun i => wz (mlkem_layer6_zetas.getD (31 - i / 8) 0)

def vi5 : ℕ → Zq := fun i =>
  wz (if i / 16 % 2 = 0 then mlkem_layer5_odd_zetas.getD (7 - i / 32) 0
      else mlkem_layer5_even_zetas.getD (7 - i / 32) 0)

def vi4 : ℕ → Zq := fun i => wz (mlkem_layer4_zetas.getD (7 - i / 32) 0)

def vi3 : ℕ → Zq := fun i =>
  wz ([mlkem_l3zeta7, mlkem_l3zeta6, mlkem_l3zeta5, mlkem_l3zeta4].getD (i / 64) 0)

def vi2 : ℕ → Zq := fun i => wz ([mlkem_l2zeta3, mlkem_l2zeta2].getD (i / 128) 0)

def vi1 : ℕ → Zq := fun _ => wz mlkem_l1zeta1

/-- The forward NTT modulo q: layers 1 … 7. -/
def sNtt (x : polyq) : polyq :=
  fwdLayer 2 wf7 (fwdLayer 4 wf6 (fwdLayer 8 wf5 (fwdLayer 16 wf4
    (fwdLayer 32 wf3 (fwdLayer 64 wf2 (fwdLayer 128 wf1 x))))))

/-- The `MONT_F = 1441` normalization folded into inverse layer 7. -/
def mScale (x : polyq) : polyq := fun i => wz 1441 * x i

/-- The inverse NTT modulo q: normalization, then layers 7 … 1. -/
def sInv (x : polyq) : polyq :=
  invLayer 128 vi1 (invLayer 64 vi2 (invLayer 32 vi3 (invLayer 16 vi4
    (invLayer 8 vi5 (invLayer 4 vi6 (invLayer 2 vi7 (mScale x)))))))

/-- One matched forward/inverse layer collapses to multiplication by 2:
the sum side needs no twiddle identity, the difference side needs
`w i · v i = -1`. -/
theorem layer_collapse (d : ℕ) (hd : 0 < d) (w v : ℕ → Zq) (x : polyq) (i : ℕ)
    (hwv : w i * v i = -1)
    (hlo : i / d % 2 = 0 → w (i + d) = w i)
    (hhi : i / d % 2 = 1 → w (i - d) = w i) :
    invLayer d v (fwdLayer d w x) i = 2 * x i := by
  rcases Nat.mod_two_eq_zero_or_one (i / d) with h0 | h0
  · have hd1 : (i + d) / d = i / d + 1 := Nat.add_div_right i hd
    simp only [invLayer, fwdLayer, Nat.add_sub_cancel]
    rw [if_pos h0, if_pos h0, if_neg (by omega), hlo h0]
    ring
  · have h1 : 1 ≤ i / d := by
      rcases Nat.eq_zero_or_pos (i / d) with hz | hp
      · rw [hz] at h0; simp at h0
      · exact hp
    have hdle : d ≤ i := (Nat.one_le_div_iff hd).mp h1
    obtain ⟨j, rfl⟩ : ∃ j, i = j + d := ⟨i - d, by omega⟩
    have hd1 : (j + d) / d = j / d + 1 := Nat.add_div_right j hd
    have hj0 : j / d % 2 = 0 := by omega
    have esub : j + d - d = j := by omega
    have hw : w j = w (j + d) := by
      have := hhi h0; rwa [esub] at this
    simp only [invLayer, fwdLayer, esub]
    rw [if_neg (by omega), if_neg (by omega), if_pos hj0, hw]
    linear_combination (-2 : Zq) * x (j + d) * hwv

/-- Forward layers commute with scalar multiplication. -/
theorem fwdLayer_smul (d : ℕ) (w : ℕ → Zq) (c : Zq) (x : polyq) (i : ℕ) :
    fwdLayer d w (fun k => c * x k) i = c * fwdLayer d w x i := by
  unfold fwdLayer
  split <;> ring

/-- Inverse layers commute with scalar multiplication. -/
theorem invLayer_smul (d : ℕ) (v : ℕ → Zq) (c : Zq) (x : polyq) (i : ℕ) :
    invLayer d v (fun k => c * x k) i = c * invLayer d v x i := by
  unfold invLayer
  split <;> ring

/-- An inverse layer only reads indices `< 256` at outputs `< 256` (the
pair distances divide 128). -/
theorem invLayer_congr (d : ℕ)
    (hd : d = 2 ∨ d = 4 ∨ d = 8 ∨ d = 16 ∨ d = 32 ∨ d = 64 ∨ d = 128)
    (v : ℕ → Zq) (g g' : polyq) (h : ∀ k < 256, g k = g' k) :
    ∀ i < 256, invLayer d v g i = invLayer d v g' i := by
  intro i hi
  unfold invLayer
  rcases Nat.mod_two_eq_zero_or_one (i / d) with h0 | h0
  · rw [if_pos h0, if_pos h0, h i hi,
      h (i + d) (by rcases hd with rfl | rfl | rfl | rfl | rfl | rfl | rfl <;> omega)]
  · rw [if_neg (by omega), if_neg (by omega), h i hi, h (i - d) (by omega)]

/-! ### Twiddle identities

For every layer, the forward twiddle and the inverse twiddle at the same
pair multiply to `-1` in `Zq` (in Montgomery interpretation this is
`ζ_fwd · ζ_inv ≡ -2^32 mod q`), and the twiddle is constant on each
butterfly pair.  The first group of facts is a finite computation. -/

theorem wv1 : ∀ i < 256, wf1 i * vi1 i = -1 := by decide

theorem wv2 : ∀ i < 256, wf2 i * vi2 i = -1 := by decide

theorem wv3 : ∀ i < 256, wf3 i * vi3 i = -1 := by decide

theorem wv4 : ∀ i < 256, wf4 i * vi4 i = -1 := by decide

theorem wv5 : ∀ i < 256, wf5 i * vi5 i = -1 := by decide

theorem wv6 : ∀ i < 256, wf6 i * vi6 i = -1 := by decide

theorem wv7 : ∀ i < 256, wf7 i * vi7 i = -1 := by decide

theorem wf1_lo (i : ℕ) : i / 128 % 2 = 0 → wf1 (i + 128) = wf1 i := fun _ => rfl

theorem wf1_hi (i : ℕ) : i / 128 % 2 = 1 → wf1 (i - 128) = wf1 i := fun _ => rfl

theorem wf2_lo (i : ℕ) : i / 64 % 2 = 0 → wf2 (i + 64) = wf2 i := by
  intro h; unfold wf2; rw [show (i + 64) / 128 = i / 128 by omega]

theorem wf2_hi (i : ℕ) : i / 64 % 2 = 1 → wf2 (i - 64) = wf2 i := by
  intro h; unfold wf2; rw [show (i - 64) / 128 = i / 128 by omega]

theorem wf3_lo (i : ℕ) : i / 32 % 2 = 0 → wf3 (i + 32) = wf3 i := by
  intro h; unfold wf3; rw [show (i + 32) / 64 = i / 64 by omega]

theorem wf3_hi (i : ℕ) : i / 32 % 2 = 1 → wf3 (i - 32) = wf3 i := by
  intro h; unfold wf3; rw [show (i - 32) / 64 = i / 64 by omega]

theorem wf4_lo (i : ℕ) : i / 16 % 2 = 0 → wf4 (i + 16) = wf4 i := by
  intro h; unfold wf4; rw [show (i + 16) / 32 = i / 32 by omega]

theorem wf4_hi (i : ℕ) : i / 16 % 2 = 1 → wf4 (i - 16) = wf4 i := by
  intro h; unfold wf4; rw [show (i - 16) / 32 = i / 32 by omega]

theorem wf5_lo (i : ℕ) : i / 8 % 2 = 0 → wf5 (i + 8) = wf5 i := by
  intro h; unfold wf5
  rw [show (i + 8) / 16 = i / 16 by omega, show (i + 8) / 32 = i / 32 by omega]

theorem wf5_hi (i : ℕ) : i / 8 % 2 = 1 → wf5 (i - 8) = wf5 i := by
  intro h; unfold wf5
  rw [show (i - 8) / 16 = i / 16 by omega, show (i - 8) / 32 = i / 32 by omega]

theorem wf6_lo (i : ℕ) : i / 4 % 2 = 0 → wf6 (i + 4) = wf6 i := by
  intro h; unfold wf6; rw [show (i + 4) / 8 = i / 8 by omega]

theorem wf6_hi (i : ℕ) : i / 4 % 2 = 1 → wf6 (i - 4) = wf6 i := by
  intro h; unfold wf6; rw [show (i - 4) / 8 = i / 8 by omega]

theorem wf7_lo (i : ℕ) : i / 2 % 2 = 0 → wf7 (i + 2) = wf7 i := by
  intro h; unfold wf7; rw [show (i + 2) / 4 = i / 4 by omega]

theorem wf7_hi (i : ℕ) : i / 2 % 2 = 1 → wf7 (i - 2) = wf7 i := by
  intro h; unfold wf7; rw [show (i - 2) / 4 = i / 4 by omega]

/-- Collapsing one inverse layer against its forward layer inside a
pointwise chain: if `g` agrees on `[0, 256)` with `c · fwdLayer d w y`,
then `invLayer d v g` agrees with `(2c) · y`. -/
theorem collapse_step (d : ℕ)
    (hd7 : d = 2 ∨ d = 4 ∨ d = 8 ∨ d = 16 ∨ d = 32 ∨ d = 64 ∨ d = 128)
    (hd0 : 0 < d) (w v : ℕ → Zq)
    (hwv : ∀ k < 256, w k * v k = -1)
    (hlo : ∀ k, k / d % 2 = 0 → w (k + d) = w k)
    (hhi : ∀ k, k / d % 2 = 1 → w (k - d) = w k)
    {g y : polyq} {c : Zq}
    (hg : ∀ k < 256, g k = c * fwdLayer d w y k) :
    ∀ k < 256, invLayer d v g k = (2 * c) * y k := by
  intro k hk
  rw [invLayer_congr d hd7 v g (fun k => c * fwdLayer d w y k) hg k hk, invLayer_smul,
    layer_collapse d hd0 w v y k (hwv k hk) (hlo k) (hhi k)]
  ring

/-- The implementation's inverse NTT inverts its forward NTT modulo q, up
to the factor `2^16` (`= 2^7 · MONT_F · 2^-16` with `MONT_F = 1441`). -/
theorem sInv_sNtt (x : polyq) : ∀ k < 256, sInv (sNtt x) k = 65536 * x k := by
  have h7 : ∀ k < 256, mScale (sNtt x) k
      = wz 1441 * fwdLayer 2 wf7 (fwdLayer 4 wf6 (fwdLayer 8 wf5 (fwdLayer 16 wf4
          (fwdLayer 32 wf3 (fwdLayer 64 wf2 (fwdLayer 128 wf1 x)))))) k := by
    intro k _; rfl
  have H7 := collapse_step 2 (by tauto) (by norm_num) wf7 vi7 wv7 wf7_lo wf7_hi h7
  have H6 := collapse_step 4 (by tauto) (by norm_num) wf6 vi6 wv6 wf6_lo wf6_hi H7
  have H5 := collapse_step 8 (by tauto) (by norm_num) wf5 vi5 wv5 wf5_lo wf5_hi H6
  have H4 := collapse_step 16 (by tauto) (by norm_num) wf4 vi4 wv4 wf4_lo wf4_hi H5
  have H3 := collapse_step 32 (by tauto) (by norm_num) wf3 vi3 wv3 wf3_lo wf3_hi H4
  have H2 := collapse_step 64 (by tauto) (by norm_num) wf2 vi2 wv2 wf2_lo wf2_hi H3
  have H1 := collapse_step 128 (by tauto) (by norm_num) wf1 vi1 wv1 wf1_lo wf1_hi H2
  intro k hk
  have hC : (2 * (2 * (2 * (2 * (2 * (2 * (2 * wz 1441))))))) = (65536 : Zq) := by decide
  have := H1 k hk
  rw [show (2 : Zq) * (2 * (2 * (2 * (2 * (2 * (2 * wz 1441)))))) * x k
      = (2 * (2 * (2 * (2 * (2 * (2 * (2 * wz 1441))))))) * x k from by ring, hC] at this
  exact this

/-! ## Correspondence of the C layers with the layers modulo q -/

theorem fwdLayer_lo (d : ℕ) (w : ℕ → Zq) (x : polyq) (i : ℕ) (h : i / d % 2 = 0) :
    fwdLayer d w x i = x i + w i * x (i + d) := by
  unfold fwdLayer; rw [if_pos h]

theorem fwdLayer_hi (d : ℕ) (w : ℕ → Zq) (x : polyq) (i : ℕ) (h : i / d % 2 = 1) :
    fwdLayer d w x i = x (i - d) - w i * x i := by
  unfold fwdLayer; rw [if_neg (by omega)]

theorem invLayer_lo (d : ℕ) (v : ℕ → Zq) (x : polyq) (i : ℕ) (h : i / d % 2 = 0) :
    invLayer d v x i = x i + x (i + d) := by
  unfold invLayer; rw [if_pos h]

theorem invLayer_hi (d : ℕ) (v : ℕ → Zq) (x : polyq) (i : ℕ) (h : i / d % 2 = 1) :
    invLayer d v x i = (x i - x (i - d)) * v i := by
  unfold invLayer; rw [if_neg (by omega)]

/-- Layer 6 of the forward NTT tracks `fwdLayer 4 wf6` modulo q and grows
the coefficient bound by `q - 1`. -/
theorem ntt_layer6_main (r : poly) (y : polyq) (B : ℤ)
    (hB1 : 0 ≤ B) (hB2 : B ≤ 29439)
    (hb : ∀ k < 256, -B ≤ r k ∧ r k ≤ B)
    (hy : ∀ k < 256, ((r k : ℤ) : Zq) = y k) :
    ∀ i < 256, (-(B + 3328) ≤ Ref.ntt_layer6 r i ∧ Ref.ntt_layer6 r i ≤ B + 3328) ∧
      ((Ref.ntt_layer6 r i : ℤ) : Zq) = fwdLayer 4 wf6 y i := by
  intro i hi
  have hz := mlkem_layer6_zetas_bound (i / 8)
  rcases Nat.mod_two_eq_zero_or_one (i / 4) with h4 | h4
  · have hb8 : 8 * (i / 8) + i % 4 = i := by omega
    have hbi := hb i hi
    have hbj := hb (i + 4) (by omega)
    obtain ⟨hm1, hm2, hm3, hm4⟩ :=
      ct_butterfly_main (r i) (r (i + 4)) (mlkem_layer6_zetas.getD (i / 8) 0) B
        hbi.1 hbi.2 (by omega) (by omega) hz.1 hz.2 (by omega)
    have hout : Ref.ntt_layer6 r i
        = (ct_butterfly (r i) (r (i + 4)) (mlkem_layer6_zetas.getD (i / 8) 0)).1 := by
      simp only [Ref.ntt_layer6, hb8]
      rw [if_pos (by omega : i % 8 / 4 = 0)]
    rw [hout]
    refine ⟨⟨hm1.1, hm1.2⟩, ?_⟩
    rw [hm3, hy i hi, hy (i + 4) (by omega), fwdLayer_lo 4 wf6 y i h4]
    simp only [wf6, wz]
  · have hb8 : 8 * (i / 8) + i % 4 = i - 4 := by omega
    have hadd : i - 4 + 4 = i := by omega
    have hbi := hb i hi
    have hbj := hb (i - 4) (by omega)
    obtain ⟨hm1, hm2, hm3, hm4⟩ :=
      ct_butterfly_main (r (i - 4)) (r i) (mlkem_layer6_zetas.getD (i / 8) 0) B
        hbj.1 hbj.2 (by omega) (by omega) hz.1 hz.2 (by omega)
    have hout : Ref.ntt_layer6 r i
        = (ct_butterfly (r (i - 4)) (r i) (mlkem_layer6_zetas.getD (i / 8) 0)).2 := by
      simp only [Ref.ntt_layer6, hb8, hadd]
      rw [if_neg (by omega : ¬ i % 8 / 4 = 0)]
    rw [hout]
    refine ⟨⟨hm2.1, hm2.2⟩, ?_⟩
    rw [hm4, hy i hi, hy (i - 4) (by omega), fwdLayer_hi 4 wf6 y i h4]
    simp only [wf6, wz]

/-- Layer 7 of the forward NTT tracks `fwdLayer 2 wf7` modulo q and grows
the coefficient bound by `q - 1`. -/
theorem ntt_layer7_main (r : poly) (y : polyq) (B : ℤ)
    (hB1 : 0 ≤ B) (hB2 : B ≤ 29439)
    (hb : ∀ k < 256, -B ≤ r k ∧ r k ≤ B)
    (hy : ∀ k < 256, ((r k : ℤ) : Zq) = y k) :
    ∀ i < 256, (-(B + 3328) ≤ Ref.ntt_layer7 r i ∧ Ref.ntt_layer7 r i ≤ B + 3328) ∧
      ((Ref.ntt_layer7 r i : ℤ) : Zq) = fwdLayer 2 wf7 y i := by
  intro i hi
  have hz := mlkem_layer7_zetas_bound (i / 4)
  have h4 : i % 4 = 0 ∨ i % 4 = 1 ∨ i % 4 = 2 ∨ i % 4 = 3 := by omega
  rcases h4 with h4 | h4 | h4 | h4
  · have hbi := hb i hi
    have hbj := hb (i + 2) (by omega)
    obtain ⟨⟨hf1, hf2⟩, hfc⟩ :=
      fqmul_main (r (i + 2)) (mlkem_layer7_zetas.getD (i / 4) 0)
        (by omega) (by omega) hz.1 hz.2
    have hout : Ref.ntt_layer7 r i
        = wrap16 (r i + fqmul (r (i + 2)) (mlkem_layer7_zetas.getD (i / 4) 0)) := by
      simp only [Ref.ntt_layer7]
      rw [if_pos h4, show 4 * (i / 4) = i from by omega]
    rw [hout, wrap16_eq_of _ (by omega) (by omega)]
    refine ⟨by omega, ?_⟩
    push_cast
    rw [hfc, hy i hi, hy (i + 2) (by omega), fwdLayer_lo 2 wf7 y i (by omega)]
    simp only [wf7, wz]
    ring
  · have hbi := hb i hi
    have hbj := hb (i + 2) (by omega)
    obtain ⟨⟨hf1, hf2⟩, hfc⟩ :=
      fqmul_main (r (i + 2)) (mlkem_layer7_zetas.getD (i / 4) 0)
        (by omega) (by omega) hz.1 hz.2
    have hout : Ref.ntt_layer7 r i
        = wrap16 (r i + fqmul (r (i + 2)) (mlkem_layer7_zetas.getD (i / 4) 0)) := by
      simp only [Ref.ntt_layer7]
      rw [if_neg (by omega), if_pos h4, show 4 * (i / 4) + 1 = i from by omega,
        show 4 * (i / 4) + 3 = i + 2 from by omega]
    rw [hout, wrap16_eq_of _ (by omega) (by omega)]
    refine ⟨by omega, ?_⟩
    push_cast
    rw [hfc, hy i hi, hy (i + 2) (by omega), fwdLayer_lo 2 wf7 y i (by omega)]
    simp only [wf7, wz]
    ring
  · have hbi := hb i hi
    have hbj := hb (i - 2) (by omega)
    obtain ⟨⟨hf1, hf2⟩, hfc⟩ :=
      fqmul_main (r i) (mlkem_layer7_zetas.getD (i / 4) 0)
        (by omega) (by omega) hz.1 hz.2
    have hout : Ref.ntt_layer7 r i
        = wrap16 (r (i - 2) - fqmul (r i) (mlkem_layer7_zetas.getD (i / 4) 0)) := by
      simp only [Ref.ntt_layer7]
      rw [if_neg (by omega), if_neg (by omega), if_pos h4,
        show 4 * (i / 4) = i - 2 from by omega, show i - 2 + 2 = i from by omega]
    rw [hout, wrap16_eq_of _ (by omega) (by omega)]
    refine ⟨by omega, ?_⟩
    push_cast
    rw [hfc, hy i hi, hy (i - 2) (by omega), fwdLayer_hi 2 wf7 y i (by omega)]
    simp only [wf7, wz]
    ring
  · have hbi := hb i hi
    have hbj := hb (i - 2) (by omega)
    obtain ⟨⟨hf1, hf2⟩, hfc⟩ :=
      fqmul_main (r i) (mlkem_layer7_zetas.getD (i / 4) 0)
        (by omega) (by omega) hz.1 hz.2
    have hout : Ref.ntt_layer7 r i
        = wrap16 (r (i - 2) - fqmul (r i) (mlkem_layer7_zetas.getD (i / 4) 0)) := by
      simp only [Ref.ntt_layer7]
      rw [if_neg (by omega), if_neg (by omega), if_neg (by omega),
        show 4 * (i / 4) + 1 = i - 2 from by omega, show 4 * (i / 4) + 3 = i from by omega]
    rw [hout, wrap16_eq_of _ (by omega) (by omega)]
    refine ⟨by omega, ?_⟩
    push_cast
    rw [hfc, hy i hi, hy (i - 2) (by omega), fwdLayer_hi 2 wf7 y i (by omega)]
    simp only [wf7, wz]
    ring

/-- Merged layers 4-5 of the forward NTT track
`fwdLayer 8 wf5 ∘ fwdLayer 16 wf4` modulo q and grow the bound by
`2(q - 1)`. -/
theorem ntt_layer45_main (r : poly) (y : polyq) (B : ℤ)
    (hB1 : 0 ≤ B) (hB2 : B ≤ 26111)
    (hb : ∀ k < 256, -B ≤ r k ∧ r k ≤ B)
    (hy : ∀ k < 256, ((r k : ℤ) : Zq) = y k) :
    ∀ i < 256, (-(B + 6656) ≤ Ref.ntt_layer45 r i ∧ Ref.ntt_layer45 r i ≤ B + 6656) ∧
      ((Ref.ntt_layer45 r i : ℤ) : Zq) = fwdLayer 8 wf5 (fwdLayer 16 wf4 y) i := by
  intro i hi
  have hz1 := mlkem_layer4_zetas_bound (i / 32)
  have hz2 := mlkem_layer5_even_zetas_bound (i / 32)
  have hz3 := mlkem_layer5_odd_zetas_bound (i / 32)
  have h4 : i % 32 / 8 = 0 ∨ i % 32 / 8 = 1 ∨ i % 32 / 8 = 2 ∨ i % 32 / 8 = 3 := by omega
  rcases h4 with h4 | h4 | h4 | h4
  · obtain ⟨hp1a, hp1b, hp1c, hp1d⟩ :=
      ct_butterfly_main (r i) (r (i + 16)) (mlkem_layer4_zetas.getD (i / 32) 0) B
        (hb i hi).1 (hb i hi).2 (by have := hb (i + 16) (by omega); omega) (by
          have := hb (i + 16) (by omega); omega) hz1.1 hz1.2 (by omega)
    obtain ⟨hp2a, hp2b, hp2c, hp2d⟩ :=
      ct_butterfly_main (r (i + 8)) (r (i + 24)) (mlkem_layer4_zetas.getD (i / 32) 0) B
        (hb (i + 8) (by omega)).1 (hb (i + 8) (by omega)).2 (by have := hb (i + 24) (by omega); omega) (by
          have := hb (i + 24) (by omega); omega) hz1.1 hz1.2 (by omega)
    obtain ⟨hq1a, hq1b, hq1c, hq1d⟩ :=
      ct_butterfly_main (ct_butterfly (r i) (r (i + 16)) (mlkem_layer4_zetas.getD (i / 32) 0)).1
        (ct_butterfly (r (i + 8)) (r (i + 24)) (mlkem_layer4_zetas.getD (i / 32) 0)).1
        (mlkem_layer5_even_zetas.getD (i / 32) 0) (B + 3328)
        hp1a.1 hp1a.2 (by omega) (by omega) hz2.1 hz2.2 (by omega)
    have hout : Ref.ntt_layer45 r i
        = (ct_butterfly (ct_butterfly (r i) (r (i + 16)) (mlkem_layer4_zetas.getD (i / 32) 0)).1
            (ct_butterfly (r (i + 8)) (r (i + 24)) (mlkem_layer4_zetas.getD (i / 32) 0)).1
            (mlkem_layer5_even_zetas.getD (i / 32) 0)).1 := by
      simp only [Ref.ntt_layer45]
      rw [if_pos h4, show 32 * (i / 32) + i % 8 = i from by omega]
    rw [hout]
    refine ⟨⟨by omega, by omega⟩, ?_⟩
    rw [hq1c, hp1c, hp2c, hy i hi, hy (i + 8) (by omega), hy (i + 16) (by omega),
      hy (i + 24) (by omega), fwdLayer_lo 8 wf5 _ i (by omega),
      fwdLayer_lo 16 wf4 y i (by omega), fwdLayer_lo 16 wf4 y (i + 8) (by omega)]
    simp only [wf4, wf5, wz]
    rw [if_pos (by omega : i / 16 % 2 = 0), show (i + 8) / 32 = i / 32 from by omega]
  · obtain ⟨hp1a, hp1b, hp1c, hp1d⟩ :=
      ct_butterfly_main (r (i - 8)) (r (i + 8)) (mlkem_layer4_zetas.getD (i / 32) 0) B
        (hb (i - 8) (by omega)).1 (hb (i - 8) (by omega)).2 (by have := hb (i + 8) (by omega); omega) (by
          have := hb (i + 8) (by omega); omega) hz1.1 hz1.2 (by omega)
    obtain ⟨hp2a, hp2b, hp2c, hp2d⟩ :=
      ct_butterfly_main (r i) (r (i + 16)) (mlkem_layer4_zetas.getD (i / 32) 0) B
        (hb i hi).1 (hb i hi).2 (by have := hb (i + 16) (by omega); omega) (by
          have := hb (i + 16) (by omega); omega) hz1.1 hz1.2 (by omega)
    obtain ⟨hq1a, hq1b, hq1c, hq1d⟩ :=
      ct_butterfly_main (ct_butterfly (r (i - 8)) (r (i + 8)) (mlkem_layer4_zetas.getD (i / 32) 0)).1
        (ct_butterfly (r i) (r (i + 16)) (mlkem_layer4_zetas.getD (i / 32) 0)).1
        (mlkem_layer5_even_zetas.getD (i / 32) 0) (B + 3328)
        hp1a.1 hp1a.2 (by omega) (by omega) hz2.1 hz2.2 (by omega)
    have hout : Ref.ntt_layer45 r i
        = (ct_butterfly (ct_butterfly (r (i - 8)) (r (i + 8)) (mlkem_layer4_zetas.getD (i / 32) 0)).1
            (ct_butterfly (r i) (r (i + 16)) (mlkem_layer4_zetas.getD (i / 32) 0)).1
            (mlkem_layer5_even_zetas.getD (i / 32) 0)).2 := by
      simp only [Ref.ntt_layer45]
      rw [if_neg (by omega), if_pos h4, show 32 * (i / 32) + i % 8 = i - 8 from by omega,
        show i - 8 + 8 = i from by omega, show i - 8 + 16 = i + 8 from by omega,
        show i - 8 + 24 = i + 16 from by omega]
    rw [hout]
    refine ⟨⟨by omega, by omega⟩, ?_⟩
    rw [hq1d, hp1c, hp2c, hy i hi, hy (i - 8) (by omega), hy (i + 8) (by omega),
      hy (i + 16) (by omega), fwdLayer_hi 8 wf5 _ i (by omega),
      fwdLayer_lo 16 wf4 y (i - 8) (by omega), fwdLayer_lo 16 wf4 y i (by omega)]
    simp only [wf4, wf5, wz]
    rw [if_pos (by omega : i / 16 % 2 = 0), show (i - 8) / 32 = i / 32 from by omega,
      show i - 8 + 16 = i + 8 from by omega]
  · obtain ⟨hp1a, hp1b, hp1c, hp1d⟩ :=
      ct_butterfly_main (r (i - 16)) (r i) (mlkem_layer4_zetas.getD (i / 32) 0) B
        (hb (i - 16) (by omega)).1 (hb (i - 16) (by omega)).2 (by have := hb i hi; omega) (by
          have := hb i hi; omega) hz1.1 hz1.2 (by omega)
    obtain ⟨hp2a, hp2b, hp2c, hp2d⟩ :=
      ct_butterfly_main (r (i - 8)) (r (i + 8)) (mlkem_layer4_zetas.getD (i / 32) 0) B
        (hb (i - 8) (by omega)).1 (hb (i - 8) (by omega)).2 (by have := hb (i + 8) (by omega); omega) (by
          have := hb (i + 8) (by omega); omega) hz1.1 hz1.2 (by omega)
    obtain ⟨hq2a, hq2b, hq2c, hq2d⟩ :=
      ct_butterfly_main (ct_butterfly (r (i - 16)) (r i) (mlkem_layer4_zetas.getD (i / 32) 0)).2
        (ct_butterfly (r (i - 8)) (r (i + 8)) (mlkem_layer4_zetas.getD (i / 32) 0)).2
        (mlkem_layer5_odd_zetas.getD (i / 32) 0) (B + 3328)
        hp1b.1 hp1b.2 (by omega) (by omega) hz3.1 hz3.2 (by omega)
    have hout : Ref.ntt_layer45 r i
        = (ct_butterfly (ct_butterfly (r (i - 16)) (r i) (mlkem_layer4_zetas.getD (i / 32) 0)).2
            (ct_butterfly (r (i - 8)) (r (i + 8)) (mlkem_layer4_zetas.getD (i / 32) 0)).2
            (mlkem_layer5_odd_zetas.getD (i / 32) 0)).1 := by
      simp only [Ref.ntt_layer45]
      rw [if_neg (by omega), if_neg (by omega), if_pos h4,
        show 32 * (i / 32) + i % 8 = i - 16 from by omega,
        show i - 16 + 16 = i from by omega, show i - 16 + 8 = i - 8 from by omega,
        show i - 16 + 24 = i + 8 from by omega]
    rw [hout]
    refine ⟨⟨by omega, by omega⟩, ?_⟩
    rw [hq2c, hp1d, hp2d, hy i hi, hy (i - 16) (by omega), hy (i - 8) (by omega),
      hy (i + 8) (by omega), fwdLayer_lo 8 wf5 _ i (by omega),
      fwdLayer_hi 16 wf4 y i (by omega), fwdLayer_hi 16 wf4 y (i + 8) (by omega)]
    simp only [wf4, wf5, wz]
    rw [if_neg (by omega : ¬ i / 16 % 2 = 0), show (i + 8) / 32 = i / 32 from by omega,
      show i + 8 - 16 = i - 8 from by omega]
  · obtain ⟨hp1a, hp1b, hp1c, hp1d⟩ :=
      ct_butterfly_main (r (i - 24)) (r (i - 8)) (mlkem_layer4_zetas.getD (i / 32) 0) B
        (hb (i - 24) (by omega)).1 (hb (i - 24) (by omega)).2 (by have := hb (i - 8) (by omega); omega) (by
          have := hb (i - 8) (by omega); omega) hz1.1 hz1.2 (by omega)
    obtain ⟨hp2a, hp2b, hp2c, hp2d⟩ :=
      ct_butterfly_main (r (i - 16)) (r i) (mlkem_layer4_zetas.getD (i / 32) 0) B
        (hb (i - 16) (by omega)).1 (hb (i - 16) (by omega)).2 (by have := hb i hi; omega) (by
          have := hb i hi; omega) hz1.1 hz1.2 (by omega)
    obtain ⟨hq2a, hq2b, hq2c, hq2d⟩ :=
      ct_butterfly_main (ct_butterfly (r (i - 24)) (r (i - 8)) (mlkem_layer4_zetas.getD (i / 32) 0)).2
        (ct_butterfly (r (i - 16)) (r i) (mlkem_layer4_zetas.getD (i / 32) 0)).2
        (mlkem_layer5_odd_zetas.getD (i / 32) 0) (B + 3328)
        hp1b.1 hp1b.2 (by omega) (by omega) hz3.1 hz3.2 (by omega)
    have hout : Ref.ntt_layer45 r i
        = (ct_butterfly (ct_butterfly (r (i - 24)) (r (i - 8)) (mlkem_layer4_zetas.getD (i / 32) 0)).2
            (ct_butterfly (r (i - 16)) (r i) (mlkem_layer4_zetas.getD (i / 32) 0)).2
            (mlkem_layer5_odd_zetas.getD (i / 32) 0)).2 := by
      simp only [Ref.ntt_layer45]
      rw [if_neg (by omega), if_neg (by omega), if_neg (by omega),
        show 32 * (i / 32) + i % 8 = i - 24 from by omega,
        show i - 24 + 16 = i - 8 from by omega, show i - 24 + 8 = i - 16 from by omega,
        show i - 24 + 24 = i from by omega]
    rw [hout]
    refine ⟨⟨by omega, by omega⟩, ?_⟩
    rw [hq2d, hp1d, hp2d, hy i hi, hy (i - 24) (by omega), hy (i - 16) (by omega),
      hy (i - 8) (by omega), fwdLayer_hi 8 wf5 _ i (by omega),
      fwdLayer_hi 16 wf4 y (i - 8) (by omega), fwdLayer_hi 16 wf4 y i (by omega)]
    simp only [wf4, wf5, wz]
    rw [if_neg (by omega : ¬ i / 16 % 2 = 0), show (i - 8) / 32 = i / 32 from by omega,
      show i - 8 - 16 = i - 24 from by omega]


/-- List lookup values used when resolving the layer 1-3 twiddles. -/
theorem getD_l2_0 : [mlkem_l2zeta2, mlkem_l2zeta3].getD 0 0 = mlkem_l2zeta2 := rfl

theorem getD_l2_1 : [mlkem_l2zeta2, mlkem_l2zeta3].getD 1 0 = mlkem_l2zeta3 := rfl

theorem getD_l3_0 : [mlkem_l3zeta4, mlkem_l3zeta5, mlkem_l3zeta6, mlkem_l3zeta7].getD 0 0 = mlkem_l3zeta4 := rfl

theorem getD_l3_1 : [mlkem_l3zeta4, mlkem_l3zeta5, mlkem_l3zeta6, mlkem_l3zeta7].getD 1 0 = mlkem_l3zeta5 := rfl

theorem getD_l3_2 : [mlkem_l3zeta4, mlkem_l3zeta5, mlkem_l3zeta6, mlkem_l3zeta7].getD 2 0 = mlkem_l3zeta6 := rfl

theorem getD_l3_3 : [mlkem_l3zeta4, mlkem_l3zeta5, mlkem_l3zeta6, mlkem_l3zeta7].getD 3 0 = mlkem_l3zeta7 := rfl

/-- Merged layers 1-3 of the forward NTT track
`fwdLayer 32 wf3 ∘ fwdLayer 64 wf2 ∘ fwdLayer 128 wf1` modulo q and grow
the bound by `3(q - 1)`. -/
theorem ntt_layer123_main (r : poly) (y : polyq) (B : ℤ)
    (hB1 : 0 ≤ B) (hB2 : B ≤ 3329)
    (hb : ∀ k < 256, -B ≤ r k ∧ r k ≤ B)
    (hy : ∀ k < 256, ((r k : ℤ) : Zq) = y k) :
    ∀ i < 256, (-(B + 9984) ≤ Ref.ntt_layer123 r i ∧ Ref.ntt_layer123 r i ≤ B + 9984) ∧
      ((Ref.ntt_layer123 r i : ℤ) : Zq)
        = fwdLayer 32 wf3 (fwdLayer 64 wf2 (fwdLayer 128 wf1 y)) i := by
  intro i hi
  have h8 : i / 32 = 0 ∨ i / 32 = 1 ∨ i / 32 = 2 ∨ i / 32 = 3 ∨ i / 32 = 4 ∨
      i / 32 = 5 ∨ i / 32 = 6 ∨ i / 32 = 7 := by omega
  rcases h8 with h4 | h4 | h4 | h4 | h4 | h4 | h4 | h4
  · obtain ⟨hp1a, hp1b, hp1c, hp1d⟩ :=
      ct_butterfly_main (r i) (r (i + 128)) mlkem_l1zeta1 B
        (hb i (by omega)).1 (hb i (by omega)).2
        (by have := hb (i + 128) (by omega); omega)
        (by have := hb (i + 128) (by omega); omega)
        (by decide) (by decide) (by omega)
    obtain ⟨hp2a, hp2b, hp2c, hp2d⟩ :=
      ct_butterfly_main (r (i + 64)) (r (i + 192)) mlkem_l1zeta1 B
        (hb (i + 64) (by omega)).1 (hb (i + 64) (by omega)).2
        (by have := hb (i + 192) (by omega); omega)
        (by have := hb (i + 192) (by omega); omega)
        (by decide) (by decide) (by omega)
    obtain ⟨hp3a, hp3b, hp3c, hp3d⟩ :=
      ct_butterfly_main (r (i + 32)) (r (i + 160)) mlkem_l1zeta1 B
        (hb (i + 32) (by omega)).1 (hb (i + 32) (by omega)).2
        (by have := hb (i + 160) (by omega); omega)
        (by have := hb (i + 160) (by omega); omega)
        (by decide) (by decide) (by omega)
    obtain ⟨hp4a, hp4b, hp4c, hp4d⟩ :=
      ct_butterfly_main (r (i + 96)) (r (i + 224)) mlkem_l1zeta1 B
        (hb (i + 96) (by omega)).1 (hb (i + 96) (by omega)).2
        (by have := hb (i + 224) (by omega); omega)
        (by have := hb (i + 224) (by omega); omega)
        (by decide) (by decide) (by omega)
    obtain ⟨hq1a, hq1b, hq1c, hq1d⟩ :=
      ct_butterfly_main (ct_butterfly (r i) (r (i + 128)) mlkem_l1zeta1).1 (ct_butterfly (r (i + 64)) (r (i + 192)) mlkem_l1zeta1).1 mlkem_l2zeta2 (B + 3328)
        hp1a.1 hp1a.2 (by omega) (by omega) (by decide) (by decide) (by omega)
    obtain ⟨hq3a, hq3b, hq3c, hq3d⟩ :=
      ct_butterfly_main (ct_butterfly (r (i + 32)) (r (i + 160)) mlkem_l1zeta1).1 (ct_butterfly (r (i + 96)) (r (i + 224)) mlkem_l1zeta1).1 mlkem_l2zeta2 (B + 3328)
        hp3a.1 hp3a.2 (by omega) (by omega) (by decide) (by decide) (by omega)
    obtain ⟨hs1a, hs1b, hs1c, hs1d⟩ :=
      ct_butterfly_main (ct_butterfly (ct_butterfly (r i) (r (i + 128)) mlkem_l1zeta1).1 (ct_butterfly (r (i + 64)) (r (i + 192)) mlkem_l1zeta1).1 mlkem_l2zeta2).1 (ct_butterfly (ct_butterfly (r (i + 32)) (r (i + 160)) mlkem_l1zeta1).1 (ct_butterfly (r (i + 96)) (r (i + 224)) mlkem_l1zeta1).1 mlkem_l2zeta2).1 mlkem_l3zeta4 (B + 6656)
        (by omega) (by omega) (by omega) (by omega) (by decide) (by decide) (by omega)
    have hout : Ref.ntt_layer123 r i = (ct_butterfly (ct_butterfly (ct_butterfly (r i) (r (i + 128)) mlkem_l1zeta1).1 (ct_butterfly (r (i + 64)) (r (i + 192)) mlkem_l1zeta1).1 mlkem_l2zeta2).1 (ct_butterfly (ct_butterfly (r (i + 32)) (r (i + 160)) mlkem_l1zeta1).1 (ct_butterfly (r (i + 96)) (r (i + 224)) mlkem_l1zeta1).1 mlkem_l2zeta2).1 mlkem_l3zeta4).1 := by
      simp only [Ref.ntt_layer123]
      rw [if_pos h4]
      rw [show i % 32 = i from by omega]
    rw [hout]
    refine ⟨⟨by omega, by omega⟩, ?_⟩
    rw [hs1c, hq1c, hq3c, hp1c, hp2c, hp3c, hp4c]
    rw [hy i (by omega),
      hy (i + 32) (by omega),
      hy (i + 64) (by omega),
      hy (i + 96) (by omega),
      hy (i + 128) (by omega),
      hy (i + 160) (by omega),
      hy (i + 192) (by omega),
      hy (i + 224) (by omega)]
    rw [fwdLayer_lo 32 wf3 _ i (by omega),
      fwdLayer_lo 64 wf2 _ i (by omega),
      fwdLayer_lo 64 wf2 _ (i + 32) (by omega)]
    rw [show i + 32 + 64 = i + 96 from by omega]
    rw [fwdLayer_lo 128 wf1 y i (by omega),
      fwdLayer_lo 128 wf1 y (i + 64) (by omega),
      fwdLayer_lo 128 wf1 y (i + 32) (by omega),
      fwdLayer_lo 128 wf1 y (i + 96) (by omega)]
    rw [show i + 64 + 128 = i + 192 from by omega,
      show i + 32 + 128 = i + 160 from by omega,
      show i + 96 + 128 = i + 224 from by omega]
    simp only [wf1, wf2, wf3, wz]
    rw [show i / 64 = 0 from by omega,
      getD_l3_0,
      show i / 128 = 0 from by omega,
      show (i + 32) / 128 = 0 from by omega,
      getD_l2_0]
  · obtain ⟨hp1a, hp1b, hp1c, hp1d⟩ :=
      ct_butterfly_main (r (i - 32)) (r (i + 96)) mlkem_l1zeta1 B
        (hb (i - 32) (by omega)).1 (hb (i - 32) (by omega)).2
        (by have := hb (i + 96) (by omega); omega)
        (by have := hb (i + 96) (by omega); omega)
        (by decide) (by decide) (by omega)
    obtain ⟨hp2a, hp2b, hp2c, hp2d⟩ :=
      ct_butterfly_main (r (i + 32)) (r (i + 160)) mlkem_l1zeta1 B
        (hb (i + 32) (by omega)).1 (hb (i + 32) (by omega)).2
        (by have := hb (i + 160) (by omega); omega)
        (by have := hb (i + 160) (by omega); omega)
        (by decide) (by decide) (by omega)
    obtain ⟨hp3a, hp3b, hp3c, hp3d⟩ :=
      ct_butterfly_main (r i) (r (i + 128)) mlkem_l1zeta1 B
        (hb i (by omega)).1 (hb i (by omega)).2
        (by have := hb (i + 128) (by omega); omega)
        (by have := hb (i + 128) (by omega); omega)
        (by decide) (by decide) (by omega)
    obtain ⟨hp4a, hp4b, hp4c, hp4d⟩ :=
      ct_butterfly_main (r (i + 64)) (r (i + 192)) mlkem_l1zeta1 B
        (hb (i + 64) (by omega)).1 (hb (i + 64) (by omega)).2
        (by have := hb (i + 192) (by omega); omega)
        (by have := hb (i + 192) (by omega); omega)
        (by decide) (by decide) (by omega)
    obtain ⟨hq1a, hq1b, hq1c, hq1d⟩ :=
      ct_butterfly_main (ct_butterfly (r (i - 32)) (r (i + 96)) mlkem_l1zeta1).1 (ct_butterfly (r (i + 32)) (r (i + 160)) mlkem_l1zeta1).1 mlkem_l2zeta2 (B + 3328)
        hp1a.1 hp1a.2 (by omega) (by omega) (by decide) (by decide) (by omega)
    obtain ⟨hq3a, hq3b, hq3c, hq3d⟩ :=
      ct_butterfly_main (ct_butterfly (r i) (r (i + 128)) mlkem_l1zeta1).1 (ct_butterfly (r (i + 64)) (r (i + 192)) mlkem_l1zeta1).1 mlkem_l2zeta2 (B + 3328)
        hp3a.1 hp3a.2 (by omega) (by omega) (by decide) (by decide) (by omega)
    obtain ⟨hs1a, hs1b, hs1c, hs1d⟩ :=
      ct_butterfly_main (ct_butterfly (ct_butterfly (r (i - 32)) (r (i + 96)) mlkem_l1zeta1).1 (ct_butterfly (r (i + 32)) (r (i + 160)) mlkem_l1zeta1).1 mlkem_l2zeta2).1 (ct_butterfly (ct_butterfly (r i) (r (i + 128)) mlkem_l1zeta1).1 (ct_butterfly (r (i + 64)) (r (i + 192)) mlkem_l1zeta1).1 mlkem_l2zeta2).1 mlkem_l3zeta4 (B + 6656)
        (by omega) (by omega) (by omega) (by omega) (by decide) (by decide) (by omega)
    have hout : Ref.ntt_layer123 r i = (ct_butterfly (ct_butterfly (ct_butterfly (r (i - 32)) (r (i + 96)) mlkem_l1zeta1).1 (ct_butterfly (r (i + 32)) (r (i + 160)) mlkem_l1zeta1).1 mlkem_l2zeta2).1 (ct_butterfly (ct_butterfly (r i) (r (i + 128)) mlkem_l1zeta1).1 (ct_butterfly (r (i + 64)) (r (i + 192)) mlkem_l1zeta1).1 mlkem_l2zeta2).1 mlkem_l3zeta4).2 := by
      simp only [Ref.ntt_layer123]
      rw [if_neg (by omega), if_pos h4]
      rw [show i % 32 = i - 32 from by omega,
        show i - 32 + 128 = i + 96 from by omega,
        show i - 32 + 64 = i + 32 from by omega,
        show i - 32 + 192 = i + 160 from by omega,
        show i - 32 + 32 = i from by omega,
        show i - 32 + 160 = i + 128 from by omega,
        show i - 32 + 96 = i + 64 from by omega,
        show i - 32 + 224 = i + 192 from by omega]
    rw [hout]
    refine ⟨⟨by omega, by omega⟩, ?_⟩
    rw [hs1d, hq1c, hq3c, hp1c, hp2c, hp3c, hp4c]
    rw [hy (i - 32) (by omega),
      hy i (by omega),
      hy (i + 32) (by omega),
      hy (i + 64) (by omega),
      hy (i + 96) (by omega),
      hy (i + 128) (by omega),
      hy (i + 160) (by omega),
      hy (i + 192) (by omega)]
    rw [fwdLayer_hi 32 wf3 _ i (by omega),
      fwdLayer_lo 64 wf2 _ (i - 32) (by omega),
      fwdLayer_lo 64 wf2 _ i (by omega)]
    rw [show i - 32 + 64 = i + 32 from by omega]
    rw [fwdLayer_lo 128 wf1 y (i - 32) (by omega),
      fwdLayer_lo 128 wf1 y (i + 32) (by omega),
      fwdLayer_lo 128 wf1 y i (by omega),
      fwdLayer_lo 128 wf1 y (i + 64) (by omega)]
    rw [show i - 32 + 128 = i + 96 from by omega,
      show i + 32 + 128 = i + 160 from by omega,
      show i + 64 + 128 = i + 192 from by omega]
    simp only [wf1, wf2, wf3, wz]
    rw [show i / 64 = 0 from by omega,
      getD_l3_0,
      show (i - 32) / 128 = 0 from by omega,
      show i / 128 = 0 from by omega,
      getD_l2_0]
  · obtain ⟨hp1a, hp1b, hp1c, hp1d⟩ :=
      ct_butterfly_main (r (i - 64)) (r (i + 64)) mlkem_l1zeta1 B
        (hb (i - 64) (by omega)).1 (hb (i - 64) (by omega)).2
        (by have := hb (i + 64) (by omega); omega)
        (by have := hb (i + 64) (by omega); omega)
        (by decide) (by decide) (by omega)
    obtain ⟨hp2a, hp2b, hp2c, hp2d⟩ :=
      ct_butterfly_main (r i) (r (i + 128)) mlkem_l1zeta1 B
        (hb i (by omega)).1 (hb i (by omega)).2
        (by have := hb (i + 128) (by omega); omega)
        (by have := hb (i + 128) (by omega); omega)
        (by decide) (by decide) (by omega)
    obtain ⟨hp3a, hp3b, hp3c, hp3d⟩ :=
      ct_butterfly_main (r (i - 32)) (r (i + 96)) mlkem_l1zeta1 B
        (hb (i - 32) (by omega)).1 (hb (i - 32) (by omega)).2
        (by have := hb (i + 96) (by omega); omega)
        (by have := hb (i + 96) (by omega); omega)
        (by decide) (by decide) (by omega)
    obtain ⟨hp4a, hp4b, hp4c, hp4d⟩ :=
      ct_butterfly_main (r (i + 32)) (r (i + 160)) mlkem_l1zeta1 B
        (hb (i + 32) (by omega)).1 (hb (i + 32) (by omega)).2
        (by have := hb (i + 160) (by omega); omega)
        (by have := hb (i + 160) (by omega); omega)
        (by decide) (by decide) (by omega)
    obtain ⟨hq1a, hq1b, hq1c, hq1d⟩ :=
      ct_butterfly_main (ct_butterfly (r (i - 64)) (r (i + 64)) mlkem_l1zeta1).1 (ct_butterfly (r i) (r (i + 128)) mlkem_l1zeta1).1 mlkem_l2zeta2 (B + 3328)
        hp1a.1 hp1a.2 (by omega) (by omega) (by decide) (by decide) (by omega)
    obtain ⟨hq3a, hq3b, hq3c, hq3d⟩ :=
      ct_butterfly_main (ct_butterfly (r (i - 32)) (r (i + 96)) mlkem_l1zeta1).1 (ct_butterfly (r (i + 32)) (r (i + 160)) mlkem_l1zeta1).1 mlkem_l2zeta2 (B + 3328)
        hp3a.1 hp3a.2 (by omega) (by omega) (by decide) (by decide) (by omega)
    obtain ⟨hs2a, hs2b, hs2c, hs2d⟩ :=
      ct_butterfly_main (ct_butterfly (ct_butterfly (r (i - 64)) (r (i + 64)) mlkem_l1zeta1).1 (ct_butterfly (r i) (r (i + 128)) mlkem_l1zeta1).1 mlkem_l2zeta2).2 (ct_butterfly (ct_butterfly (r (i - 32)) (r (i + 96)) mlkem_l1zeta1).1 (ct_butterfly (r (i + 32)) (r (i + 160)) mlkem_l1zeta1).1 mlkem_l2zeta2).2 mlkem_l3zeta5 (B + 6656)
        (by omega) (by omega) (by omega) (by omega) (by decide) (by decide) (by omega)
    have hout : Ref.ntt_layer123 r i = (ct_butterfly (ct_butterfly (ct_butterfly (r (i - 64)) (r (i + 64)) mlkem_l1zeta1).1 (ct_butterfly (r i) (r (i + 128)) mlkem_l1zeta1).1 mlkem_l2zeta2).2 (ct_butterfly (ct_butterfly (r (i - 32)) (r (i + 96)) mlkem_l1zeta1).1 (ct_butterfly (r (i + 32)) (r (i + 160)) mlkem_l1zeta1).1 mlkem_l2zeta2).2 mlkem_l3zeta5).1 := by
      simp only [Ref.ntt_layer123]
      rw [if_neg (by omega), if_neg (by omega), if_pos h4]
      rw [show i % 32 = i - 64 from by omega,
        show i - 64 + 128 = i + 64 from by omega,
        show i - 64 + 64 = i from by omega,
        show i - 64 + 192 = i + 128 from by omega,
        show i - 64 + 32 = i - 32 from by omega,
        show i - 64 + 160 = i + 96 from by omega,
        show i - 64 + 96 = i + 32 from by omega,
        show i - 64 + 224 = i + 160 from by omega]
    rw [hout]
    refine ⟨⟨by omega, by omega⟩, ?_⟩
    rw [hs2c, hq1d, hq3d, hp1c, hp2c, hp3c, hp4c]
    rw [hy (i - 64) (by omega),
      hy (i - 32) (by omega),
      hy i (by omega),
      hy (i + 32) (by omega),
      hy (i + 64) (by omega),
      hy (i + 96) (by omega),
      hy (i + 128) (by omega),
      hy (i + 160) (by omega)]
    rw [fwdLayer_lo 32 wf3 _ i (by omega),
      fwdLayer_hi 64 wf2 _ i (by omega),
      fwdLayer_hi 64 wf2 _ (i + 32) (by omega)]
    rw [show i + 32 - 64 = i - 32 from by omega]
    rw [fwdLayer_lo 128 wf1 y (i - 64) (by omega),
      fwdLayer_lo 128 wf1 y i (by omega),
      fwdLayer_lo 128 wf1 y (i - 32) (by omega),
      fwdLayer_lo 128 wf1 y (i + 32) (by omega)]
    rw [show i - 64 + 128 = i + 64 from by omega,
      show i - 32 + 128 = i + 96 from by omega,
      show i + 32 + 128 = i + 160 from by omega]
    simp only [wf1, wf2, wf3, wz]
    rw [show i / 64 = 1 from by omega,
      getD_l3_1,
      show i / 128 = 0 from by omega,
      show (i + 32) / 128 = 0 from by omega,
      getD_l2_0]
  · obtain ⟨hp1a, hp1b, hp1c, hp1d⟩ :=
      ct_butterfly_main (r (i - 96)) (r (i + 32)) mlkem_l1zeta1 B
        (hb (i - 96) (by omega)).1 (hb (i - 96) (by omega)).2
        (by have := hb (i + 32) (by omega); omega)
        (by have := hb (i + 32) (by omega); omega)
        (by decide) (by decide) (by omega)
    obtain ⟨hp2a, hp2b, hp2c, hp2d⟩ :=
      ct_butterfly_main (r (i - 32)) (r (i + 96)) mlkem_l1zeta1 B
        (hb (i - 32) (by omega)).1 (hb (i - 32) (by omega)).2
        (by have := hb (i + 96) (by omega); omega)
        (by have := hb (i + 96) (by omega); omega)
        (by decide) (by decide) (by omega)
    obtain ⟨hp3a, hp3b, hp3c, hp3d⟩ :=
      ct_butterfly_main (r (i - 64)) (r (i + 64)) mlkem_l1zeta1 B
        (hb (i - 64) (by omega)).1 (hb (i - 64) (by omega)).2
        (by have := hb (i + 64) (by omega); omega)
        (by have := hb (i + 64) (by omega); omega)
        (by decide) (by decide) (by omega)
    obtain ⟨hp4a, hp4b, hp4c, hp4d⟩ :=
      ct_butterfly_main (r i) (r (i + 128)) mlkem_l1zeta1 B
        (hb i (by omega)).1 (hb i (by omega)).2
        (by have := hb (i + 128) (by omega); omega)
        (by have := hb (i + 128) (by omega); omega)
        (by decide) (by decide) (by omega)
    obtain ⟨hq1a, hq1b, hq1c, hq1d⟩ :=
      ct_butterfly_main (ct_butterfly (r (i - 96)) (r (i + 32)) mlkem_l1zeta1).1 (ct_butterfly (r (i - 32)) (r (i + 96)) mlkem_l1zeta1).1 mlkem_l2zeta2 (B + 3328)
        hp1a.1 hp1a.2 (by omega) (by omega) (by decide) (by decide) (by omega)
    obtain ⟨hq3a, hq3b, hq3c, hq3d⟩ :=
      ct_butterfly_main (ct_butterfly (r (i - 64)) (r (i + 64)) mlkem_l1zeta1).1 (ct_butterfly (r i) (r (i + 128)) mlkem_l1zeta1).1 mlkem_l2zeta2 (B + 3328)
        hp3a.1 hp3a.2 (by omega) (by omega) (by decide) (by decide) (by omega)
    obtain ⟨hs2a, hs2b, hs2c, hs2d⟩ :=
      ct_butterfly_main (ct_butterfly (ct_butterfly (r (i - 96)) (r (i + 32)) mlkem_l1zeta1).1 (ct_butterfly (r (i - 32)) (r (i + 96)) mlkem_l1zeta1).1 mlkem_l2zeta2).2 (ct_butterfly (ct_butterfly (r (i - 64)) (r (i + 64)) mlkem_l1zeta1).1 (ct_butterfly (r i) (r (i + 128)) mlkem_l1zeta1).1 mlkem_l2zeta2).2 mlkem_l3zeta5 (B + 6656)
        (by omega) (by omega) (by omega) (by omega) (by decide) (by decide) (by omega)
    have hout : Ref.ntt_layer123 r i = (ct_butterfly (ct_butterfly (ct_butterfly (r (i - 96)) (r (i + 32)) mlkem_l1zeta1).1 (ct_butterfly (r (i - 32)) (r (i + 96)) mlkem_l1zeta1).1 mlkem_l2zeta2).2 (ct_butterfly (ct_butterfly (r (i - 64)) (r (i + 64)) mlkem_l1zeta1).1 (ct_butterfly (r i) (r (i + 128)) mlkem_l1zeta1).1 mlkem_l2zeta2).2 mlkem_l3zeta5).2 := by
      simp only [Ref.ntt_layer123]
      rw [if_neg (by omega), if_neg (by omega), if_neg (by omega), if_pos h4]
      rw [show i % 32 = i - 96 from by omega,
        show i - 96 + 128 = i + 32 from by omega,
        show i - 96 + 64 = i - 32 from by omega,
        show i - 96 + 192 = i + 96 from by omega,
        show i - 96 + 32 = i - 64 from by omega,
        show i - 96 + 160 = i + 64 from by omega,
        show i - 96 + 96 = i from by omega,
        show i - 96 + 224 = i + 128 from by omega]
    rw [hout]
    refine ⟨⟨by omega, by omega⟩, ?_⟩
    rw [hs2d, hq1d, hq3d, hp1c, hp2c, hp3c, hp4c]
    rw [hy (i - 96) (by omega),
      hy (i - 64) (by omega),
      hy (i - 32) (by omega),
      hy i (by omega),
      hy (i + 32) (by omega),
      hy (i + 64) (by omega),
      hy (i + 96) (by omega),
      hy (i + 128) (by omega)]
    rw [fwdLayer_hi 32 wf3 _ i (by omega),
      fwdLayer_hi 64 wf2 _ (i - 32) (by omega),
      fwdLayer_hi 64 wf2 _ i (by omega)]
    rw [show i - 32 - 64 = i - 96 from by omega]
    rw [fwdLayer_lo 128 wf1 y (i - 96) (by omega),
      fwdLayer_lo 128 wf1 y (i - 32) (by omega),
      fwdLayer_lo 128 wf1 y (i - 64) (by omega),
      fwdLayer_lo 128 wf1 y i (by omega)]
    rw [show i - 96 + 128 = i + 32 from by omega,
      show i - 32 + 128 = i + 96 from by omega,
      show i - 64 + 128 = i + 64 from by omega]
    simp only [wf1, wf2, wf3, wz]
    rw [show i / 64 = 1 from by omega,
      getD_l3_1,
      show (i - 32) / 128 = 0 from by omega,
      show i / 128 = 0 from by omega,
      getD_l2_0]
  · obtain ⟨hp1a, hp1b, hp1c, hp1d⟩ :=
      ct_butterfly_main (r (i - 128)) (r i) mlkem_l1zeta1 B
        (hb (i - 128) (by omega)).1 (hb (i - 128) (by omega)).2
        (by have := hb i (by omega); omega)
        (by have := hb i (by omega); omega)
        (by decide) (by decide) (by omega)
    obtain ⟨hp2a, hp2b, hp2c, hp2d⟩ :=
      ct_butterfly_main (r (i - 64)) (r (i + 64)) mlkem_l1zeta1 B
        (hb (i - 64) (by omega)).1 (hb (i - 64) (by omega)).2
        (by have := hb (i + 64) (by omega); omega)
        (by have := hb (i + 64) (by omega); omega)
        (by decide) (by decide) (by omega)
    obtain ⟨hp3a, hp3b, hp3c, hp3d⟩ :=
      ct_butterfly_main (r (i - 96)) (r (i + 32)) mlkem_l1zeta1 B
        (hb (i - 96) (by omega)).1 (hb (i - 96) (by omega)).2
        (by have := hb (i + 32) (by omega); omega)
        (by have := hb (i + 32) (by omega); omega)
        (by decide) (by decide) (by omega)
    obtain ⟨hp4a, hp4b, hp4c, hp4d⟩ :=
      ct_butterfly_main (r (i - 32)) (r (i + 96)) mlkem_l1zeta1 B
        (hb (i - 32) (by omega)).1 (hb (i - 32) (by omega)).2
        (by have := hb (i + 96) (by omega); omega)
        (by have := hb (i + 96) (by omega); omega)
        (by decide) (by decide) (by omega)
    obtain ⟨hq2a, hq2b, hq2c, hq2d⟩ :=
      ct_butterfly_main (ct_butterfly (r (i - 128)) (r i) mlkem_l1zeta1).2 (ct_butterfly (r (i - 64)) (r (i + 64)) mlkem_l1zeta1).2 mlkem_l2zeta3 (B + 3328)
        hp1b.1 hp1b.2 (by omega) (by omega) (by decide) (by decide) (by omega)
    obtain ⟨hq4a, hq4b, hq4c, hq4d⟩ :=
      ct_butterfly_main (ct_butterfly (r (i - 96)) (r (i + 32)) mlkem_l1zeta1).2 (ct_butterfly (r (i - 32)) (r (i + 96)) mlkem_l1zeta1).2 mlkem_l2zeta3 (B + 3328)
        hp3b.1 hp3b.2 (by omega) (by omega) (by decide) (by decide) (by omega)
    obtain ⟨hs3a, hs3b, hs3c, hs3d⟩ :=
      ct_butterfly_main (ct_butterfly (ct_butterfly (r (i - 128)) (r i) mlkem_l1zeta1).2 (ct_butterfly (r (i - 64)) (r (i + 64)) mlkem_l1zeta1).2 mlkem_l2zeta3).1 (ct_butterfly (ct_butterfly (r (i - 96)) (r (i + 32)) mlkem_l1zeta1).2 (ct_butterfly (r (i - 32)) (r (i + 96)) mlkem_l1zeta1).2 mlkem_l2zeta3).1 mlkem_l3zeta6 (B + 6656)
        (by omega) (by omega) (by omega) (by omega) (by decide) (by decide) (by omega)
    have hout : Ref.ntt_layer123 r i = (ct_butterfly (ct_butterfly (ct_butterfly (r (i - 128)) (r i) mlkem_l1zeta1).2 (ct_butterfly (r (i - 64)) (r (i + 64)) mlkem_l1zeta1).2 mlkem_l2zeta3).1 (ct_butterfly (ct_butterfly (r (i - 96)) (r (i + 32)) mlkem_l1zeta1).2 (ct_butterfly (r (i - 32)) (r (i + 96)) mlkem_l1zeta1).2 mlkem_l2zeta3).1 mlkem_l3zeta6).1 := by
      simp only [Ref.ntt_layer123]
      rw [if_neg (by omega), if_neg (by omega), if_neg (by omega), if_neg (by omega), if_pos h4]
      rw [show i % 32 = i - 128 from by omega,
        show i - 128 + 128 = i from by omega,
        show i - 128 + 64 = i - 64 from by omega,
        show i - 128 + 192 = i + 64 from by omega,
        show i - 128 + 32 = i - 96 from by omega,
        show i - 128 + 160 = i + 32 from by omega,
        show i - 128 + 96 = i - 32 from by omega,
        show i - 128 + 224 = i + 96 from by omega]
    rw [hout]
    refine ⟨⟨by omega, by omega⟩, ?_⟩
    rw [hs3c, hq2c, hq4c, hp1d, hp2d, hp3d, hp4d]
    rw [hy (i - 128) (by omega),
      hy (i - 96) (by omega),
      hy (i - 64) (by omega),
      hy (i - 32) (by omega),
      hy i (by omega),
      hy (i + 32) (by omega),
      hy (i + 64) (by omega),
      hy (i + 96) (by omega)]
    rw [fwdLayer_lo 32 wf3 _ i (by omega),
      fwdLayer_lo 64 wf2 _ i (by omega),
      fwdLayer_lo 64 wf2 _ (i + 32) (by omega)]
    rw [show i + 32 + 64 = i + 96 from by omega]
    rw [fwdLayer_hi 128 wf1 y i (by omega),
      fwdLayer_hi 128 wf1 y (i + 64) (by omega),
      fwdLayer_hi 128 wf1 y (i + 32) (by omega),
      fwdLayer_hi 128 wf1 y (i + 96) (by omega)]
    rw [show i + 64 - 128 = i - 64 from by omega,
      show i + 32 - 128 = i - 96 from by omega,
      show i + 96 - 128 = i - 32 from by omega]
    simp only [wf1, wf2, wf3, wz]
    rw [show i / 64 = 2 from by omega,
      getD_l3_2,
      show i / 128 = 1 from by omega,
      show (i + 32) / 128 = 1 from by omega,
      getD_l2_1]
  · obtain ⟨hp1a, hp1b, hp1c, hp1d⟩ :=
      ct_butterfly_main (r (i - 160)) (r (i - 32)) mlkem_l1zeta1 B
        (hb (i - 160) (by omega)).1 (hb (i - 160) (by omega)).2
        (by have := hb (i - 32) (by omega); omega)
        (by have := hb (i - 32) (by omega); omega)
        (by decide) (by decide) (by omega)
    obtain ⟨hp2a, hp2b, hp2c, hp2d⟩ :=
      ct_butterfly_main (r (i - 96)) (r (i + 32)) mlkem_l1zeta1 B
        (hb (i - 96) (by omega)).1 (hb (i - 96) (by omega)).2
        (by have := hb (i + 32) (by omega); omega)
        (by have := hb (i + 32) (by omega); omega)
        (by decide) (by decide) (by omega)
    obtain ⟨hp3a, hp3b, hp3c, hp3d⟩ :=
      ct_butterfly_main (r (i - 128)) (r i) mlkem_l1zeta1 B
        (hb (i - 128) (by omega)).1 (hb (i - 128) (by omega)).2
        (by have := hb i (by omega); omega)
        (by have := hb i (by omega); omega)
        (by decide) (by decide) (by omega)
    obtain ⟨hp4a, hp4b, hp4c, hp4d⟩ :=
      ct_butterfly_main (r (i - 64)) (r (i + 64)) mlkem_l1zeta1 B
        (hb (i - 64) (by omega)).1 (hb (i - 64) (by omega)).2
        (by have := hb (i + 64) (by omega); omega)
        (by have := hb (i + 64) (by omega); omega)
        (by decide) (by decide) (by omega)
    obtain ⟨hq2a, hq2b, hq2c, hq2d⟩ :=
      ct_butterfly_main (ct_butterfly (r (i - 160)) (r (i - 32)) mlkem_l1zeta1).2 (ct_butterfly (r (i - 96)) (r (i + 32)) mlkem_l1zeta1).2 mlkem_l2zeta3 (B + 3328)
        hp1b.1 hp1b.2 (by omega) (by omega) (by decide) (by decide) (by omega)
    obtain ⟨hq4a, hq4b, hq4c, hq4d⟩ :=
      ct_butterfly_main (ct_butterfly (r (i - 128)) (r i) mlkem_l1zeta1).2 (ct_butterfly (r (i - 64)) (r (i + 64)) mlkem_l1zeta1).2 mlkem_l2zeta3 (B + 3328)
        hp3b.1 hp3b.2 (by omega) (by omega) (by decide) (by decide) (by omega)
    obtain ⟨hs3a, hs3b, hs3c, hs3d⟩ :=
      ct_butterfly_main (ct_butterfly (ct_butterfly (r (i - 160)) (r (i - 32)) mlkem_l1zeta1).2 (ct_butterfly (r (i - 96)) (r (i + 32)) mlkem_l1zeta1).2 mlkem_l2zeta3).1 (ct_butterfly (ct_butterfly (r (i - 128)) (r i) mlkem_l1zeta1).2 (ct_butterfly (r (i - 64)) (r (i + 64)) mlkem_l1zeta1).2 mlkem_l2zeta3).1 mlkem_l3zeta6 (B + 6656)
        (by omega) (by omega) (by omega) (by omega) (by decide) (by decide) (by omega)
    have hout : Ref.ntt_layer123 r i = (ct_butterfly (ct_butterfly (ct_butterfly (r (i - 160)) (r (i - 32)) mlkem_l1zeta1).2 (ct_butterfly (r (i - 96)) (r (i + 32)) mlkem_l1zeta1).2 mlkem_l2zeta3).1 (ct_butterfly (ct_butterfly (r (i - 128)) (r i) mlkem_l1zeta1).2 (ct_butterfly (r (i - 64)) (r (i + 64)) mlkem_l1zeta1).2 mlkem_l2zeta3).1 mlkem_l3zeta6).2 := by
      simp only [Ref.ntt_layer123]
      rw [if_neg (by omega), if_neg (by omega), if_neg (by omega), if_neg (by omega), if_neg (by omega), if_pos h4]
      rw [show i % 32 = i - 160 from by omega,
        show i - 160 + 128 = i - 32 from by omega,
        show i - 160 + 64 = i - 96 from by omega,
        show i - 160 + 192 = i + 32 from by omega,
        show i - 160 + 32 = i - 128 from by omega,
        show i - 160 + 160 = i from by omega,
        show i - 160 + 96 = i - 64 from by omega,
        show i - 160 + 224 = i + 64 from by omega]
    rw [hout]
    refine ⟨⟨by omega, by omega⟩, ?_⟩
    rw [hs3d, hq2c, hq4c, hp1d, hp2d, hp3d, hp4d]
    rw [hy (i - 160) (by omega),
      hy (i - 128) (by omega),
      hy (i - 96) (by omega),
      hy (i - 64) (by omega),
      hy (i - 32) (by omega),
      hy i (by omega),
      hy (i + 32) (by omega),
      hy (i + 64) (by omega)]
    rw [fwdLayer_hi 32 wf3 _ i (by omega),
      fwdLayer_lo 64 wf2 _ (i - 32) (by omega),
      fwdLayer_lo 64 wf2 _ i (by omega)]
    rw [show i - 32 + 64 = i + 32 from by omega]
    rw [fwdLayer_hi 128 wf1 y (i - 32) (by omega),
      fwdLayer_hi 128 wf1 y (i + 32) (by omega),
      fwdLayer_hi 128 wf1 y i (by omega),
      fwdLayer_hi 128 wf1 y (i + 64) (by omega)]
    rw [show i - 32 - 128 = i - 160 from by omega,
      show i + 32 - 128 = i - 96 from by omega,
      show i + 64 - 128 = i - 64 from by omega]
    simp only [wf1, wf2, wf3, wz]
    rw [show i / 64 = 2 from by omega,
      getD_l3_2,
      show (i - 32) / 128 = 1 from by omega,
      show i / 128 = 1 from by omega,
      getD_l2_1]
  · obtain ⟨hp1a, hp1b, hp1c, hp1d⟩ :=
      ct_butterfly_main (r (i - 192)) (r (i - 64)) mlkem_l1zeta1 B
        (hb (i - 192) (by omega)).1 (hb (i - 192) (by omega)).2
        (by have := hb (i - 64) (by omega); omega)
        (by have := hb (i - 64) (by omega); omega)
        (by decide) (by decide) (by omega)
    obtain ⟨hp2a, hp2b, hp2c, hp2d⟩ :=
      ct_butterfly_main (r (i - 128)) (r i) mlkem_l1zeta1 B
        (hb (i - 128) (by omega)).1 (hb (i - 128) (by omega)).2
        (by have := hb i (by omega); omega)
        (by have := hb i (by omega); omega)
        (by decide) (by decide) (by omega)
    obtain ⟨hp3a, hp3b, hp3c, hp3d⟩ :=
      ct_butterfly_main (r (i - 160)) (r (i - 32)) mlkem_l1zeta1 B
        (hb (i - 160) (by omega)).1 (hb (i - 160) (by omega)).2
        (by have := hb (i - 32) (by omega); omega)
        (by have := hb (i - 32) (by omega); omega)
        (by decide) (by decide) (by omega)
    obtain ⟨hp4a, hp4b, hp4c, hp4d⟩ :=
      ct_butterfly_main (r (i - 96)) (r (i + 32)) mlkem_l1zeta1 B
        (hb (i - 96) (by omega)).1 (hb (i - 96) (by omega)).2
        (by have := hb (i + 32) (by omega); omega)
        (by have := hb (i + 32) (by omega); omega)
        (by decide) (by decide) (by omega)
    obtain ⟨hq2a, hq2b, hq2c, hq2d⟩ :=
      ct_butterfly_main (ct_butterfly (r (i - 192)) (r (i - 64)) mlkem_l1zeta1).2 (ct_butterfly (r (i - 128)) (r i) mlkem_l1zeta1).2 mlkem_l2zeta3 (B + 3328)
        hp1b.1 hp1b.2 (by omega) (by omega) (by decide) (by decide) (by omega)
    obtain ⟨hq4a, hq4b, hq4c, hq4d⟩ :=
      ct_butterfly_main (ct_butterfly (r (i - 160)) (r (i - 32)) mlkem_l1zeta1).2 (ct_butterfly (r (i - 96)) (r (i + 32)) mlkem_l1zeta1).2 mlkem_l2zeta3 (B + 3328)
        hp3b.1 hp3b.2 (by omega) (by omega) (by decide) (by decide) (by omega)
    obtain ⟨hs4a, hs4b, hs4c, hs4d⟩ :=
      ct_butterfly_main (ct_butterfly (ct_butterfly (r (i - 192)) (r (i - 64)) mlkem_l1zeta1).2 (ct_butterfly (r (i - 128)) (r i) mlkem_l1zeta1).2 mlkem_l2zeta3).2 (ct_butterfly (ct_butterfly (r (i - 160)) (r (i - 32)) mlkem_l1zeta1).2 (ct_butterfly (r (i - 96)) (r (i + 32)) mlkem_l1zeta1).2 mlkem_l2zeta3).2 mlkem_l3zeta7 (B + 6656)
        (by omega) (by omega) (by omega) (by omega) (by decide) (by decide) (by omega)
    have hout : Ref.ntt_layer123 r i = (ct_butterfly (ct_butterfly (ct_butterfly (r (i - 192)) (r (i - 64)) mlkem_l1zeta1).2 (ct_butterfly (r (i - 128)) (r i) mlkem_l1zeta1).2 mlkem_l2zeta3).2 (ct_butterfly (ct_butterfly (r (i - 160)) (r (i - 32)) mlkem_l1zeta1).2 (ct_butterfly (r (i - 96)) (r (i + 32)) mlkem_l1zeta1).2 mlkem_l2zeta3).2 mlkem_l3zeta7).1 := by
      simp only [Ref.ntt_layer123]
      rw [if_neg (by omega), if_neg (by omega), if_neg (by omega), if_neg (by omega), if_neg (by omega), if_neg (by omega), if_pos h4]
      rw [show i % 32 = i - 192 from by omega,
        show i - 192 + 128 = i - 64 from by omega,
        show i - 192 + 64 = i - 128 from by omega,
        show i - 192 + 192 = i from by omega,
        show i - 192 + 32 = i - 160 from by omega,
        show i - 192 + 160 = i - 32 from by omega,
        show i - 192 + 96 = i - 96 from by omega,
        show i - 192 + 224 = i + 32 from by omega]
    rw [hout]
    refine ⟨⟨by omega, by omega⟩, ?_⟩
    rw [hs4c, hq2d, hq4d, hp1d, hp2d, hp3d, hp4d]
    rw [hy (i - 192) (by omega),
      hy (i - 160) (by omega),
      hy (i - 128) (by omega),
      hy (i - 96) (by omega),
      hy (i - 64) (by omega),
      hy (i - 32) (by omega),
      hy i (by omega),
      hy (i + 32) (by omega)]
    rw [fwdLayer_lo 32 wf3 _ i (by omega),
      fwdLayer_hi 64 wf2 _ i (by omega),
      fwdLayer_hi 64 wf2 _ (i + 32) (by omega)]
    rw [show i + 32 - 64 = i - 32 from by omega]
    rw [fwdLayer_hi 128 wf1 y (i - 64) (by omega),
      fwdLayer_hi 128 wf1 y i (by omega),
      fwdLayer_hi 128 wf1 y (i - 32) (by omega),
      fwdLayer_hi 128 wf1 y (i + 32) (by omega)]
    rw [show i - 64 - 128 = i - 192 from by omega,
      show i - 32 - 128 = i - 160 from by omega,
      show i + 32 - 128 = i - 96 from by omega]
    simp only [wf1, wf2, wf3, wz]
    rw [show i / 64 = 3 from by omega,
      getD_l3_3,
      show i / 128 = 1 from by omega,
      show (i + 32) / 128 = 1 from by omega,
      getD_l2_1]
  · obtain ⟨hp1a, hp1b, hp1c, hp1d⟩ :=
      ct_butterfly_main (r (i - 224)) (r (i - 96)) mlkem_l1zeta1 B
        (hb (i - 224) (by omega)).1 (hb (i - 224) (by omega)).2
        (by have := hb (i - 96) (by omega); omega)
        (by have := hb (i - 96) (by omega); omega)
        (by decide) (by decide) (by omega)
    obtain ⟨hp2a, hp2b, hp2c, hp2d⟩ :=
      ct_butterfly_main (r (i - 160)) (r (i - 32)) mlkem_l1zeta1 B
        (hb (i - 160) (by omega)).1 (hb (i - 160) (by omega)).2
        (by have := hb (i - 32) (by omega); omega)
        (by have := hb (i - 32) (by omega); omega)
        (by decide) (by decide) (by omega)
    obtain ⟨hp3a, hp3b, hp3c, hp3d⟩ :=
      ct_butterfly_main (r (i - 192)) (r (i - 64)) mlkem_l1zeta1 B
        (hb (i - 192) (by omega)).1 (hb (i - 192) (by omega)).2
        (by have := hb (i - 64) (by omega); omega)
        (by have := hb (i - 64) (by omega); omega)
        (by decide) (by decide) (by omega)
    obtain ⟨hp4a, hp4b, hp4c, hp4d⟩ :=
      ct_butterfly_main (r (i - 128)) (r i) mlkem_l1zeta1 B
        (hb (i - 128) (by omega)).1 (hb (i - 128) (by omega)).2
        (by have := hb i (by omega); omega)
        (by have := hb i (by omega); omega)
        (by decide) (by decide) (by omega)
    obtain ⟨hq2a, hq2b, hq2c, hq2d⟩ :=
      ct_butterfly_main (ct_butterfly (r (i - 224)) (r (i - 96)) mlkem_l1zeta1).2 (ct_butterfly (r (i - 160)) (r (i - 32)) mlkem_l1zeta1).2 mlkem_l2zeta3 (B + 3328)
        hp1b.1 hp1b.2 (by omega) (by omega) (by decide) (by decide) (by omega)
    obtain ⟨hq4a, hq4b, hq4c, hq4d⟩ :=
      ct_butterfly_main (ct_butterfly (r (i - 192)) (r (i - 64)) mlkem_l1zeta1).2 (ct_butterfly (r (i - 128)) (r i) mlkem_l1zeta1).2 mlkem_l2zeta3 (B + 3328)
        hp3b.1 hp3b.2 (by omega) (by omega) (by decide) (by decide) (by omega)
    obtain ⟨hs4a, hs4b, hs4c, hs4d⟩ :=
      ct_butterfly_main (ct_butterfly (ct_butterfly (r (i - 224)) (r (i - 96)) mlkem_l1zeta1).2 (ct_butterfly (r (i - 160)) (r (i - 32)) mlkem_l1zeta1).2 mlkem_l2zeta3).2 (ct_butterfly (ct_butterfly (r (i - 192)) (r (i - 64)) mlkem_l1zeta1).2 (ct_butterfly (r (i - 128)) (r i) mlkem_l1zeta1).2 mlkem_l2zeta3).2 mlkem_l3zeta7 (B + 6656)
        (by omega) (by omega) (by omega) (by omega) (by decide) (by decide) (by omega)
    have hout : Ref.ntt_layer123 r i = (ct_butterfly (ct_butterfly (ct_butterfly (r (i - 224)) (r (i - 96)) mlkem_l1zeta1).2 (ct_butterfly (r (i - 160)) (r (i - 32)) mlkem_l1zeta1).2 mlkem_l2zeta3).2 (ct_butterfly (ct_butterfly (r (i - 192)) (r (i - 64)) mlkem_l1zeta1).2 (ct_butterfly (r (i - 128)) (r i) mlkem_l1zeta1).2 mlkem_l2zeta3).2 mlkem_l3zeta7).2 := by
      simp only [Ref.ntt_layer123]
      rw [if_neg (by omega), if_neg (by omega), if_neg (by omega), if_neg (by omega), if_neg (by omega), if_neg (by omega), if_neg (by omega)]
      rw [show i % 32 = i - 224 from by omega,
        show i - 224 + 128 = i - 96 from by omega,
        show i - 224 + 64 = i - 160 from by omega,
        show i - 224 + 192 = i - 32 from by omega,
        show i - 224 + 32 = i - 192 from by omega,
        show i - 224 + 160 = i - 64 from by omega,
        show i - 224 + 96 = i - 128 from by omega,
        show i - 224 + 224 = i from by omega]
    rw [hout]
    refine ⟨⟨by omega, by omega⟩, ?_⟩
    rw [hs4d, hq2d, hq4d, hp1d, hp2d, hp3d, hp4d]
    rw [hy (i - 224) (by omega),
      hy (i - 192) (by omega),
      hy (i - 160) (by omega),
      hy (i - 128) (by omega),
      hy (i - 96) (by omega),
      hy (i - 64) (by omega),
      hy (i - 32) (by omega),
      hy i (by omega)]
    rw [fwdLayer_hi 32 wf3 _ i (by omega),
      fwdLayer_hi 64 wf2 _ (i - 32) (by omega),
      fwdLayer_hi 64 wf2 _ i (by omega)]
    rw [show i - 32 - 64 = i - 96 from by omega]
    rw [fwdLayer_hi 128 wf1 y (i - 96) (by omega),
      fwdLayer_hi 128 wf1 y (i - 32) (by omega),
      fwdLayer_hi 128 wf1 y (i - 64) (by omega),
      fwdLayer_hi 128 wf1 y i (by omega)]
    rw [show i - 96 - 128 = i - 224 from by omega,
      show i - 32 - 128 = i - 160 from by omega,
      show i - 64 - 128 = i - 192 from by omega]
    simp only [wf1, wf2, wf3, wz]
    rw [show i / 64 = 3 from by omega,
      getD_l3_3,
      show (i - 32) / 128 = 1 from by omega,
      show i / 128 = 1 from by omega,
      getD_l2_1]

/-- Inverse layer 7 (with the folded `MONT_F` normalization) accepts any
`int16_t` input, produces coefficients bounded by `q - 1`, and tracks
`invLayer 2 vi7 ∘ mScale` modulo q. -/
theorem invntt_layer7_invert_main (r : poly) (y : polyq)
    (hb : ∀ k < 256, -32768 ≤ r k ∧ r k ≤ 32767)
    (hy : ∀ k < 256, ((r k : ℤ) : Zq) = y k) :
    ∀ i < 256, (-3328 ≤ Ref.invntt_layer7_invert r i ∧ Ref.invntt_layer7_invert r i ≤ 3328) ∧
      ((Ref.invntt_layer7_invert r i : ℤ) : Zq) = invLayer 2 vi7 (mScale y) i := by
  intro i hi
  have hz := mlkem_layer7_zetas_bound (63 - i / 4)
  have h4 : i % 4 = 0 ∨ i % 4 = 1 ∨ i % 4 = 2 ∨ i % 4 = 3 := by omega
  rcases h4 with h4 | h4 | h4 | h4
  · obtain ⟨⟨hf1, hf2⟩, hfc⟩ := fqmul_main (r i) 1441
      (by have := hb i hi; omega) (by have := hb i hi; omega) (by decide) (by decide)
    obtain ⟨⟨hg1, hg2⟩, hgc⟩ := fqmul_main (r (i + 2)) 1441
      (by have := hb (i + 2) (by omega); omega) (by have := hb (i + 2) (by omega); omega)
      (by decide) (by decide)
    have hout : Ref.invntt_layer7_invert r i
        = barrett_reduce (wrap16 (fqmul (r i) 1441 + fqmul (r (i + 2)) 1441)) := by
      simp only [Ref.invntt_layer7_invert]
      rw [if_pos h4, show 4 * (i / 4) = i from by omega]
    obtain ⟨⟨hb1, hb2⟩, hbc⟩ := barrett_main (wrap16 (fqmul (r i) 1441 + fqmul (r (i + 2)) 1441))
    rw [hout]
    refine ⟨⟨by omega, by omega⟩, ?_⟩
    rw [hbc, wrap16_eq_of _ (by omega) (by omega)]
    push_cast
    rw [hfc, hgc, hy i hi, hy (i + 2) (by omega), invLayer_lo 2 vi7 (mScale y) i (by omega)]
    simp only [mScale, wz]
    push_cast
    ring
  · obtain ⟨⟨hf1, hf2⟩, hfc⟩ := fqmul_main (r i) 1441
      (by have := hb i hi; omega) (by have := hb i hi; omega) (by decide) (by decide)
    obtain ⟨⟨hg1, hg2⟩, hgc⟩ := fqmul_main (r (i + 2)) 1441
      (by have := hb (i + 2) (by omega); omega) (by have := hb (i + 2) (by omega); omega)
      (by decide) (by decide)
    have hout : Ref.invntt_layer7_invert r i
        = barrett_reduce (wrap16 (fqmul (r i) 1441 + fqmul (r (i + 2)) 1441)) := by
      simp only [Ref.invntt_layer7_invert]
      rw [if_neg (by omega), if_pos h4, show 4 * (i / 4) + 1 = i from by omega,
        show 4 * (i / 4) + 3 = i + 2 from by omega]
    obtain ⟨⟨hb1, hb2⟩, hbc⟩ := barrett_main (wrap16 (fqmul (r i) 1441 + fqmul (r (i + 2)) 1441))
    rw [hout]
    refine ⟨⟨by omega, by omega⟩, ?_⟩
    rw [hbc, wrap16_eq_of _ (by omega) (by omega)]
    push_cast
    rw [hfc, hgc, hy i hi, hy (i + 2) (by omega), invLayer_lo 2 vi7 (mScale y) i (by omega)]
    simp only [mScale, wz]
    push_cast
    ring
  · obtain ⟨⟨hf1, hf2⟩, hfc⟩ := fqmul_main (r (i - 2)) 1441
      (by have := hb (i - 2) (by omega); omega) (by have := hb (i - 2) (by omega); omega)
      (by decide) (by decide)
    obtain ⟨⟨hg1, hg2⟩, hgc⟩ := fqmul_main (r i) 1441
      (by have := hb i hi; omega) (by have := hb i hi; omega) (by decide) (by decide)
    obtain ⟨⟨hh1, hh2⟩, hhc⟩ :=
      fqmul_main (wrap16 (fqmul (r i) 1441 - fqmul (r (i - 2)) 1441))
        (mlkem_layer7_zetas.getD (63 - i / 4) 0)
        (by have := wrap16_bounds (fqmul (r i) 1441 - fqmul (r (i - 2)) 1441); omega)
        (by have := wrap16_bounds (fqmul (r i) 1441 - fqmul (r (i - 2)) 1441); omega)
        hz.1 hz.2
    have hout : Ref.invntt_layer7_invert r i
        = fqmul (wrap16 (fqmul (r i) 1441 - fqmul (r (i - 2)) 1441))
            (mlkem_layer7_zetas.getD (63 - i / 4) 0) := by
      simp only [Ref.invntt_layer7_invert]
      rw [if_neg (by omega), if_neg (by omega), if_pos h4,
        show 4 * (i / 4) = i - 2 from by omega, show i - 2 + 2 = i from by omega]
    rw [hout]
    refine ⟨⟨by omega, by omega⟩, ?_⟩
    rw [hhc, wrap16_eq_of _ (by omega) (by omega)]
    push_cast
    rw [hfc, hgc, hy i hi, hy (i - 2) (by omega), invLayer_hi 2 vi7 (mScale y) i (by omega)]
    simp only [mScale, vi7, wz]
    push_cast
    ring
  · obtain ⟨⟨hf1, hf2⟩, hfc⟩ := fqmul_main (r (i - 2)) 1441
      (by have := hb (i - 2) (by omega); omega) (by have := hb (i - 2) (by omega); omega)
      (by decide) (by decide)
    obtain ⟨⟨hg1, hg2⟩, hgc⟩ := fqmul_main (r i) 1441
      (by have := hb i hi; omega) (by have := hb i hi; omega) (by decide) (by decide)
    obtain ⟨⟨hh1, hh2⟩, hhc⟩ :=
      fqmul_main (wrap16 (fqmul (r i) 1441 - fqmul (r (i - 2)) 1441))
        (mlkem_layer7_zetas.getD (63 - i / 4) 0)
        (by have := wrap16_bounds (fqmul (r i) 1441 - fqmul (r (i - 2)) 1441); omega)
        (by have := wrap16_bounds (fqmul (r i) 1441 - fqmul (r (i - 2)) 1441); omega)
        hz.1 hz.2
    have hout : Ref.invntt_layer7_invert r i
        = fqmul (wrap16 (fqmul (r i) 1441 - fqmul (r (i - 2)) 1441))
            (mlkem_layer7_zetas.getD (63 - i / 4) 0) := by
      simp only [Ref.invntt_layer7_invert]
      rw [if_neg (by omega), if_neg (by omega), if_neg (by omega),
        show 4 * (i / 4) + 1 = i - 2 from by omega, show 4 * (i / 4) + 3 = i from by omega]
    rw [hout]
    refine ⟨⟨by omega, by omega⟩, ?_⟩
    rw [hhc, wrap16_eq_of _ (by omega) (by omega)]
    push_cast
    rw [hfc, hgc, hy i hi, hy (i - 2) (by omega), invLayer_hi 2 vi7 (mScale y) i (by omega)]
    simp only [mScale, vi7, wz]
    push_cast
    ring

/-- Inverse layer 6 tracks `invLayer 4 vi6` modulo q; the deferred sums
are bounded by `2(q - 1)`. -/
theorem invntt_layer6_main (r : poly) (y : polyq)
    (hb : ∀ k < 256, -3328 ≤ r k ∧ r k ≤ 3328)
    (hy : ∀ k < 256, ((r k : ℤ) : Zq) = y k) :
    ∀ i < 256, (-6656 ≤ Ref.invntt_layer6 r i ∧ Ref.invntt_layer6 r i ≤ 6656) ∧
      ((Ref.invntt_layer6 r i : ℤ) : Zq) = invLayer 4 vi6 y i := by
  intro i hi
  have hz := mlkem_layer6_zetas_bound (31 - i / 8)
  rcases Nat.mod_two_eq_zero_or_one (i / 4) with h4 | h4
  · have hb1 := hb i hi
    have hb2 := hb (i + 4) (by omega)
    have hout : Ref.invntt_layer6 r i = wrap16 (r i + r (i + 4)) := by
      simp only [Ref.invntt_layer6]
      rw [if_pos (by omega : i % 8 / 4 = 0)]
    rw [hout, wrap16_eq_of _ (by omega) (by omega)]
    refine ⟨⟨by omega, by omega⟩, ?_⟩
    push_cast
    rw [hy i hi, hy (i + 4) (by omega), invLayer_lo 4 vi6 y i h4]
  · have hbi := hb i hi
    have hbj := hb (i - 4) (by omega)
    obtain ⟨⟨hf1, hf2⟩, hfc⟩ :=
      fqmul_main (wrap16 (r i - r (i - 4))) (mlkem_layer6_zetas.getD (31 - i / 8) 0)
        (by have := wrap16_bounds (r i - r (i - 4)); omega)
        (by have := wrap16_bounds (r i - r (i - 4)); omega) hz.1 hz.2
    have hout : Ref.invntt_layer6 r i
        = fqmul (wrap16 (r i - r (i - 4))) (mlkem_layer6_zetas.getD (31 - i / 8) 0) := by
      simp only [Ref.invntt_layer6]
      rw [if_neg (by omega : ¬ i % 8 / 4 = 0)]
    rw [hout]
    refine ⟨⟨by omega, by omega⟩, ?_⟩
    rw [hfc, wrap16_eq_of _ (by omega) (by omega)]
    push_cast
    rw [hy i hi, hy (i - 4) (by omega), invLayer_hi 4 vi6 y i h4]
    simp only [vi6, wz]
    ring

/-- Merged inverse layers 5-4 track `invLayer 16 vi4 ∘ invLayer 8 vi5`
modulo q; layer 4 Barrett-reduces, so outputs are bounded by `q - 1`. -/
theorem invntt_layer54_main (r : poly) (y : polyq)
    (hb : ∀ k < 256, -6656 ≤ r k ∧ r k ≤ 6656)
    (hy : ∀ k < 256, ((r k : ℤ) : Zq) = y k) :
    ∀ i < 256, (-3328 ≤ Ref.invntt_layer54 r i ∧ Ref.invntt_layer54 r i ≤ 3328) ∧
      ((Ref.invntt_layer54 r i : ℤ) : Zq) = invLayer 16 vi4 (invLayer 8 vi5 y) i := by
  intro i hi
  have hz4 := mlkem_layer4_zetas_bound (7 - i / 32)
  have hz5e := mlkem_layer5_even_zetas_bound (7 - i / 32)
  have hz5o := mlkem_layer5_odd_zetas_bound (7 - i / 32)
  have h4 : i % 32 / 8 = 0 ∨ i % 32 / 8 = 1 ∨ i % 32 / 8 = 2 ∨ i % 32 / 8 = 3 := by omega
  rcases h4 with h4 | h4 | h4 | h4
  · obtain ⟨hp1a, hp1b, hp1c, hp1d⟩ :=
      gs_butterfly_main (r i) (r (i + 8)) (mlkem_layer5_odd_zetas.getD (7 - i / 32) 0) 6656
        (by have := hb i hi; omega) (by have := hb i hi; omega)
        (by have := hb (i + 8) (by omega); omega) (by have := hb (i + 8) (by omega); omega)
        hz5o.1 hz5o.2 (by omega)
    obtain ⟨hp2a, hp2b, hp2c, hp2d⟩ :=
      gs_butterfly_main (r (i + 16)) (r (i + 24)) (mlkem_layer5_even_zetas.getD (7 - i / 32) 0) 6656
        (by have := hb (i + 16) (by omega); omega) (by have := hb (i + 16) (by omega); omega)
        (by have := hb (i + 24) (by omega); omega) (by have := hb (i + 24) (by omega); omega)
        hz5e.1 hz5e.2 (by omega)
    have hout : Ref.invntt_layer54 r i
        = barrett_reduce (wrap16
            ((gs_butterfly (r i) (r (i + 8)) (mlkem_layer5_odd_zetas.getD (7 - i / 32) 0)).1
              + (gs_butterfly (r (i + 16)) (r (i + 24))
                  (mlkem_layer5_even_zetas.getD (7 - i / 32) 0)).1)) := by
      simp only [Ref.invntt_layer54]
      rw [if_pos h4, show 32 * (i / 32) + i % 8 = i from by omega]
    obtain ⟨⟨hbb1, hbb2⟩, hbbc⟩ := barrett_main (wrap16
        ((gs_butterfly (r i) (r (i + 8)) (mlkem_layer5_odd_zetas.getD (7 - i / 32) 0)).1
          + (gs_butterfly (r (i + 16)) (r (i + 24))
              (mlkem_layer5_even_zetas.getD (7 - i / 32) 0)).1))
    rw [hout]
    refine ⟨⟨by omega, by omega⟩, ?_⟩
    rw [hbbc, wrap16_eq_of _ (by omega) (by omega)]
    push_cast
    rw [hp1c, hp2c, hy i hi, hy (i + 8) (by omega), hy (i + 16) (by omega),
      hy (i + 24) (by omega), invLayer_lo 16 vi4 _ i (by omega),
      invLayer_lo 8 vi5 y i (by omega), invLayer_lo 8 vi5 y (i + 16) (by omega)]
  · obtain ⟨hp1a, hp1b, hp1c, hp1d⟩ :=
      gs_butterfly_main (r (i - 8)) (r i) (mlkem_layer5_odd_zetas.getD (7 - i / 32) 0) 6656
        (by have := hb (i - 8) (by omega); omega) (by have := hb (i - 8) (by omega); omega)
        (by have := hb i hi; omega) (by have := hb i hi; omega)
        hz5o.1 hz5o.2 (by omega)
    obtain ⟨hp2a, hp2b, hp2c, hp2d⟩ :=
      gs_butterfly_main (r (i + 8)) (r (i + 16)) (mlkem_layer5_even_zetas.getD (7 - i / 32) 0) 6656
        (by have := hb (i + 8) (by omega); omega) (by have := hb (i + 8) (by omega); omega)
        (by have := hb (i + 16) (by omega); omega) (by have := hb (i + 16) (by omega); omega)
        hz5e.1 hz5e.2 (by omega)
    have hout : Ref.invntt_layer54 r i
        = barrett_reduce (wrap16
            ((gs_butterfly (r (i - 8)) (r i) (mlkem_layer5_odd_zetas.getD (7 - i / 32) 0)).2
              + (gs_butterfly (r (i + 8)) (r (i + 16))
                  (mlkem_layer5_even_zetas.getD (7 - i / 32) 0)).2)) := by
      simp only [Ref.invntt_layer54]
      rw [if_neg (by omega), if_pos h4, show 32 * (i / 32) + i % 8 = i - 8 from by omega,
        show i - 8 + 8 = i from by omega, show i - 8 + 16 = i + 8 from by omega,
        show i - 8 + 24 = i + 16 from by omega]
    obtain ⟨⟨hbb1, hbb2⟩, hbbc⟩ := barrett_main (wrap16
        ((gs_butterfly (r (i - 8)) (r i) (mlkem_layer5_odd_zetas.getD (7 - i / 32) 0)).2
          + (gs_butterfly (r (i + 8)) (r (i + 16))
              (mlkem_layer5_even_zetas.getD (7 - i / 32) 0)).2))
    rw [hout]
    refine ⟨⟨by omega, by omega⟩, ?_⟩
    rw [hbbc, wrap16_eq_of _ (by omega) (by omega)]
    push_cast
    rw [hp1d, hp2d, hy i hi, hy (i - 8) (by omega), hy (i + 8) (by omega),
      hy (i + 16) (by omega), invLayer_lo 16 vi4 _ i (by omega),
      invLayer_hi 8 vi5 y i (by omega), invLayer_hi 8 vi5 y (i + 16) (by omega)]
    simp only [vi5, wz]
    rw [if_pos (by omega : i / 16 % 2 = 0), if_neg (by omega : ¬ (i + 16) / 16 % 2 = 0),
      show (i + 16) / 32 = i / 32 from by omega, show i + 16 - 8 = i + 8 from by omega]
    ring
  · obtain ⟨hp1a, hp1b, hp1c, hp1d⟩ :=
      gs_butterfly_main (r (i - 16)) (r (i - 8)) (mlkem_layer5_odd_zetas.getD (7 - i / 32) 0) 6656
        (by have := hb (i - 16) (by omega); omega) (by have := hb (i - 16) (by omega); omega)
        (by have := hb (i - 8) (by omega); omega) (by have := hb (i - 8) (by omega); omega)
        hz5o.1 hz5o.2 (by omega)
    obtain ⟨hp2a, hp2b, hp2c, hp2d⟩ :=
      gs_butterfly_main (r i) (r (i + 8)) (mlkem_layer5_even_zetas.getD (7 - i / 32) 0) 6656
        (by have := hb i hi; omega) (by have := hb i hi; omega)
        (by have := hb (i + 8) (by omega); omega) (by have := hb (i + 8) (by omega); omega)
        hz5e.1 hz5e.2 (by omega)
    have hw := wrap16_bounds
        ((gs_butterfly (r i) (r (i + 8)) (mlkem_layer5_even_zetas.getD (7 - i / 32) 0)).1
          - (gs_butterfly (r (i - 16)) (r (i - 8))
              (mlkem_layer5_odd_zetas.getD (7 - i / 32) 0)).1)
    obtain ⟨⟨hf1, hf2⟩, hfc⟩ :=
      fqmul_main (wrap16
          ((gs_butterfly (r i) (r (i + 8)) (mlkem_layer5_even_zetas.getD (7 - i / 32) 0)).1
            - (gs_butterfly (r (i - 16)) (r (i - 8))
                (mlkem_layer5_odd_zetas.getD (7 - i / 32) 0)).1))
        (mlkem_layer4_zetas.getD (7 - i / 32) 0)
        (by omega) (by omega) hz4.1 hz4.2
    have hout : Ref.invntt_layer54 r i
        = fqmul (wrap16
            ((gs_butterfly (r i) (r (i + 8)) (mlkem_layer5_even_zetas.getD (7 - i / 32) 0)).1
              - (gs_butterfly (r (i - 16)) (r (i - 8))
                  (mlkem_layer5_odd_zetas.getD (7 - i / 32) 0)).1))
            (mlkem_layer4_zetas.getD (7 - i / 32) 0) := by
      simp only [Ref.invntt_layer54]
      rw [if_neg (by omega), if_neg (by omega), if_pos h4,
        show 32 * (i / 32) + i % 8 = i - 16 from by omega,
        show i - 16 + 8 = i - 8 from by omega, show i - 16 + 16 = i from by omega,
        show i - 16 + 24 = i + 8 from by omega]
    rw [hout]
    refine ⟨⟨by omega, by omega⟩, ?_⟩
    rw [hfc, wrap16_eq_of _ (by omega) (by omega)]
    push_cast
    rw [hp1c, hp2c, hy i hi, hy (i - 16) (by omega), hy (i - 8) (by omega),
      hy (i + 8) (by omega), invLayer_hi 16 vi4 _ i (by omega),
      invLayer_lo 8 vi5 y i (by omega), invLayer_lo 8 vi5 y (i - 16) (by omega)]
    simp only [vi4, wz]
    rw [show i - 16 + 8 = i - 8 from by omega]
    ring
  · obtain ⟨hp1a, hp1b, hp1c, hp1d⟩ :=
      gs_butterfly_main (r (i - 24)) (r (i - 16)) (mlkem_layer5_odd_zetas.getD (7 - i / 32) 0) 6656
        (by have := hb (i - 24) (by omega); omega) (by have := hb (i - 24) (by omega); omega)
        (by have := hb (i - 16) (by omega); omega) (by have := hb (i - 16) (by omega); omega)
        hz5o.1 hz5o.2 (by omega)
    obtain ⟨hp2a, hp2b, hp2c, hp2d⟩ :=
      gs_butterfly_main (r (i - 8)) (r i) (mlkem_layer5_even_zetas.getD (7 - i / 32) 0) 6656
        (by have := hb (i - 8) (by omega); omega) (by have := hb (i - 8) (by omega); omega)
        (by have := hb i hi; omega) (by have := hb i hi; omega)
        hz5e.1 hz5e.2 (by omega)
    have hw := wrap16_bounds
        ((gs_butterfly (r (i - 8)) (r i) (mlkem_layer5_even_zetas.getD (7 - i / 32) 0)).2
          - (gs_butterfly (r (i - 24)) (r (i - 16))
              (mlkem_layer5_odd_zetas.getD (7 - i / 32) 0)).2)
    obtain ⟨⟨hf1, hf2⟩, hfc⟩ :=
      fqmul_main (wrap16
          ((gs_butterfly (r (i - 8)) (r i) (mlkem_layer5_even_zetas.getD (7 - i / 32) 0)).2
            - (gs_butterfly (r (i - 24)) (r (i - 16))
                (mlkem_layer5_odd_zetas.getD (7 - i / 32) 0)).2))
        (mlkem_layer4_zetas.getD (7 - i / 32) 0)
        (by omega) (by omega) hz4.1 hz4.2
    have hout : Ref.invntt_layer54 r i
        = fqmul (wrap16
            ((gs_butterfly (r (i - 8)) (r i) (mlkem_layer5_even_zetas.getD (7 - i / 32) 0)).2
              - (gs_butterfly (r (i - 24)) (r (i - 16))
                  (mlkem_layer5_odd_zetas.getD (7 - i / 32) 0)).2))
            (mlkem_layer4_zetas.getD (7 - i / 32) 0) := by
      simp only [Ref.invntt_layer54]
      rw [if_neg (by omega), if_neg (by omega), if_neg (by omega),
        show 32 * (i / 32) + i % 8 = i - 24 from by omega,
        show i - 24 + 8 = i - 16 from by omega, show i - 24 + 16 = i - 8 from by omega,
        show i - 24 + 24 = i from by omega]
    rw [hout]
    refine ⟨⟨by omega, by omega⟩, ?_⟩
    rw [hfc, wrap16_eq_of _ (by omega) (by omega)]
    push_cast
    rw [hp1d, hp2d, hy i hi, hy (i - 24) (by omega), hy (i - 16) (by omega),
      hy (i - 8) (by omega), invLayer_hi 16 vi4 _ i (by omega),
      invLayer_hi 8 vi5 y i (by omega), invLayer_hi 8 vi5 y (i - 16) (by omega)]
    simp only [vi4, vi5, wz]
    rw [if_neg (by omega : ¬ i / 16 % 2 = 0), if_pos (by omega : (i - 16) / 16 % 2 = 0),
      show (i - 16) / 32 = i / 32 from by omega, show i - 16 - 8 = i - 24 from by omega]
    ring


/-- List lookup values used when resolving the inverse layer 1-3 twiddles. -/
theorem getD_li2_0 : [mlkem_l2zeta3, mlkem_l2zeta2].getD 0 0 = mlkem_l2zeta3 := rfl

theorem getD_li2_1 : [mlkem_l2zeta3, mlkem_l2zeta2].getD 1 0 = mlkem_l2zeta2 := rfl

theorem getD_li3_0 : [mlkem_l3zeta7, mlkem_l3zeta6, mlkem_l3zeta5, mlkem_l3zeta4].getD 0 0 = mlkem_l3zeta7 := rfl

theorem getD_li3_1 : [mlkem_l3zeta7, mlkem_l3zeta6, mlkem_l3zeta5, mlkem_l3zeta4].getD 1 0 = mlkem_l3zeta6 := rfl

theorem getD_li3_2 : [mlkem_l3zeta7, mlkem_l3zeta6, mlkem_l3zeta5, mlkem_l3zeta4].getD 2 0 = mlkem_l3zeta5 := rfl

theorem getD_li3_3 : [mlkem_l3zeta7, mlkem_l3zeta6, mlkem_l3zeta5, mlkem_l3zeta4].getD 3 0 = mlkem_l3zeta4 := rfl

/-- Merged inverse layers 3-2-1 track
`invLayer 128 vi1 ∘ invLayer 64 vi2 ∘ invLayer 32 vi3` modulo q; with all
reductions deferred the outputs stay within `8(q - 1) - 2 = 26624`. -/
theorem invntt_layer321_main (r : poly) (y : polyq)
    (hb : ∀ k < 256, -3328 ≤ r k ∧ r k ≤ 3328)
    (hy : ∀ k < 256, ((r k : ℤ) : Zq) = y k) :
    ∀ i < 256, (-26624 ≤ Ref.invntt_layer321 r i ∧ Ref.invntt_layer321 r i ≤ 26624) ∧
      ((Ref.invntt_layer321 r i : ℤ) : Zq)
        = invLayer 128 vi1 (invLayer 64 vi2 (invLayer 32 vi3 y)) i := by
  intro i hi
  have h8 : i / 32 = 0 ∨ i / 32 = 1 ∨ i / 32 = 2 ∨ i / 32 = 3 ∨ i / 32 = 4 ∨
      i / 32 = 5 ∨ i / 32 = 6 ∨ i / 32 = 7 := by omega
  rcases h8 with h4 | h4 | h4 | h4 | h4 | h4 | h4 | h4
  · obtain ⟨ha1a, ha1b, ha1c, ha1d⟩ :=
      gs_butterfly_main (r i) (r (i + 32)) mlkem_l3zeta7 3328
        (hb i (by omega)).1 (hb i (by omega)).2
        (hb (i + 32) (by omega)).1 (hb (i + 32) (by omega)).2
        (by decide) (by decide) (by omega)
    obtain ⟨ha2a, ha2b, ha2c, ha2d⟩ :=
      gs_butterfly_main (r (i + 64)) (r (i + 96)) mlkem_l3zeta6 3328
        (hb (i + 64) (by omega)).1 (hb (i + 64) (by omega)).2
        (hb (i + 96) (by omega)).1 (hb (i + 96) (by omega)).2
        (by decide) (by decide) (by omega)
    obtain ⟨ha3a, ha3b, ha3c, ha3d⟩ :=
      gs_butterfly_main (r (i + 128)) (r (i + 160)) mlkem_l3zeta5 3328
        (hb (i + 128) (by omega)).1 (hb (i + 128) (by omega)).2
        (hb (i + 160) (by omega)).1 (hb (i + 160) (by omega)).2
        (by decide) (by decide) (by omega)
    obtain ⟨ha4a, ha4b, ha4c, ha4d⟩ :=
      gs_butterfly_main (r (i + 192)) (r (i + 224)) mlkem_l3zeta4 3328
        (hb (i + 192) (by omega)).1 (hb (i + 192) (by omega)).2
        (hb (i + 224) (by omega)).1 (hb (i + 224) (by omega)).2
        (by decide) (by decide) (by omega)
    obtain ⟨hb1a, hb1b, hb1c, hb1d⟩ :=
      gs_butterfly_main (gs_butterfly (r i) (r (i + 32)) mlkem_l3zeta7).1 (gs_butterfly (r (i + 64)) (r (i + 96)) mlkem_l3zeta6).1 mlkem_l2zeta3 6656
        (by omega) (by omega) (by omega) (by omega) (by decide) (by decide) (by omega)
    obtain ⟨hb3a, hb3b, hb3c, hb3d⟩ :=
      gs_butterfly_main (gs_butterfly (r (i + 128)) (r (i + 160)) mlkem_l3zeta5).1 (gs_butterfly (r (i + 192)) (r (i + 224)) mlkem_l3zeta4).1 mlkem_l2zeta2 6656
        (by omega) (by omega) (by omega) (by omega) (by decide) (by decide) (by omega)
    obtain ⟨hd1a, hd1b, hd1c, hd1d⟩ :=
      gs_butterfly_main (gs_butterfly (gs_butterfly (r i) (r (i + 32)) mlkem_l3zeta7).1 (gs_butterfly (r (i + 64)) (r (i + 96)) mlkem_l3zeta6).1 mlkem_l2zeta3).1 (gs_butterfly (gs_butterfly (r (i + 128)) (r (i + 160)) mlkem_l3zeta5).1 (gs_butterfly (r (i + 192)) (r (i + 224)) mlkem_l3zeta4).1 mlkem_l2zeta2).1 mlkem_l1zeta1 13312
        (by omega) (by omega) (by omega) (by omega) (by decide) (by decide) (by omega)
    have hout : Ref.invntt_layer321 r i = (gs_butterfly (gs_butterfly (gs_butterfly (r i) (r (i + 32)) mlkem_l3zeta7).1 (gs_butterfly (r (i + 64)) (r (i + 96)) mlkem_l3zeta6).1 mlkem_l2zeta3).1 (gs_butterfly (gs_butterfly (r (i + 128)) (r (i + 160)) mlkem_l3zeta5).1 (gs_butterfly (r (i + 192)) (r (i + 224)) mlkem_l3zeta4).1 mlkem_l2zeta2).1 mlkem_l1zeta1).1 := by
      simp only [Ref.invntt_layer321]
      rw [if_pos h4]
      rw [show i % 32 = i from by omega]
    rw [hout]
    refine ⟨⟨by omega, by omega⟩, ?_⟩
    rw [hd1c, hb1c, hb3c, ha1c, ha2c, ha3c, ha4c]
    rw [hy i (by omega),
      hy (i + 32) (by omega),
      hy (i + 64) (by omega),
      hy (i + 96) (by omega),
      hy (i + 128) (by omega),
      hy (i + 160) (by omega),
      hy (i + 192) (by omega),
      hy (i + 224) (by omega)]
    rw [invLayer_lo 128 vi1 _ i (by omega),
      invLayer_lo 64 vi2 _ i (by omega),
      invLayer_lo 64 vi2 _ (i + 128) (by omega)]
    rw [show i + 128 + 64 = i + 192 from by omega]
    rw [invLayer_lo 32 vi3 y i (by omega),
      invLayer_lo 32 vi3 y (i + 64) (by omega),
      invLayer_lo 32 vi3 y (i + 128) (by omega),
      invLayer_lo 32 vi3 y (i + 192) (by omega)]
  · obtain ⟨ha1a, ha1b, ha1c, ha1d⟩ :=
      gs_butterfly_main (r (i - 32)) (r i) mlkem_l3zeta7 3328
        (hb (i - 32) (by omega)).1 (hb (i - 32) (by omega)).2
        (hb i (by omega)).1 (hb i (by omega)).2
        (by decide) (by decide) (by omega)
    obtain ⟨ha2a, ha2b, ha2c, ha2d⟩ :=
      gs_butterfly_main (r (i + 32)) (r (i + 64)) mlkem_l3zeta6 3328
        (hb (i + 32) (by omega)).1 (hb (i + 32) (by omega)).2
        (hb (i + 64) (by omega)).1 (hb (i + 64) (by omega)).2
        (by decide) (by decide) (by omega)
    obtain ⟨ha3a, ha3b, ha3c, ha3d⟩ :=
      gs_butterfly_main (r (i + 96)) (r (i + 128)) mlkem_l3zeta5 3328
        (hb (i + 96) (by omega)).1 (hb (i + 96) (by omega)).2
        (hb (i + 128) (by omega)).1 (hb (i + 128) (by omega)).2
        (by decide) (by decide) (by omega)
    obtain ⟨ha4a, ha4b, ha4c, ha4d⟩ :=
      gs_butterfly_main (r (i + 160)) (r (i + 192)) mlkem_l3zeta4 3328
        (hb (i + 160) (by omega)).1 (hb (i + 160) (by omega)).2
        (hb (i + 192) (by omega)).1 (hb (i + 192) (by omega)).2
        (by decide) (by decide) (by omega)
    obtain ⟨hb2a, hb2b, hb2c, hb2d⟩ :=
      gs_butterfly_main (gs_butterfly (r (i - 32)) (r i) mlkem_l3zeta7).2 (gs_butterfly (r (i + 32)) (r (i + 64)) mlkem_l3zeta6).2 mlkem_l2zeta3 6656
        (by omega) (by omega) (by omega) (by omega) (by decide) (by decide) (by omega)
    obtain ⟨hb4a, hb4b, hb4c, hb4d⟩ :=
      gs_butterfly_main (gs_butterfly (r (i + 96)) (r (i + 128)) mlkem_l3zeta5).2 (gs_butterfly (r (i + 160)) (r (i + 192)) mlkem_l3zeta4).2 mlkem_l2zeta2 6656
        (by omega) (by omega) (by omega) (by omega) (by decide) (by decide) (by omega)
    obtain ⟨hd2a, hd2b, hd2c, hd2d⟩ :=
      gs_butterfly_main (gs_butterfly (gs_butterfly (r (i - 32)) (r i) mlkem_l3zeta7).2 (gs_butterfly (r (i + 32)) (r (i + 64)) mlkem_l3zeta6).2 mlkem_l2zeta3).1 (gs_butterfly (gs_butterfly (r (i + 96)) (r (i + 128)) mlkem_l3zeta5).2 (gs_butterfly (r (i + 160)) (r (i + 192)) mlkem_l3zeta4).2 mlkem_l2zeta2).1 mlkem_l1zeta1 13312
        (by omega) (by omega) (by omega) (by omega) (by decide) (by decide) (by omega)
    have hout : Ref.invntt_layer321 r i = (gs_butterfly (gs_butterfly (gs_butterfly (r (i - 32)) (r i) mlkem_l3zeta7).2 (gs_butterfly (r (i + 32)) (r (i + 64)) mlkem_l3zeta6).2 mlkem_l2zeta3).1 (gs_butterfly (gs_butterfly (r (i + 96)) (r (i + 128)) mlkem_l3zeta5).2 (gs_butterfly (r (i + 160)) (r (i + 192)) mlkem_l3zeta4).2 mlkem_l2zeta2).1 mlkem_l1zeta1).1 := by
      simp only [Ref.invntt_layer321]
      rw [if_neg (by omega), if_pos h4]
      rw [show i % 32 = i - 32 from by omega,
        show i - 32 + 32 = i from by omega,
        show i - 32 + 64 = i + 32 from by omega,
        show i - 32 + 96 = i + 64 from by omega,
        show i - 32 + 128 = i + 96 from by omega,
        show i - 32 + 160 = i + 128 from by omega,
        show i - 32 + 192 = i + 160 from by omega,
        show i - 32 + 224 = i + 192 from by omega]
    rw [hout]
    refine ⟨⟨by omega, by omega⟩, ?_⟩
    rw [hd2c, hb2c, hb4c, ha1d, ha2d, ha3d, ha4d]
    rw [hy (i - 32) (by omega),
      hy i (by omega),
      hy (i + 32) (by omega),
      hy (i + 64) (by omega),
      hy (i + 96) (by omega),
      hy (i + 128) (by omega),
      hy (i + 160) (by omega),
      hy (i + 192) (by omega)]
    rw [invLayer_lo 128 vi1 _ i (by omega),
      invLayer_lo 64 vi2 _ i (by omega),
      invLayer_lo 64 vi2 _ (i + 128) (by omega)]
    rw [show i + 128 + 64 = i + 192 from by omega]
    rw [invLayer_hi 32 vi3 y i (by omega),
      invLayer_hi 32 vi3 y (i + 64) (by omega),
      invLayer_hi 32 vi3 y (i + 128) (by omega),
      invLayer_hi 32 vi3 y (i + 192) (by omega)]
    rw [show i + 64 - 32 = i + 32 from by omega,
      show i + 128 - 32 = i + 96 from by omega,
      show i + 192 - 32 = i + 160 from by omega]
    simp only [vi3, wz]
    rw [show i / 64 = 0 from by omega,
      getD_li3_0,
      show (i + 64) / 64 = 1 from by omega,
      getD_li3_1,
      show (i + 128) / 64 = 2 from by omega,
      getD_li3_2,
      show (i + 192) / 64 = 3 from by omega,
      getD_li3_3]
    ring
  · obtain ⟨ha1a, ha1b, ha1c, ha1d⟩ :=
      gs_butterfly_main (r (i - 64)) (r (i - 32)) mlkem_l3zeta7 3328
        (hb (i - 64) (by omega)).1 (hb (i - 64) (by omega)).2
        (hb (i - 32) (by omega)).1 (hb (i - 32) (by omega)).2
        (by decide) (by decide) (by omega)
    obtain ⟨ha2a, ha2b, ha2c, ha2d⟩ :=
      gs_butterfly_main (r i) (r (i + 32)) mlkem_l3zeta6 3328
        (hb i (by omega)).1 (hb i (by omega)).2
        (hb (i + 32) (by omega)).1 (hb (i + 32) (by omega)).2
        (by decide) (by decide) (by omega)
    obtain ⟨ha3a, ha3b, ha3c, ha3d⟩ :=
      gs_butterfly_main (r (i + 64)) (r (i + 96)) mlkem_l3zeta5 3328
        (hb (i + 64) (by omega)).1 (hb (i + 64) (by omega)).2
        (hb (i + 96) (by omega)).1 (hb (i + 96) (by omega)).2
        (by decide) (by decide) (by omega)
    obtain ⟨ha4a, ha4b, ha4c, ha4d⟩ :=
      gs_butterfly_main (r (i + 128)) (r (i + 160)) mlkem_l3zeta4 3328
        (hb (i + 128) (by omega)).1 (hb (i + 128) (by omega)).2
        (hb (i + 160) (by omega)).1 (hb (i + 160) (by omega)).2
        (by decide) (by decide) (by omega)
    obtain ⟨hb1a, hb1b, hb1c, hb1d⟩ :=
      gs_butterfly_main (gs_butterfly (r (i - 64)) (r (i - 32)) mlkem_l3zeta7).1 (gs_butterfly (r i) (r (i + 32)) mlkem_l3zeta6).1 mlkem_l2zeta3 6656
        (by omega) (by omega) (by omega) (by omega) (by decide) (by decide) (by omega)
    obtain ⟨hb3a, hb3b, hb3c, hb3d⟩ :=
      gs_butterfly_main (gs_butterfly (r (i + 64)) (r (i + 96)) mlkem_l3zeta5).1 (gs_butterfly (r (i + 128)) (r (i + 160)) mlkem_l3zeta4).1 mlkem_l2zeta2 6656
        (by omega) (by omega) (by omega) (by omega) (by decide) (by decide) (by omega)
    obtain ⟨hd3a, hd3b, hd3c, hd3d⟩ :=
      gs_butterfly_main (gs_butterfly (gs_butterfly (r (i - 64)) (r (i - 32)) mlkem_l3zeta7).1 (gs_butterfly (r i) (r (i + 32)) mlkem_l3zeta6).1 mlkem_l2zeta3).2 (gs_butterfly (gs_butterfly (r (i + 64)) (r (i + 96)) mlkem_l3zeta5).1 (gs_butterfly (r (i + 128)) (r (i + 160)) mlkem_l3zeta4).1 mlkem_l2zeta2).2 mlkem_l1zeta1 13312
        (by omega) (by omega) (by omega) (by omega) (by decide) (by decide) (by omega)
    have hout : Ref.invntt_layer321 r i = (gs_butterfly (gs_butterfly (gs_butterfly (r (i - 64)) (r (i - 32)) mlkem_l3zeta7).1 (gs_butterfly (r i) (r (i + 32)) mlkem_l3zeta6).1 mlkem_l2zeta3).2 (gs_butterfly (gs_butterfly (r (i + 64)) (r (i + 96)) mlkem_l3zeta5).1 (gs_butterfly (r (i + 128)) (r (i + 160)) mlkem_l3zeta4).1 mlkem_l2zeta2).2 mlkem_l1zeta1).1 := by
      simp only [Ref.invntt_layer321]
      rw [if_neg (by omega), if_neg (by omega), if_pos h4]
      rw [show i % 32 = i - 64 from by omega,
        show i - 64 + 32 = i - 32 from by omega,
        show i - 64 + 64 = i from by omega,
        show i - 64 + 96 = i + 32 from by omega,
        show i - 64 + 128 = i + 64 from by omega,
        show i - 64 + 160 = i + 96 from by omega,
        show i - 64 + 192 = i + 128 from by omega,
        show i - 64 + 224 = i + 160 from by omega]
    rw [hout]
    refine ⟨⟨by omega, by omega⟩, ?_⟩
    rw [hd3c, hb1d, hb3d, ha1c, ha2c, ha3c, ha4c]
    rw [hy (i - 64) (by omega),
      hy (i - 32) (by omega),
      hy i (by omega),
      hy (i + 32) (by omega),
      hy (i + 64) (by omega),
      hy (i + 96) (by omega),
      hy (i + 128) (by omega),
      hy (i + 160) (by omega)]
    rw [invLayer_lo 128 vi1 _ i (by omega),
      invLayer_hi 64 vi2 _ i (by omega),
      invLayer_hi 64 vi2 _ (i + 128) (by omega)]
    rw [show i + 128 - 64 = i + 64 from by omega]
    rw [invLayer_lo 32 vi3 y (i - 64) (by omega),
      invLayer_lo 32 vi3 y i (by omega),
      invLayer_lo 32 vi3 y (i + 64) (by omega),
      invLayer_lo 32 vi3 y (i + 128) (by omega)]
    rw [show i - 64 + 32 = i - 32 from by omega,
      show i + 64 + 32 = i + 96 from by omega,
      show i + 128 + 32 = i + 160 from by omega]
    simp only [vi2, wz]
    rw [show i / 128 = 0 from by omega,
      getD_li2_0,
      show (i + 128) / 128 = 1 from by omega,
      getD_li2_1]
    ring
  · obtain ⟨ha1a, ha1b, ha1c, ha1d⟩ :=
      gs_butterfly_main (r (i - 96)) (r (i - 64)) mlkem_l3zeta7 3328
        (hb (i - 96) (by omega)).1 (hb (i - 96) (by omega)).2
        (hb (i - 64) (by omega)).1 (hb (i - 64) (by omega)).2
        (by decide) (by decide) (by omega)
    obtain ⟨ha2a, ha2b, ha2c, ha2d⟩ :=
      gs_butterfly_main (r (i - 32)) (r i) mlkem_l3zeta6 3328
        (hb (i - 32) (by omega)).1 (hb (i - 32) (by omega)).2
        (hb i (by omega)).1 (hb i (by omega)).2
        (by decide) (by decide) (by omega)
    obtain ⟨ha3a, ha3b, ha3c, ha3d⟩ :=
      gs_butterfly_main (r (i + 32)) (r (i + 64)) mlkem_l3zeta5 3328
        (hb (i + 32) (by omega)).1 (hb (i + 32) (by omega)).2
        (hb (i + 64) (by omega)).1 (hb (i + 64) (by omega)).2
        (by decide) (by decide) (by omega)
    obtain ⟨ha4a, ha4b, ha4c, ha4d⟩ :=
      gs_butterfly_main (r (i + 96)) (r (i + 128)) mlkem_l3zeta4 3328
        (hb (i + 96) (by omega)).1 (hb (i + 96) (by omega)).2
        (hb (i + 128) (by omega)).1 (hb (i + 128) (by omega)).2
        (by decide) (by decide) (by omega)
    obtain ⟨hb2a, hb2b, hb2c, hb2d⟩ :=
      gs_butterfly_main (gs_butterfly (r (i - 96)) (r (i - 64)) mlkem_l3zeta7).2 (gs_butterfly (r (i - 32)) (r i) mlkem_l3zeta6).2 mlkem_l2zeta3 6656
        (by omega) (by omega) (by omega) (by omega) (by decide) (by decide) (by omega)
    obtain ⟨hb4a, hb4b, hb4c, hb4d⟩ :=
      gs_butterfly_main (gs_butterfly (r (i + 32)) (r (i + 64)) mlkem_l3zeta5).2 (gs_butterfly (r (i + 96)) (r (i + 128)) mlkem_l3zeta4).2 mlkem_l2zeta2 6656
        (by omega) (by omega) (by omega) (by omega) (by decide) (by decide) (by omega)
    obtain ⟨hd4a, hd4b, hd4c, hd4d⟩ :=
      gs_butterfly_main (gs_butterfly (gs_butterfly (r (i - 96)) (r (i - 64)) mlkem_l3zeta7).2 (gs_butterfly (r (i - 32)) (r i) mlkem_l3zeta6).2 mlkem_l2zeta3).2 (gs_butterfly (gs_butterfly (r (i + 32)) (r (i + 64)) mlkem_l3zeta5).2 (gs_butterfly (r (i + 96)) (r (i + 128)) mlkem_l3zeta4).2 mlkem_l2zeta2).2 mlkem_l1zeta1 13312
        (by omega) (by omega) (by omega) (by omega) (by decide) (by decide) (by omega)
    have hout : Ref.invntt_layer321 r i = (gs_butterfly (gs_butterfly (gs_butterfly (r (i - 96)) (r (i - 64)) mlkem_l3zeta7).2 (gs_butterfly (r (i - 32)) (r i) mlkem_l3zeta6).2 mlkem_l2zeta3).2 (gs_butterfly (gs_butterfly (r (i + 32)) (r (i + 64)) mlkem_l3zeta5).2 (gs_butterfly (r (i + 96)) (r (i + 128)) mlkem_l3zeta4).2 mlkem_l2zeta2).2 mlkem_l1zeta1).1 := by
      simp only [Ref.invntt_layer321]
      rw [if_neg (by omega), if_neg (by omega), if_neg (by omega), if_pos h4]
      rw [show i % 32 = i - 96 from by omega,
        show i - 96 + 32 = i - 64 from by omega,
        show i - 96 + 64 = i - 32 from by omega,
        show i - 96 + 96 = i from by omega,
        show i - 96 + 128 = i + 32 from by omega,
        show i - 96 + 160 = i + 64 from by omega,
        show i - 96 + 192 = i + 96 from by omega,
        show i - 96 + 224 = i + 128 from by omega]
    rw [hout]
    refine ⟨⟨by omega, by omega⟩, ?_⟩
    rw [hd4c, hb2d, hb4d, ha1d, ha2d, ha3d, ha4d]
    rw [hy (i - 96) (by omega),
      hy (i - 64) (by omega),
      hy (i - 32) (by omega),
      hy i (by omega),
      hy (i + 32) (by omega),
      hy (i + 64) (by omega),
      hy (i + 96) (by omega),
      hy (i + 128) (by omega)]
    rw [invLayer_lo 128 vi1 _ i (by omega),
      invLayer_hi 64 vi2 _ i (by omega),
      invLayer_hi 64 vi2 _ (i + 128) (by omega)]
    rw [show i + 128 - 64 = i + 64 from by omega]
    rw [invLayer_hi 32 vi3 y (i - 64) (by omega),
      invLayer_hi 32 vi3 y i (by omega),
      invLayer_hi 32 vi3 y (i + 64) (by omega),
      invLayer_hi 32 vi3 y (i + 128) (by omega)]
    rw [show i - 64 - 32 = i - 96 from by omega,
      show i + 64 - 32 = i + 32 from by omega,
      show i + 128 - 32 = i + 96 from by omega]
    simp only [vi2, vi3, wz]
    rw [show i / 128 = 0 from by omega,
      getD_li2_0,
      show (i + 128) / 128 = 1 from by omega,
      getD_li2_1,
      show (i - 64) / 64 = 0 from by omega,
      getD_li3_0,
      show i / 64 = 1 from by omega,
      getD_li3_1,
      show (i + 64) / 64 = 2 from by omega,
      getD_li3_2,
      show (i + 128) / 64 = 3 from by omega,
      getD_li3_3]
    ring
  · obtain ⟨ha1a, ha1b, ha1c, ha1d⟩ :=
      gs_butterfly_main (r (i - 128)) (r (i - 96)) mlkem_l3zeta7 3328
        (hb (i - 128) (by omega)).1 (hb (i - 128) (by omega)).2
        (hb (i - 96) (by omega)).1 (hb (i - 96) (by omega)).2
        (by decide) (by decide) (by omega)
    obtain ⟨ha2a, ha2b, ha2c, ha2d⟩ :=
      gs_butterfly_main (r (i - 64)) (r (i - 32)) mlkem_l3zeta6 3328
        (hb (i - 64) (by omega)).1 (hb (i - 64) (by omega)).2
        (hb (i - 32) (by omega)).1 (hb (i - 32) (by omega)).2
        (by decide) (by decide) (by omega)
    obtain ⟨ha3a, ha3b, ha3c, ha3d⟩ :=
      gs_butterfly_main (r i) (r (i + 32)) mlkem_l3zeta5 3328
        (hb i (by omega)).1 (hb i (by omega)).2
        (hb (i + 32) (by omega)).1 (hb (i + 32) (by omega)).2
        (by decide) (by decide) (by omega)
    obtain ⟨ha4a, ha4b, ha4c, ha4d⟩ :=
      gs_butterfly_main (r (i + 64)) (r (i + 96)) mlkem_l3zeta4 3328
        (hb (i + 64) (by omega)).1 (hb (i + 64) (by omega)).2
        (hb (i + 96) (by omega)).1 (hb (i + 96) (by omega)).2
        (by decide) (by decide) (by omega)
    obtain ⟨hb1a, hb1b, hb1c, hb1d⟩ :=
      gs_butterfly_main (gs_butterfly (r (i - 128)) (r (i - 96)) mlkem_l3zeta7).1 (gs_butterfly (r (i - 64)) (r (i - 32)) mlkem_l3zeta6).1 mlkem_l2zeta3 6656
        (by omega) (by omega) (by omega) (by omega) (by decide) (by decide) (by omega)
    obtain ⟨hb3a, hb3b, hb3c, hb3d⟩ :=
      gs_butterfly_main (gs_butterfly (r i) (r (i + 32)) mlkem_l3zeta5).1 (gs_butterfly (r (i + 64)) (r (i + 96)) mlkem_l3zeta4).1 mlkem_l2zeta2 6656
        (by omega) (by omega) (by omega) (by omega) (by decide) (by decide) (by omega)
    obtain ⟨hd1a, hd1b, hd1c, hd1d⟩ :=
      gs_butterfly_main (gs_butterfly (gs_butterfly (r (i - 128)) (r (i - 96)) mlkem_l3zeta7).1 (gs_butterfly (r (i - 64)) (r (i - 32)) mlkem_l3zeta6).1 mlkem_l2zeta3).1 (gs_butterfly (gs_butterfly (r i) (r (i + 32)) mlkem_l3zeta5).1 (gs_butterfly (r (i + 64)) (r (i + 96)) mlkem_l3zeta4).1 mlkem_l2zeta2).1 mlkem_l1zeta1 13312
        (by omega) (by omega) (by omega) (by omega) (by decide) (by decide) (by omega)
    have hout : Ref.invntt_layer321 r i = (gs_butterfly (gs_butterfly (gs_butterfly (r (i - 128)) (r (i - 96)) mlkem_l3zeta7).1 (gs_butterfly (r (i - 64)) (r (i - 32)) mlkem_l3zeta6).1 mlkem_l2zeta3).1 (gs_butterfly (gs_butterfly (r i) (r (i + 32)) mlkem_l3zeta5).1 (gs_butterfly (r (i + 64)) (r (i + 96)) mlkem_l3zeta4).1 mlkem_l2zeta2).1 mlkem_l1zeta1).2 := by
      simp only [Ref.invntt_layer321]
      rw [if_neg (by omega), if_neg (by omega), if_neg (by omega), if_neg (by omega), if_pos h4]
      rw [show i % 32 = i - 128 from by omega,
        show i - 128 + 32 = i - 96 from by omega,
        show i - 128 + 64 = i - 64 from by omega,
        show i - 128 + 96 = i - 32 from by omega,
        show i - 128 + 128 = i from by omega,
        show i - 128 + 160 = i + 32 from by omega,
        show i - 128 + 192 = i + 64 from by omega,
        show i - 128 + 224 = i + 96 from by omega]
    rw [hout]
    refine ⟨⟨by omega, by omega⟩, ?_⟩
    rw [hd1d, hb1c, hb3c, ha1c, ha2c, ha3c, ha4c]
    rw [hy (i - 128) (by omega),
      hy (i - 96) (by omega),
      hy (i - 64) (by omega),
      hy (i - 32) (by omega),
      hy i (by omega),
      hy (i + 32) (by omega),
      hy (i + 64) (by omega),
      hy (i + 96) (by omega)]
    rw [invLayer_hi 128 vi1 _ i (by omega),
      invLayer_lo 64 vi2 _ i (by omega),
      invLayer_lo 64 vi2 _ (i - 128) (by omega)]
    rw [show i - 128 + 64 = i - 64 from by omega]
    rw [invLayer_lo 32 vi3 y i (by omega),
      invLayer_lo 32 vi3 y (i + 64) (by omega),
      invLayer_lo 32 vi3 y (i - 128) (by omega),
      invLayer_lo 32 vi3 y (i - 64) (by omega)]
    rw [show i + 64 + 32 = i + 96 from by omega,
      show i - 128 + 32 = i - 96 from by omega,
      show i - 64 + 32 = i - 32 from by omega]
    simp only [vi1, wz]
    ring
  · obtain ⟨ha1a, ha1b, ha1c, ha1d⟩ :=
      gs_butterfly_main (r (i - 160)) (r (i - 128)) mlkem_l3zeta7 3328
        (hb (i - 160) (by omega)).1 (hb (i - 160) (by omega)).2
        (hb (i - 128) (by omega)).1 (hb (i - 128) (by omega)).2
        (by decide) (by decide) (by omega)
    obtain ⟨ha2a, ha2b, ha2c, ha2d⟩ :=
      gs_butterfly_main (r (i - 96)) (r (i - 64)) mlkem_l3zeta6 3328
        (hb (i - 96) (by omega)).1 (hb (i - 96) (by omega)).2
        (hb (i - 64) (by omega)).1 (hb (i - 64) (by omega)).2
        (by decide) (by decide) (by omega)
    obtain ⟨ha3a, ha3b, ha3c, ha3d⟩ :=
      gs_butterfly_main (r (i - 32)) (r i) mlkem_l3zeta5 3328
        (hb (i - 32) (by omega)).1 (hb (i - 32) (by omega)).2
        (hb i (by omega)).1 (hb i (by omega)).2
        (by decide) (by decide) (by omega)
    obtain ⟨ha4a, ha4b, ha4c, ha4d⟩ :=
      gs_butterfly_main (r (i + 32)) (r (i + 64)) mlkem_l3zeta4 3328
        (hb (i + 32) (by omega)).1 (hb (i + 32) (by omega)).2
        (hb (i + 64) (by omega)).1 (hb (i + 64) (by omega)).2
        (by decide) (by decide) (by omega)
    obtain ⟨hb2a, hb2b, hb2c, hb2d⟩ :=
      gs_butterfly_main (gs_butterfly (r (i - 160)) (r (i - 128)) mlkem_l3zeta7).2 (gs_butterfly (r (i - 96)) (r (i - 64)) mlkem_l3zeta6).2 mlkem_l2zeta3 6656
        (by omega) (by omega) (by omega) (by omega) (by decide) (by decide) (by omega)
    obtain ⟨hb4a, hb4b, hb4c, hb4d⟩ :=
      gs_butterfly_main (gs_butterfly (r (i - 32)) (r i) mlkem_l3zeta5).2 (gs_butterfly (r (i + 32)) (r (i + 64)) mlkem_l3zeta4).2 mlkem_l2zeta2 6656
        (by omega) (by omega) (by omega) (by omega) (by decide) (by decide) (by omega)
    obtain ⟨hd2a, hd2b, hd2c, hd2d⟩ :=
      gs_butterfly_main (gs_butterfly (gs_butterfly (r (i - 160)) (r (i - 128)) mlkem_l3zeta7).2 (gs_butterfly (r (i - 96)) (r (i - 64)) mlkem_l3zeta6).2 mlkem_l2zeta3).1 (gs_butterfly (gs_butterfly (r (i - 32)) (r i) mlkem_l3zeta5).2 (gs_butterfly (r (i + 32)) (r (i + 64)) mlkem_l3zeta4).2 mlkem_l2zeta2).1 mlkem_l1zeta1 13312
        (by omega) (by omega) (by omega) (by omega) (by decide) (by decide) (by omega)
    have hout : Ref.invntt_layer321 r i = (gs_butterfly (gs_butterfly (gs_butterfly (r (i - 160)) (r (i - 128)) mlkem_l3zeta7).2 (gs_butterfly (r (i - 96)) (r (i - 64)) mlkem_l3zeta6).2 mlkem_l2zeta3).1 (gs_butterfly (gs_butterfly (r (i - 32)) (r i) mlkem_l3zeta5).2 (gs_butterfly (r (i + 32)) (r (i + 64)) mlkem_l3zeta4).2 mlkem_l2zeta2).1 mlkem_l1zeta1).2 := by
      simp only [Ref.invntt_layer321]
      rw [if_neg (by omega), if_neg (by omega), if_neg (by omega), if_neg (by omega), if_neg (by omega), if_pos h4]
      rw [show i % 32 = i - 160 from by omega,
        show i - 160 + 32 = i - 128 from by omega,
        show i - 160 + 64 = i - 96 from by omega,
        show i - 160 + 96 = i - 64 from by omega,
        show i - 160 + 128 = i - 32 from by omega,
        show i - 160 + 160 = i from by omega,
        show i - 160 + 192 = i + 32 from by omega,
        show i - 160 + 224 = i + 64 from by omega]
    rw [hout]
    refine ⟨⟨by omega, by omega⟩, ?_⟩
    rw [hd2d, hb2c, hb4c, ha1d, ha2d, ha3d, ha4d]
    rw [hy (i - 160) (by omega),
      hy (i - 128) (by omega),
      hy (i - 96) (by omega),
      hy (i - 64) (by omega),
      hy (i - 32) (by omega),
      hy i (by omega),
      hy (i + 32) (by omega),
      hy (i + 64) (by omega)]
    rw [invLayer_hi 128 vi1 _ i (by omega),
      invLayer_lo 64 vi2 _ i (by omega),
      invLayer_lo 64 vi2 _ (i - 128) (by omega)]
    rw [show i - 128 + 64 = i - 64 from by omega]
    rw [invLayer_hi 32 vi3 y i (by omega),
      invLayer_hi 32 vi3 y (i + 64) (by omega),
      invLayer_hi 32 vi3 y (i - 128) (by omega),
      invLayer_hi 32 vi3 y (i - 64) (by omega)]
    rw [show i + 64 - 32 = i + 32 from by omega,
      show i - 128 - 32 = i - 160 from by omega,
      show i - 64 - 32 = i - 96 from by omega]
    simp only [vi1, vi3, wz]
    rw [show i / 64 = 2 from by omega,
      getD_li3_2,
      show (i + 64) / 64 = 3 from by omega,
      getD_li3_3,
      show (i - 128) / 64 = 0 from by omega,
      getD_li3_0,
      show (i - 64) / 64 = 1 from by omega,
      getD_li3_1]
    ring
  · obtain ⟨ha1a, ha1b, ha1c, ha1d⟩ :=
      gs_butterfly_main (r (i - 192)) (r (i - 160)) mlkem_l3zeta7 3328
        (hb (i - 192) (by omega)).1 (hb (i - 192) (by omega)).2
        (hb (i - 160) (by omega)).1 (hb (i - 160) (by omega)).2
        (by decide) (by decide) (by omega)
    obtain ⟨ha2a, ha2b, ha2c, ha2d⟩ :=
      gs_butterfly_main (r (i - 128)) (r (i - 96)) mlkem_l3zeta6 3328
        (hb (i - 128) (by omega)).1 (hb (i - 128) (by omega)).2
        (hb (i - 96) (by omega)).1 (hb (i - 96) (by omega)).2
        (by decide) (by decide) (by omega)
    obtain ⟨ha3a, ha3b, ha3c, ha3d⟩ :=
      gs_butterfly_main (r (i - 64)) (r (i - 32)) mlkem_l3zeta5 3328
        (hb (i - 64) (by omega)).1 (hb (i - 64) (by omega)).2
        (hb (i - 32) (by omega)).1 (hb (i - 32) (by omega)).2
        (by decide) (by decide) (by omega)
    obtain ⟨ha4a, ha4b, ha4c, ha4d⟩ :=
      gs_butterfly_main (r i) (r (i + 32)) mlkem_l3zeta4 3328
        (hb i (by omega)).1 (hb i (by omega)).2
        (hb (i + 32) (by omega)).1 (hb (i + 32) (by omega)).2
        (by decide) (by decide) (by omega)
    obtain ⟨hb1a, hb1b, hb1c, hb1d⟩ :=
      gs_butterfly_main (gs_butterfly (r (i - 192)) (r (i - 160)) mlkem_l3zeta7).1 (gs_butterfly (r (i - 128)) (r (i - 96)) mlkem_l3zeta6).1 mlkem_l2zeta3 6656
        (by omega) (by omega) (by omega) (by omega) (by decide) (by decide) (by omega)
    obtain ⟨hb3a, hb3b, hb3c, hb3d⟩ :=
      gs_butterfly_main (gs_butterfly (r (i - 64)) (r (i - 32)) mlkem_l3zeta5).1 (gs_butterfly (r i) (r (i + 32)) mlkem_l3zeta4).1 mlkem_l2zeta2 6656
        (by omega) (by omega) (by omega) (by omega) (by decide) (by decide) (by omega)
    obtain ⟨hd3a, hd3b, hd3c, hd3d⟩ :=
      gs_butterfly_main (gs_butterfly (gs_butterfly (r (i - 192)) (r (i - 160)) mlkem_l3zeta7).1 (gs_butterfly (r (i - 128)) (r (i - 96)) mlkem_l3zeta6).1 mlkem_l2zeta3).2 (gs_butterfly (gs_butterfly (r (i - 64)) (r (i - 32)) mlkem_l3zeta5).1 (gs_butterfly (r i) (r (i + 32)) mlkem_l3zeta4).1 mlkem_l2zeta2).2 mlkem_l1zeta1 13312
        (by omega) (by omega) (by omega) (by omega) (by decide) (by decide) (by omega)
    have hout : Ref.invntt_layer321 r i = (gs_butterfly (gs_butterfly (gs_butterfly (r (i - 192)) (r (i - 160)) mlkem_l3zeta7).1 (gs_butterfly (r (i - 128)) (r (i - 96)) mlkem_l3zeta6).1 mlkem_l2zeta3).2 (gs_butterfly (gs_butterfly (r (i - 64)) (r (i - 32)) mlkem_l3zeta5).1 (gs_butterfly (r i) (r (i + 32)) mlkem_l3zeta4).1 mlkem_l2zeta2).2 mlkem_l1zeta1).2 := by
      simp only [Ref.invntt_layer321]
      rw [if_neg (by omega), if_neg (by omega), if_neg (by omega), if_neg (by omega), if_neg (by omega), if_neg (by omega), if_pos h4]
      rw [show i % 32 = i - 192 from by omega,
        show i - 192 + 32 = i - 160 from by omega,
        show i - 192 + 64 = i - 128 from by omega,
        show i - 192 + 96 = i - 96 from by omega,
        show i - 192 + 128 = i - 64 from by omega,
        show i - 192 + 160 = i - 32 from by omega,
        show i - 192 + 192 = i from by omega,
        show i - 192 + 224 = i + 32 from by omega]
    rw [hout]
    refine ⟨⟨by omega, by omega⟩, ?_⟩
    rw [hd3d, hb1d, hb3d, ha1c, ha2c, ha3c, ha4c]
    rw [hy (i - 192) (by omega),
      hy (i - 160) (by omega),
      hy (i - 128) (by omega),
      hy (i - 96) (by omega),
      hy (i - 64) (by omega),
      hy (i - 32) (by omega),
      hy i (by omega),
      hy (i + 32) (by omega)]
    rw [invLayer_hi 128 vi1 _ i (by omega),
      invLayer_hi 64 vi2 _ i (by omega),
      invLayer_hi 64 vi2 _ (i - 128) (by omega)]
    rw [show i - 128 - 64 = i - 192 from by omega]
    rw [invLayer_lo 32 vi3 y (i - 64) (by omega),
      invLayer_lo 32 vi3 y i (by omega),
      invLayer_lo 32 vi3 y (i - 192) (by omega),
      invLayer_lo 32 vi3 y (i - 128) (by omega)]
    rw [show i - 64 + 32 = i - 32 from by omega,
      show i - 192 + 32 = i - 160 from by omega,
      show i - 128 + 32 = i - 96 from by omega]
    simp only [vi1, vi2, wz]
    rw [show i / 128 = 1 from by omega,
      getD_li2_1,
      show (i - 128) / 128 = 0 from by omega,
      getD_li2_0]
    ring
  · obtain ⟨ha1a, ha1b, ha1c, ha1d⟩ :=
      gs_butterfly_main (r (i - 224)) (r (i - 192)) mlkem_l3zeta7 3328
        (hb (i - 224) (by omega)).1 (hb (i - 224) (by omega)).2
        (hb (i - 192) (by omega)).1 (hb (i - 192) (by omega)).2
        (by decide) (by decide) (by omega)
    obtain ⟨ha2a, ha2b, ha2c, ha2d⟩ :=
      gs_butterfly_main (r (i - 160)) (r (i - 128)) mlkem_l3zeta6 3328
        (hb (i - 160) (by omega)).1 (hb (i - 160) (by omega)).2
        (hb (i - 128) (by omega)).1 (hb (i - 128) (by omega)).2
        (by decide) (by decide) (by omega)
    obtain ⟨ha3a, ha3b, ha3c, ha3d⟩ :=
      gs_butterfly_main (r (i - 96)) (r (i - 64)) mlkem_l3zeta5 3328
        (hb (i - 96) (by omega)).1 (hb (i - 96) (by omega)).2
        (hb (i - 64) (by omega)).1 (hb (i - 64) (by omega)).2
        (by decide) (by decide) (by omega)
    obtain ⟨ha4a, ha4b, ha4c, ha4d⟩ :=
      gs_butterfly_main (r (i - 32)) (r i) mlkem_l3zeta4 3328
        (hb (i - 32) (by omega)).1 (hb (i - 32) (by omega)).2
        (hb i (by omega)).1 (hb i (by omega)).2
        (by decide) (by decide) (by omega)
    obtain ⟨hb2a, hb2b, hb2c, hb2d⟩ :=
      gs_butterfly_main (gs_butterfly (r (i - 224)) (r (i - 192)) mlkem_l3zeta7).2 (gs_butterfly (r (i - 160)) (r (i - 128)) mlkem_l3zeta6).2 mlkem_l2zeta3 6656
        (by omega) (by omega) (by omega) (by omega) (by decide) (by decide) (by omega)
    obtain ⟨hb4a, hb4b, hb4c, hb4d⟩ :=
      gs_butterfly_main (gs_butterfly (r (i - 96)) (r (i - 64)) mlkem_l3zeta5).2 (gs_butterfly (r (i - 32)) (r i) mlkem_l3zeta4).2 mlkem_l2zeta2 6656
        (by omega) (by omega) (by omega) (by omega) (by decide) (by decide) (by omega)
    obtain ⟨hd4a, hd4b, hd4c, hd4d⟩ :=
      gs_butterfly_main (gs_butterfly (gs_butterfly (r (i - 224)) (r (i - 192)) mlkem_l3zeta7).2 (gs_butterfly (r (i - 160)) (r (i - 128)) mlkem_l3zeta6).2 mlkem_l2zeta3).2 (gs_butterfly (gs_butterfly (r (i - 96)) (r (i - 64)) mlkem_l3zeta5).2 (gs_butterfly (r (i - 32)) (r i) mlkem_l3zeta4).2 mlkem_l2zeta2).2 mlkem_l1zeta1 13312
        (by omega) (by omega) (by omega) (by omega) (by decide) (by decide) (by omega)
    have hout : Ref.invntt_layer321 r i = (gs_butterfly (gs_butterfly (gs_butterfly (r (i - 224)) (r (i - 192)) mlkem_l3zeta7).2 (gs_butterfly (r (i - 160)) (r (i - 128)) mlkem_l3zeta6).2 mlkem_l2zeta3).2 (gs_butterfly (gs_butterfly (r (i - 96)) (r (i - 64)) mlkem_l3zeta5).2 (gs_butterfly (r (i - 32)) (r i) mlkem_l3zeta4).2 mlkem_l2zeta2).2 mlkem_l1zeta1).2 := by
      simp only [Ref.invntt_layer321]
      rw [if_neg (by omega), if_neg (by omega), if_neg (by omega), if_neg (by omega), if_neg (by omega), if_neg (by omega), if_neg (by omega)]
      rw [show i % 32 = i - 224 from by omega,
        show i - 224 + 32 = i - 192 from by omega,
        show i - 224 + 64 = i - 160 from by omega,
        show i - 224 + 96 = i - 128 from by omega,
        show i - 224 + 128 = i - 96 from by omega,
        show i - 224 + 160 = i - 64 from by omega,
        show i - 224 + 192 = i - 32 from by omega,
        show i - 224 + 224 = i from by omega]
    rw [hout]
    refine ⟨⟨by omega, by omega⟩, ?_⟩
    rw [hd4d, hb2d, hb4d, ha1d, ha2d, ha3d, ha4d]
    rw [hy (i - 224) (by omega),
      hy (i - 192) (by omega),
      hy (i - 160) (by omega),
      hy (i - 128) (by omega),
      hy (i - 96) (by omega),
      hy (i - 64) (by omega),
      hy (i - 32) (by omega),
      hy i (by omega)]
    rw [invLayer_hi 128 vi1 _ i (by omega),
      invLayer_hi 64 vi2 _ i (by omega),
      invLayer_hi 64 vi2 _ (i - 128) (by omega)]
    rw [show i - 128 - 64 = i - 192 from by omega]
    rw [invLayer_hi 32 vi3 y (i - 64) (by omega),
      invLayer_hi 32 vi3 y i (by omega),
      invLayer_hi 32 vi3 y (i - 192) (by omega),
      invLayer_hi 32 vi3 y (i - 128) (by omega)]
    rw [show i - 64 - 32 = i - 96 from by omega,
      show i - 192 - 32 = i - 224 from by omega,
      show i - 128 - 32 = i - 160 from by omega]
    simp only [vi1, vi2, vi3, wz]
    rw [show i / 128 = 1 from by omega,
      getD_li2_1,
      show (i - 128) / 128 = 0 from by omega,
      getD_li2_0,
      show (i - 64) / 64 = 2 from by omega,
      getD_li3_2,
      show i / 64 = 3 from by omega,
      getD_li3_3,
      show (i - 192) / 64 = 0 from by omega,
      getD_li3_0,
      show (i - 128) / 64 = 1 from by omega,
      getD_li3_1]
    ring

/-- Full forward NTT: bounds after every merged layer, and congruence to
`sNtt` modulo q. -/
theorem poly_ntt_main (p : poly) (A : ℤ) (hA1 : 0 ≤ A) (hA2 : A ≤ 3329)
    (hb : ∀ k < 256, -A ≤ p k ∧ p k ≤ A) :
    ∀ i < 256,
      (-(A + 9984) ≤ Ref.ntt_layer123 p i ∧ Ref.ntt_layer123 p i ≤ A + 9984) ∧
      (-(A + 9984 + 6656) ≤ Ref.ntt_layer45 (Ref.ntt_layer123 p) i ∧
        Ref.ntt_layer45 (Ref.ntt_layer123 p) i ≤ A + 9984 + 6656) ∧
      (-(A + 9984 + 6656 + 3328) ≤ Ref.ntt_layer6 (Ref.ntt_layer45 (Ref.ntt_layer123 p)) i ∧
        Ref.ntt_layer6 (Ref.ntt_layer45 (Ref.ntt_layer123 p)) i ≤ A + 9984 + 6656 + 3328) ∧
      (-(A + 9984 + 6656 + 3328 + 3328) ≤ Ref.poly_ntt p i ∧
        Ref.poly_ntt p i ≤ A + 9984 + 6656 + 3328 + 3328) ∧
      ((Ref.poly_ntt p i : ℤ) : Zq) = sNtt (fun k => ((p k : ℤ) : Zq)) i := by
  have h1 := ntt_layer123_main p (fun k => ((p k : ℤ) : Zq)) A hA1 hA2 hb
    (fun k _ => rfl)
  have h2 := ntt_layer45_main (Ref.ntt_layer123 p)
    (fwdLayer 32 wf3 (fwdLayer 64 wf2 (fwdLayer 128 wf1 (fun k => ((p k : ℤ) : Zq)))))
    (A + 9984) (by omega) (by omega) (fun k hk => (h1 k hk).1) (fun k hk => (h1 k hk).2)
  have h3 := ntt_layer6_main (Ref.ntt_layer45 (Ref.ntt_layer123 p))
    (fwdLayer 8 wf5 (fwdLayer 16 wf4
      (fwdLayer 32 wf3 (fwdLayer 64 wf2 (fwdLayer 128 wf1 (fun k => ((p k : ℤ) : Zq)))))))
    (A + 9984 + 6656) (by omega) (by omega) (fun k hk => (h2 k hk).1) (fun k hk => (h2 k hk).2)
  have h4 := ntt_layer7_main (Ref.ntt_layer6 (Ref.ntt_layer45 (Ref.ntt_layer123 p)))
    (fwdLayer 4 wf6 (fwdLayer 8 wf5 (fwdLayer 16 wf4
      (fwdLayer 32 wf3 (fwdLayer 64 wf2 (fwdLayer 128 wf1 (fun k => ((p k : ℤ) : Zq))))))))
    (A + 9984 + 6656 + 3328) (by omega) (by omega)
    (fun k hk => (h3 k hk).1) (fun k hk => (h3 k hk).2)
  intro i hi
  have hpe : Ref.poly_ntt p i
      = Ref.ntt_layer7 (Ref.ntt_layer6 (Ref.ntt_layer45 (Ref.ntt_layer123 p))) i := rfl
  refine ⟨(h1 i hi).1, (h2 i hi).1, (h3 i hi).1, ?_, ?_⟩
  · rw [hpe]
    exact (h4 i hi).1
  · rw [hpe]
    exact (h4 i hi).2

/-- Full inverse NTT (`part_000`): output bounds and congruence to `sInv`
modulo q, for arbitrary `int16_t` input. -/
theorem poly_invntt_tomont_main (p : poly)
    (hb : ∀ k < 256, -32768 ≤ p k ∧ p k ≤ 32767) :
    ∀ i < 256,
      (-26624 ≤ Ref.poly_invntt_tomont p i ∧ Ref.poly_invntt_tomont p i ≤ 26624) ∧
      ((Ref.poly_invntt_tomont p i : ℤ) : Zq) = sInv (fun k => ((p k : ℤ) : Zq)) i := by
  have h1 := invntt_layer7_invert_main p (fun k => ((p k : ℤ) : Zq)) hb (fun k _ => rfl)
  have h2 := invntt_layer6_main (Ref.invntt_layer7_invert p)
    (invLayer 2 vi7 (mScale (fun k => ((p k : ℤ) : Zq))))
    (fun k hk => (h1 k hk).1) (fun k hk => (h1 k hk).2)
  have h3 := invntt_layer54_main (Ref.invntt_layer6 (Ref.invntt_layer7_invert p))
    (invLayer 4 vi6 (invLayer 2 vi7 (mScale (fun k => ((p k : ℤ) : Zq)))))
    (fun k hk => (h2 k hk).1) (fun k hk => (h2 k hk).2)
  have h4 := invntt_layer321_main
    (Ref.invntt_layer54 (Ref.invntt_layer6 (Ref.invntt_layer7_invert p)))
    (invLayer 16 vi4 (invLayer 8 vi5 (invLayer 4 vi6 (invLayer 2 vi7
      (mScale (fun k => ((p k : ℤ) : Zq)))))))
    (fun k hk => (h3 k hk).1) (fun k hk => (h3 k hk).2)
  intro i hi
  exact ⟨(h4 i hi).1, (h4 i hi).2⟩

/-- The composite `poly_invntt_tomont ∘ poly_ntt` of `part_000` is
congruent modulo q to multiplication by `2^16`, on inputs bounded by
`q - 1`. -/
theorem invntt_ntt_core (p : poly)
    (hb : ∀ k < 256, -3328 ≤ p k ∧ p k ≤ 3328) :
    ∀ i < 256,
      ((Ref.poly_invntt_tomont (Ref.poly_ntt p) i : ℤ) : Zq)
        = 65536 * ((p i : ℤ) : Zq) := by
  have hf := poly_ntt_main p 3328 (by norm_num) (by norm_num) hb
  have hinv := poly_invntt_tomont_main (Ref.poly_ntt p)
    (fun k hk => by have := ((hf k hk).2.2.2.1); omega)
  intro i hi
  rw [(hinv i hi).2]
  have hcongr : ∀ k < 256, ((Ref.poly_ntt p k : ℤ) : Zq)
      = sNtt (fun k => ((p k : ℤ) : Zq)) k := fun k hk => (hf k hk).2.2.2.2
  have hstep : sInv (fun k => ((Ref.poly_ntt p k : ℤ) : Zq)) i
      = sInv (sNtt (fun k => ((p k : ℤ) : Zq))) i := by
    have hm : ∀ k < 256, mScale (fun k => ((Ref.poly_ntt p k : ℤ) : Zq)) k
        = mScale (sNtt (fun k => ((p k : ℤ) : Zq))) k := by
      intro k hk
      simp only [mScale, hcongr k hk]
    have s7 := invLayer_congr 2 (by tauto) vi7 _ _ hm
    have s6 := invLayer_congr 4 (by tauto) vi6 _ _ s7
    have s5 := invLayer_congr 8 (by tauto) vi5 _ _ s6
    have s4 := invLayer_congr 16 (by tauto) vi4 _ _ s5
    have s3 := invLayer_congr 32 (by tauto) vi3 _ _ s4
    have s2 := invLayer_congr 64 (by tauto) vi2 _ _ s3
    have s1 := invLayer_congr 128 (by tauto) vi1 _ _ s2
    exact s1 i hi
  rw [hstep, sInv_sNtt (fun k => ((p k : ℤ) : Zq)) i hi]

/-! ## Byte-level codecs (`poly.c`)

Bytes and unsigned scalars are modelled as `ℕ`; the bit operations are
the genuine `Nat` bitwise operations.  Three small lemmas convert the
bit-packing patterns to arithmetic. -/

/-- Oring a value below `2^k` with a multiple of `2^k` is addition. -/
theorem lor_two_pow_add (a c k : ℕ) (h : a < 2 ^ k) :
    a ||| 2 ^ k * c = a + 2 ^ k * c := by
  apply Nat.eq_of_testBit_eq
  intro i
  rcases Nat.lt_or_ge i k with hik | hik
  · have hp : (2 : ℕ) ^ k = 2 ^ i * 2 ^ (k - i) := by
      rw [← pow_add]
      congr 1
      omega
    have he : (a + 2 ^ k * c) / 2 ^ i = a / 2 ^ i + 2 ^ (k - i) * c := by
      rw [hp, mul_assoc, Nat.add_mul_div_left _ _ (Nat.pos_pow_of_pos i (by norm_num))]
    have h2 : (2 : ℕ) ∣ 2 ^ (k - i) := dvd_pow_self 2 (by omega)
    obtain ⟨m, hm⟩ := h2
    have hl : (a + 2 ^ k * c).testBit i = a.testBit i := by
      simp only [Nat.testBit_to_div_mod, he, hm, mul_assoc, Nat.add_mul_mod_self_left]
    have hr : (2 ^ k * c).testBit i = false := by
      rw [Nat.testBit_mul_pow_two]
      simp
      omega
    rw [hl, Nat.testBit_lor, hr, Bool.or_false]
  · have ha0 : a / 2 ^ k = 0 := Nat.div_eq_of_lt h
    have he : (a + 2 ^ k * c) / 2 ^ i = c / 2 ^ (i - k) := by
      have hp : (2 : ℕ) ^ i = 2 ^ k * 2 ^ (i - k) := by
        rw [← pow_add]
        congr 1
        omega
      rw [hp, ← Nat.div_div_eq_div_mul, Nat.add_mul_div_left _ _
        (Nat.pos_pow_of_pos k (by norm_num)), ha0, Nat.zero_add]
    have hl : (a + 2 ^ k * c).testBit i = c.testBit (i - k) := by
      simp only [Nat.testBit_to_div_mod, he]
    have ha : a.testBit i = false :=
      Nat.testBit_lt_two_pow (lt_of_lt_of_le h (Nat.pow_le_pow_right (by norm_num) hik))
    have hr : (2 ^ k * c).testBit i = c.testBit (i - k) := by
      rw [Nat.testBit_mul_pow_two]
      simp [hik]
    rw [hl, Nat.testBit_lor, ha, hr, Bool.false_or]

/-- Masking a shifted value with an equally shifted mask. -/
theorem mul_pow_two_and (k x m : ℕ) : (2 ^ k * x) &&& (2 ^ k * m) = 2 ^ k * (x &&& m) := by
  apply Nat.eq_of_testBit_eq
  intro i
  simp only [Nat.testBit_and, Nat.testBit_mul_pow_two]
  cases h : decide (i ≥ k) <;> simp [h]

/-- `toU16` models the C conversion of an `int16_t` value to `uint16_t`. -/
def toU16 (v : ℤ) : ℕ := (v % 65536).toNat

theorem toU16_of_canonical (v : ℤ) (h1 : 0 ≤ v) (h2 : v < 3329) : (toU16 v : ℤ) = v := by
  unfold toU16
  rw [Int.toNat_of_nonneg (by omega)]
  omega

/-- `poly_tobytes` of `poly.c`: packs two canonical coefficients into
three bytes. -/
def poly_tobytes (a : poly) : ℕ → ℕ := fun n =>
  let i := n / 3
  let t0 := toU16 (a (2 * i))
  let t1 := toU16 (a (2 * i + 1))
  if n % 3 = 0 then t0 &&& 255
  else if n % 3 = 1 then (t0 >>> 8) ||| ((t1 <<< 4) &&& 240)
  else t1 >>> 4

/-- `poly_frombytes` of `poly.c`: unpacks three bytes into two 12-bit
coefficients (not necessarily canonical). -/
def poly_frombytes (a : ℕ → ℕ) : poly := fun k =>
  let i := k / 2
  let t0 := a (3 * i)
  let t1 := a (3 * i + 1)
  let t2 := a (3 * i + 2)
  if k % 2 = 0 then ((t0 ||| ((t1 <<< 8) &&& 4095) : ℕ) : ℤ)
  else (((t1 >>> 4) ||| (t2 <<< 4) : ℕ) : ℤ)

/-- Modelled from the spec: `scalar_compress_d1` of `compress.h` (not
under `src/`).  Spec §4.2: `((uint32_t)x · 2^d + q/2) / q` reduced mod
`2^d`, with `d = 1` and `q/2 = 1664`. -/
def scalar_compress_d1 (x : ℕ) : ℕ := (x * 2 + 1664) / 3329 % 2

/-- Modelled from the spec: `scalar_decompress_d1`; spec §4.2:
`(y·q + 2^(d-1)) >> d` with `d = 1`. -/
def scalar_decompress_d1 (y : ℕ) : ℕ := (y * 3329 + 1) >>> 1

/-- Modelled from the spec: `scalar_compress_d10` of `compress.h`. -/
def scalar_compress_d10 (x : ℕ) : ℕ := (x * 1024 + 1664) / 3329 % 1024

/-- Modelled from the spec: `scalar_decompress_d10` of `compress.h`:
`(y·q + 2^9) >> 10`. -/
def scalar_decompress_d10 (y : ℕ) : ℕ := (y * 3329 + 512) >>> 10

/-- Modelled from the spec: `scalar_decompress_d4` of `compress.h`:
`(y·q + 2^3) >> 4`. -/
def scalar_decompress_d4 (y : ℕ) : ℕ := (y * 3329 + 8) >>> 4

/-- `poly_compress_du` of `poly.c` in the `MLKEM_POLYCOMPRESSEDBYTES_DU
= 320` configuration (`d = 10`, the build default `MLKEM_K = 3`): four
compressed coefficients are packed into five bytes. -/
def poly_compress_du (a : poly) : ℕ → ℕ := fun n =>
  let j := n / 5
  let t0 := scalar_compress_d10 (toU16 (a (4 * j)))
  let t1 := scalar_compress_d10 (toU16 (a (4 * j + 1)))
  let t2 := scalar_compress_d10 (toU16 (a (4 * j + 2)))
  let t3 := scalar_compress_d10 (toU16 (a (4 * j + 3)))
  if n % 5 = 0 then (t0 >>> 0) &&& 255
  else if n % 5 = 1 then (t0 >>> 8) ||| ((t1 <<< 2) &&& 255)
  else if n % 5 = 2 then (t1 >>> 6) ||| ((t2 <<< 4) &&& 255)
  else if n % 5 = 3 then (t2 >>> 4) ||| ((t3 <<< 6) &&& 255)
  else t3 >>> 2

/-- `poly_decompress_du` of `poly.c` in the 320-byte configuration
(`d = 10`): five bytes unpack to four coefficients. -/
def poly_decompress_du (a : ℕ → ℕ) : poly := fun k =>
  let j := k / 4
  let t0 := 1023 &&& ((a (5 * j) >>> 0) ||| (a (5 * j + 1) <<< 8))
  let t1 := 1023 &&& ((a (5 * j + 1) >>> 2) ||| (a (5 * j + 2) <<< 6))
  let t2 := 1023 &&& ((a (5 * j + 2) >>> 4) ||| (a (5 * j + 3) <<< 4))
  let t3 := 1023 &&& ((a (5 * j + 3) >>> 6) ||| (a (5 * j + 4) <<< 2))
  if k % 4 = 0 then (scalar_decompress_d10 t0 : ℤ)
  else if k % 4 = 1 then (scalar_decompress_d10 t1 : ℤ)
  else if k % 4 = 2 then (scalar_decompress_d10 t2 : ℤ)
  else (scalar_decompress_d10 t3 : ℤ)

/-- `poly_decompress_dv` of `poly.c` in the 128-byte configuration
(`d = 4`, the build default): each byte holds two 4-bit values. -/
def poly_decompress_dv (a : ℕ → ℕ) : poly := fun k =>
  if k % 2 = 0 then (scalar_decompress_d4 ((a (k / 2) >>> 0) &&& 15) : ℤ)
  else (scalar_decompress_d4 ((a (k / 2) >>> 4) &&& 15) : ℤ)

/-- `HALF_Q = (q + 1)/2 = 1665`. -/
def HALF_Q : ℤ := 1665

/-- Modelled from the spec: `value_barrier_u8` of `verify.h` (not under
`src/`): an operation that is the identity at runtime. -/
def value_barrier_u8 (x : ℕ) : ℕ := x

/-- Modelled from the spec: `ct_sel_int16` of `verify.h` (not under
`src/`): constant-time select, returning `a` when `cond` is nonzero and
`b` otherwise. -/
def ct_sel_int16 (a b : ℤ) (cond : ℕ) : ℤ := if cond ≠ 0 then a else b

/-- `poly_frommsg` of `poly.c`: coefficient `8i + j` is `HALF_Q` or `0`
according to bit `j` of message byte `i`. -/
def poly_frommsg (msg : ℕ → ℕ) : poly := fun k =>
  ct_sel_int16 HALF_Q 0 (msg (k / 8) &&& value_barrier_u8 (1 <<< (k % 8)))

/-- `basemul_cached` of `poly.c`: multiplication in
`Z_q[X]/(X^2 - zeta)` with a cached `zeta·b1` value;
`t0 = a1·b_cached + a0·b0`, `t1 = a0·b1 + a1·b0`, both Montgomery
reduced.  (The `int32_t` intermediates stay far below `2^31`.) -/
def basemul_cached (a0 a1 b0 b1 b_cached : ℤ) : ℤ × ℤ :=
  (montgomery_reduce (a1 * b_cached + a0 * b0), montgomery_reduce (a0 * b1 + a1 * b0))

/-- `poly_basemul_montgomery_cached` of `poly.c`: the pair `2g, 2g+1`
is `basemul_cached` of the operand pairs with cache entry `g`. -/
def poly_basemul_montgomery_cached (a b b_cache : poly) : poly := fun i =>
  let g := i / 2
  let p := basemul_cached (a (2 * g)) (a (2 * g + 1)) (b (2 * g)) (b (2 * g + 1)) (b_cache g)
  if i % 2 = 0 then p.1 else p.2

theorem and255_eq (x : ℕ) : x &&& 255 = x % 256 := by
  have h := Nat.and_pow_two_sub_one_eq_mod x 8
  norm_num at h
  exact h

theorem and4095_eq (x : ℕ) : x &&& 4095 = x % 4096 := by
  have h := Nat.and_pow_two_sub_one_eq_mod x 12
  norm_num at h
  exact h

theorem and1023_eq (x : ℕ) : 1023 &&& x = x % 1024 := by
  rw [Nat.and_comm]
  have h := Nat.and_pow_two_sub_one_eq_mod x 10
  norm_num at h
  exact h

theorem and15_eq (x : ℕ) : x &&& 15 = x % 16 := by
  have h := Nat.and_pow_two_sub_one_eq_mod x 4
  norm_num at h
  exact h

theorem lor_add_4 (a c : ℕ) (h : a < 4) : a ||| 4 * c = a + 4 * c := by
  rw [show (4:ℕ) = 2 ^ 2 by norm_num] at h ⊢
  exact lor_two_pow_add a c 2 h

theorem lor_add_16 (a c : ℕ) (h : a < 16) : a ||| 16 * c = a + 16 * c := by
  rw [show (16:ℕ) = 2 ^ 4 by norm_num] at h ⊢
  exact lor_two_pow_add a c 4 h

theorem lor_add_64 (a c : ℕ) (h : a < 64) : a ||| 64 * c = a + 64 * c := by
  rw [show (64:ℕ) = 2 ^ 6 by norm_num] at h ⊢
  exact lor_two_pow_add a c 6 h

theorem lor_add_256 (a c : ℕ) (h : a < 256) : a ||| 256 * c = a + 256 * c := by
  rw [show (256:ℕ) = 2 ^ 8 by norm_num] at h ⊢
  exact lor_two_pow_add a c 8 h

theorem shr2_eq (x : ℕ) : x >>> 2 = x / 4 := by
  rw [Nat.shiftRight_eq_div_pow]

theorem shr4_eq (x : ℕ) : x >>> 4 = x / 16 := by
  rw [Nat.shiftRight_eq_div_pow]

theorem shr6_eq (x : ℕ) : x >>> 6 = x / 64 := by
  rw [Nat.shiftRight_eq_div_pow]

theorem shr8_eq (x : ℕ) : x >>> 8 = x / 256 := by
  rw [Nat.shiftRight_eq_div_pow]

theorem shl4_and240 (y : ℕ) : (y <<< 4) &&& 240 = 16 * (y % 16) := by
  have h15 : y &&& 15 = y % 16 := and15_eq y
  have hm := mul_pow_two_and 4 y 15
  rw [h15] at hm
  rw [Nat.shiftLeft_eq, mul_comm y]
  norm_num at hm ⊢
  exact hm

theorem shl8_and4095 (t : ℕ) : (t <<< 8) &&& 4095 = 256 * (t % 16) := by
  rw [Nat.shiftLeft_eq, mul_comm t, and4095_eq]
  norm_num
  rw [show (4096:ℕ) = 256 * 16 by norm_num, Nat.mul_mod_mul_left]

theorem shl2_and255 (t : ℕ) : (t <<< 2) &&& 255 = 4 * (t % 64) := by
  rw [Nat.shiftLeft_eq, mul_comm t, and255_eq]
  norm_num
  rw [show (256:ℕ) = 4 * 64 by norm_num, Nat.mul_mod_mul_left]

theorem shl4_and255 (t : ℕ) : (t <<< 4) &&& 255 = 16 * (t % 16) := by
  rw [Nat.shiftLeft_eq, mul_comm t, and255_eq]
  norm_num
  rw [show (256:ℕ) = 16 * 16 by norm_num, Nat.mul_mod_mul_left]

theorem shl6_and255 (t : ℕ) : (t <<< 6) &&& 255 = 64 * (t % 4) := by
  rw [Nat.shiftLeft_eq, mul_comm t, and255_eq]
  norm_num
  rw [show (256:ℕ) = 64 * 4 by norm_num, Nat.mul_mod_mul_left]

/-- The 12-bit pair packing of `poly_tobytes` round-trips through the
unpacking of `poly_frombytes`, for values below `q`. -/
theorem pack12_roundtrip (x y : ℕ) (hx : x < 3329) :
    (x &&& 255) ||| ((((x >>> 8) ||| ((y <<< 4) &&& 240)) <<< 8) &&& 4095) = x ∧
    (((x >>> 8) ||| ((y <<< 4) &&& 240)) >>> 4) ||| ((y >>> 4) <<< 4) = y := by
  have hb1 : (x >>> 8) ||| ((y <<< 4) &&& 240) = x / 256 + 16 * (y % 16) := by
    rw [shr8_eq, shl4_and240, lor_add_16 _ _ (by omega)]
  constructor
  · rw [and255_eq, hb1, shl8_and4095]
    have hmod : (x / 256 + 16 * (y % 16)) % 16 = x / 256 := by omega
    rw [hmod, lor_add_256 _ _ (by omega)]
    omega
  · rw [hb1, shr4_eq, shr4_eq, Nat.shiftLeft_eq]
    have hd : (x / 256 + 16 * (y % 16)) / 16 = y % 16 := by omega
    rw [hd, show y / 16 * 2 ^ 4 = 16 * (y / 16) by ring, lor_add_16 _ _ (by omega)]
    omega

theorem poly_tobytes_3i (p : poly) (i : ℕ) :
    poly_tobytes p (3 * i) = toU16 (p (2 * i)) &&& 255 := by
  have e1 : 3 * i / 3 = i := by omega
  have e2 : 3 * i % 3 = 0 := by omega
  simp only [poly_tobytes, e1, e2]
  norm_num

theorem poly_tobytes_3i1 (p : poly) (i : ℕ) :
    poly_tobytes p (3 * i + 1)
      = (toU16 (p (2 * i)) >>> 8) ||| ((toU16 (p (2 * i + 1)) <<< 4) &&& 240) := by
  have e1 : (3 * i + 1) / 3 = i := by omega
  have e2 : (3 * i + 1) % 3 = 1 := by omega
  simp only [poly_tobytes, e1, e2]
  norm_num

theorem poly_tobytes_3i2 (p : poly) (i : ℕ) :
    poly_tobytes p (3 * i + 2) = toU16 (p (2 * i + 1)) >>> 4 := by
  have e1 : (3 * i + 2) / 3 = i := by omega
  have e2 : (3 * i + 2) % 3 = 2 := by omega
  simp only [poly_tobytes, e1, e2]
  norm_num

theorem toU16_lt (v : ℤ) (h1 : 0 ≤ v) (h2 : v < 3329) : toU16 v < 3329 := by
  have := toU16_of_canonical v h1 h2
  omega

theorem poly_frombytes_tobytes (p : poly) (hc : ∀ k < 256, 0 ≤ p k ∧ p k < 3329) :
    ∀ k < 256, poly_frombytes (poly_tobytes p) k = p k := by
  intro k hk
  obtain ⟨m, hm⟩ : ∃ m, k = 2 * m ∨ k = 2 * m + 1 := ⟨k / 2, by omega⟩
  have hm2 : m < 128 := by omega
  obtain ⟨hx0, hx1⟩ := hc (2 * m) (by omega)
  obtain ⟨hy0, hy1⟩ := hc (2 * m + 1) (by omega)
  have hxlt : toU16 (p (2 * m)) < 3329 := toU16_lt _ hx0 hx1
  have hylt : toU16 (p (2 * m + 1)) < 3329 := toU16_lt _ hy0 hy1
  rcases hm with hm | hm
  · subst hm
    have e1 : 2 * m % 2 = 0 := by omega
    have e2 : 2 * m / 2 = m := by omega
    simp only [poly_frombytes, e1, e2]
    norm_num
    rw [poly_tobytes_3i, poly_tobytes_3i1,
      (pack12_roundtrip (toU16 (p (2 * m))) (toU16 (p (2 * m + 1))) hxlt).1]
    exact toU16_of_canonical _ hx0 hx1
  · subst hm
    have e1 : (2 * m + 1) % 2 = 1 := by omega
    have e2 : (2 * m + 1) / 2 = m := by omega
    simp only [poly_frombytes, e1, e2]
    norm_num
    rw [poly_tobytes_3i1, poly_tobytes_3i2,
      (pack12_roundtrip (toU16 (p (2 * m))) (toU16 (p (2 * m + 1))) hxlt).2]
    exact toU16_of_canonical _ hy0 hy1

/-- Modelled from the spec: the d = 10 byte-packing formulas exactly as
the spec's packing table states them (`b[5j+1] = (t0>>8)|(t1<<2)`
truncated to 8 bits, and so on), applied to `t_k = compress_d10` of
coefficient `4j+k`.  This is the claim side of the comparison with
`poly_compress_du`. -/
def spec_compress_du (a : poly) : ℕ → ℕ := fun n =>
  let j := n / 5
  let t0 := scalar_compress_d10 (toU16 (a (4 * j)))
  let t1 := scalar_compress_d10 (toU16 (a (4 * j + 1)))
  let t2 := scalar_compress_d10 (toU16 (a (4 * j + 2)))
  let t3 := scalar_compress_d10 (toU16 (a (4 * j + 3)))
  if n % 5 = 0 then t0 % 256
  else if n % 5 = 1 then ((t0 >>> 8) ||| (t1 <<< 2)) % 256
  else if n % 5 = 2 then ((t1 >>> 6) ||| (t2 <<< 4)) % 256
  else if n % 5 = 3 then ((t2 >>> 4) ||| (t3 <<< 6)) % 256
  else t3 >>> 2

theorem scalar_compress_d10_lt (x : ℕ) : scalar_compress_d10 x < 1024 :=
  Nat.mod_lt _ (by norm_num)

/-- Masking the shifted-in half before the `or` (as the code does) and
truncating the whole `or` to 8 bits (as the spec says) agree for 10-bit
inputs: byte 1 of the group. -/
theorem pack10_byte1 (t0 t1 : ℕ) (h0 : t0 < 1024) :
    (t0 >>> 8) ||| ((t1 <<< 2) &&& 255) = ((t0 >>> 8) ||| (t1 <<< 2)) % 256 := by
  rw [shr8_eq, shl2_and255, Nat.shiftLeft_eq,
    show t1 * 2 ^ 2 = 4 * t1 by ring,
    lor_add_4 _ _ (by omega), lor_add_4 _ _ (by omega)]
  omega

theorem pack10_byte2 (t1 t2 : ℕ) (h1 : t1 < 1024) :
    (t1 >>> 6) ||| ((t2 <<< 4) &&& 255) = ((t1 >>> 6) ||| (t2 <<< 4)) % 256 := by
  rw [shr6_eq, shl4_and255, Nat.shiftLeft_eq,
    show t2 * 2 ^ 4 = 16 * t2 by ring,
    lor_add_16 _ _ (by omega), lor_add_16 _ _ (by omega)]
  omega

theorem pack10_byte3 (t2 t3 : ℕ) (h2 : t2 < 1024) :
    (t2 >>> 4) ||| ((t3 <<< 6) &&& 255) = ((t2 >>> 4) ||| (t3 <<< 6)) % 256 := by
  rw [shr4_eq, shl6_and255, Nat.shiftLeft_eq,
    show t3 * 2 ^ 6 = 64 * t3 by ring,
    lor_add_64 _ _ (by omega), lor_add_64 _ _ (by omega)]
  omega

theorem compress_du_eq_spec (a : poly) : ∀ n, poly_compress_du a n = spec_compress_du a n := by
  intro n
  have h5 : n % 5 = 0 ∨ n % 5 = 1 ∨ n % 5 = 2 ∨ n % 5 = 3 ∨ n % 5 = 4 := by omega
  simp only [poly_compress_du, spec_compress_du]
  rcases h5 with h | h | h | h | h <;> simp only [h] <;> norm_num
  · rw [and255_eq]
  · exact pack10_byte1 _ _ (scalar_compress_d10_lt _)
  · exact pack10_byte2 _ _ (scalar_compress_d10_lt _)
  · exact pack10_byte3 _ _ (scalar_compress_d10_lt _)

theorem scalar_decompress_d10_lt (t : ℕ) (h : t < 1024) : scalar_decompress_d10 t < 3329 := by
  unfold scalar_decompress_d10
  rw [Nat.shiftRight_eq_div_pow, show (2:ℕ) ^ 10 = 1024 by norm_num]
  omega

theorem scalar_decompress_d4_lt (t : ℕ) (h : t < 16) : scalar_decompress_d4 t < 3329 := by
  unfold scalar_decompress_d4
  rw [Nat.shiftRight_eq_div_pow, show (2:ℕ) ^ 4 = 16 by norm_num]
  omega

/-- Bound for `montgomery_reduce` on the `int32` sums of `basemul_cached`:
`|a1·b_cached + a0·b0| ≤ 2·4095·32768 = 268369920`, and the reduced value
stays within `±5759 ≤ 2q - 1`. -/
theorem montgomery_reduce_basemul_bound (a : ℤ)
    (h1 : -268369920 ≤ a) (h2 : a ≤ 268369920) :
    -5759 ≤ montgomery_reduce a ∧ montgomery_reduce a ≤ 5759 := by
  obtain ⟨u, hu1, hu2, he⟩ := exists_u_montgomery_reduce a (by omega) (by omega)
  omega

/-- Scalar core of `basemul_cached`: both outputs bounded by `2q - 1`
and congruent (Montgomery-scaled) to the `Z_q[X]/(X^2 - zeta)` products. -/
theorem basemul_cached_main (a0 a1 b0 b1 bc : ℤ)
    (ha0 : -4095 ≤ a0 ∧ a0 ≤ 4095) (ha1 : -4095 ≤ a1 ∧ a1 ≤ 4095)
    (hb0 : -32768 ≤ b0 ∧ b0 ≤ 32767) (hb1 : -32768 ≤ b1 ∧ b1 ≤ 32767)
    (hbc : -32768 ≤ bc ∧ bc ≤ 32767) :
    (-5759 ≤ (basemul_cached a0 a1 b0 b1 bc).1 ∧ (basemul_cached a0 a1 b0 b1 bc).1 ≤ 5759) ∧
    (-5759 ≤ (basemul_cached a0 a1 b0 b1 bc).2 ∧ (basemul_cached a0 a1 b0 b1 bc).2 ≤ 5759) ∧
    65536 * (((basemul_cached a0 a1 b0 b1 bc).1 : ℤ) : Zq) = ((a0 * b0 + a1 * bc : ℤ) : Zq) ∧
    65536 * (((basemul_cached a0 a1 b0 b1 bc).2 : ℤ) : Zq) = ((a0 * b1 + a1 * b0 : ℤ) : Zq) := by
  obtain ⟨ha01, ha02⟩ := ha0
  obtain ⟨ha11, ha12⟩ := ha1
  obtain ⟨hb01, hb02⟩ := hb0
  obtain ⟨hb11, hb12⟩ := hb1
  obtain ⟨hbc1, hbc2⟩ := hbc
  have ht01 : -268369920 ≤ a1 * bc + a0 * b0 := by nlinarith
  have ht02 : a1 * bc + a0 * b0 ≤ 268369920 := by nlinarith
  have ht11 : -268369920 ≤ a0 * b1 + a1 * b0 := by nlinarith
  have ht12 : a0 * b1 + a1 * b0 ≤ 268369920 := by nlinarith
  have hone : (65536 : Zq) * 169 = 1 := by decide
  refine ⟨montgomery_reduce_basemul_bound _ ht01 ht02,
    montgomery_reduce_basemul_bound _ ht11 ht12, ?_, ?_⟩
  · show 65536 * ((montgomery_reduce (a1 * bc + a0 * b0) : ℤ) : Zq) = _
    rw [montgomery_reduce_cast _ (by omega) (by omega)]
    push_cast
    calc (65536 : Zq) * (169 * ((a1 : Zq) * bc + a0 * b0))
        = (65536 * 169) * ((a1 : Zq) * bc + a0 * b0) := by ring
      _ = (a0 : Zq) * b0 + a1 * bc := by rw [hone]; ring
  · show 65536 * ((montgomery_reduce (a0 * b1 + a1 * b0) : ℤ) : Zq) = _
    rw [montgomery_reduce_cast _ (by omega) (by omega)]
    push_cast
    calc (65536 : Zq) * (169 * ((a0 : Zq) * b1 + a1 * b0))
        = (65536 * 169) * ((a0 : Zq) * b1 + a1 * b0) := by ring
      _ = (a0 : Zq) * b1 + a1 * b0 := by rw [hone]; ring

/-- The message `[0xFF, 0x00, ..., 0x00]` of the claim about
`poly_frommsg`. -/
def msg_ff : ℕ → ℕ := fun i => if i = 0 then 255 else 0

/-! ## The claims -/

/-- C1: for every polynomial with coefficients bounded by `q - 1 = 3328`
in absolute value, `poly_invntt_tomont ∘ poly_ntt` (the `part_000`
reference implementation) is coefficient-wise congruent modulo `q` to
multiplication by `2^16`: reducing both sides to their canonical
representative in `[0, q)` gives equal values. -/
theorem C1_invntt_ntt (p : poly) (hb : ∀ k < 256, -3328 ≤ p k ∧ p k ≤ 3328) :
    ∀ i < 256,
      Ref.poly_invntt_tomont (Ref.poly_ntt p) i % 3329 = 65536 * p i % 3329 := by
  intro i hi
  have hc := invntt_ntt_core p hb i hi
  have h2 : ((Ref.poly_invntt_tomont (Ref.poly_ntt p) i : ℤ) : Zq)
      = ((65536 * p i : ℤ) : Zq) := by
    rw [hc]
    push_cast
    ring
  rw [ZMod.intCast_eq_intCast_iff] at h2
  exact h2

theorem C1_witness :
    Ref.poly_invntt_tomont (Ref.poly_ntt (fun _ => 0)) 0 % 3329 = 65536 * 0 % 3329 :=
  C1_invntt_ntt (fun _ => 0) (fun _ _ => ⟨by norm_num, by norm_num⟩) 0 (by norm_num)

/-- C2: on input bounded by `q` in absolute value, the forward NTT of
`part_000` respects the claimed intermediate bounds: `4q - 1` after the
merged layers 1-3, `6q - 1` after layers 4-5, `7q - 1` after layer 6 and
`8q - 1 = 26631` at the end. -/
theorem C2_ntt_bounds (p : poly) (hb : ∀ k < 256, -3329 ≤ p k ∧ p k ≤ 3329) :
    ∀ i < 256,
      (-13315 ≤ Ref.ntt_layer123 p i ∧ Ref.ntt_layer123 p i ≤ 13315) ∧
      (-19973 ≤ Ref.ntt_layer45 (Ref.ntt_layer123 p) i ∧
        Ref.ntt_layer45 (Ref.ntt_layer123 p) i ≤ 19973) ∧
      (-23302 ≤ Ref.ntt_layer6 (Ref.ntt_layer45 (Ref.ntt_layer123 p)) i ∧
        Ref.ntt_layer6 (Ref.ntt_layer45 (Ref.ntt_layer123 p)) i ≤ 23302) ∧
      (-26631 ≤ Ref.poly_ntt p i ∧ Ref.poly_ntt p i ≤ 26631) := by
  intro i hi
  obtain ⟨h1, h2, h3, h4, _⟩ := poly_ntt_main p 3329 (by norm_num) (by norm_num) hb i hi
  refine ⟨⟨?_, ?_⟩, ⟨?_, ?_⟩, ⟨?_, ?_⟩, ?_, ?_⟩ <;> omega

theorem C2_witness :
    (-13315 ≤ Ref.ntt_layer123 (fun _ => 0) 0 ∧ Ref.ntt_layer123 (fun _ => 0) 0 ≤ 13315) ∧
    (-19973 ≤ Ref.ntt_layer45 (Ref.ntt_layer123 (fun _ => 0)) 0 ∧
      Ref.ntt_layer45 (Ref.ntt_layer123 (fun _ => 0)) 0 ≤ 19973) ∧
    (-23302 ≤ Ref.ntt_layer6 (Ref.ntt_layer45 (Ref.ntt_layer123 (fun _ => 0))) 0 ∧
      Ref.ntt_layer6 (Ref.ntt_layer45 (Ref.ntt_layer123 (fun _ => 0))) 0 ≤ 23302) ∧
    (-26631 ≤ Ref.poly_ntt (fun _ => 0) 0 ∧ Ref.poly_ntt (fun _ => 0) 0 ≤ 26631) :=
  C2_ntt_bounds (fun _ => 0) (fun _ _ => ⟨by norm_num, by norm_num⟩) 0 (by norm_num)

/-- A concrete `int16`-bounded input on which the inverse NTT of
`part_000` leaves a coefficient of absolute value `≥ q`. -/
def testInput1 : poly := fun k => ((1234 * (k : ℤ) + 71) % 6657) - 3328

/-- C3 (amended): for arbitrary `int16_t` input, every output coefficient
of the reference `poly_invntt_tomont` has absolute value less than
`8q = 26632` — not less than `q`, which the counterexample refutes. -/
theorem C3_invntt_bound (p : poly) (hb : ∀ k < 256, -32768 ≤ p k ∧ p k ≤ 32767) :
    ∀ i < 256,
      -26632 < Ref.poly_invntt_tomont p i ∧ Ref.poly_invntt_tomont p i < 26632 := by
  intro i hi
  obtain ⟨h1, _⟩ := poly_invntt_tomont_main p hb i hi
  omega

theorem C3_witness :
    -26632 < Ref.poly_invntt_tomont (fun _ => 0) 0 ∧
      Ref.poly_invntt_tomont (fun _ => 0) 0 < 26632 :=
  C3_invntt_bound (fun _ => 0) (fun _ _ => ⟨by norm_num, by norm_num⟩) 0 (by norm_num)

/-- C3 is refuted as stated: `testInput1` is a valid `int16_t` input
(indeed bounded by `q - 1`), yet output coefficient 15 of
`poly_invntt_tomont` equals `4157 ≥ q`. -/
theorem C3_counterexample :
    (∀ k < 256, -32768 ≤ testInput1 k ∧ testInput1 k ≤ 32767) ∧
    ¬ (∀ i < 256, -3329 < Ref.poly_invntt_tomont testInput1 i ∧
        Ref.poly_invntt_tomont testInput1 i < 3329) := by
  constructor
  · decide
  · intro h
    have h15 := (h 15 (by norm_num)).2
    have he : Ref.poly_invntt_tomont testInput1 15 = 4157 := by decide
    omega

/-- C4 (amended): on the half-q rounding boundary the d = 1 codec gives
`compress_d1(1664) = 1` — not `0` as claimed — while
`compress_d1(1665) = 1`, `decompress_d1(0) = 0` and
`decompress_d1(1) = 1665` hold. -/
theorem C4_compress_d1_values :
    scalar_compress_d1 1664 = 1 ∧ scalar_compress_d1 1665 = 1 ∧
    scalar_decompress_d1 0 = 0 ∧ scalar_decompress_d1 1 = 1665 := by
  decide

/-- C4 is refuted at its first value: `compress_d1(1664) = 1 ≠ 0`
(`(2·1664 + 1664)/3329 = 1`). -/
theorem C4_counterexample : ¬ (scalar_compress_d1 1664 = 0) := by
  decide

/-- C5: with `|a0|, |a1| ≤ 4095` and arbitrary `int16_t` values `b0, b1,
b_cached`, `basemul_cached` returns both components bounded by `2q - 1 =
6657` and congruent modulo q to the Montgomery-scaled products
`(a0·b0 + a1·b_cached)·2^-16` and `(a0·b1 + a1·b0)·2^-16`; consequently
`poly_basemul_montgomery_cached` on pairwise-bounded inputs leaves every
coefficient below `2q` in absolute value. -/
theorem C5_basemul (a0 a1 b0 b1 bc : ℤ)
    (ha0 : -4095 ≤ a0 ∧ a0 ≤ 4095) (ha1 : -4095 ≤ a1 ∧ a1 ≤ 4095)
    (hb0 : -32768 ≤ b0 ∧ b0 ≤ 32767) (hb1 : -32768 ≤ b1 ∧ b1 ≤ 32767)
    (hbc : -32768 ≤ bc ∧ bc ≤ 32767) :
    (-6657 ≤ (basemul_cached a0 a1 b0 b1 bc).1 ∧ (basemul_cached a0 a1 b0 b1 bc).1 ≤ 6657) ∧
    (-6657 ≤ (basemul_cached a0 a1 b0 b1 bc).2 ∧ (basemul_cached a0 a1 b0 b1 bc).2 ≤ 6657) ∧
    65536 * (((basemul_cached a0 a1 b0 b1 bc).1 : ℤ) : Zq) = ((a0 * b0 + a1 * bc : ℤ) : Zq) ∧
    65536 * (((basemul_cached a0 a1 b0 b1 bc).2 : ℤ) : Zq) = ((a0 * b1 + a1 * b0 : ℤ) : Zq) ∧
    (∀ a b c : poly,
      (∀ k < 256, -4095 ≤ a k ∧ a k ≤ 4095) →
      (∀ k < 256, -32768 ≤ b k ∧ b k ≤ 32767) →
      (∀ k < 256, -32768 ≤ c k ∧ c k ≤ 32767) →
      ∀ k < 256, -6657 ≤ poly_basemul_montgomery_cached a b c k ∧
        poly_basemul_montgomery_cached a b c k ≤ 6657) := by
  obtain ⟨hs1, hs2, hc1, hc2⟩ := basemul_cached_main a0 a1 b0 b1 bc ha0 ha1 hb0 hb1 hbc
  refine ⟨⟨by omega, by omega⟩, ⟨by omega, by omega⟩, hc1, hc2, ?_⟩
  intro a b c ha hb hc k hk
  have hg0 : 2 * (k / 2) < 256 := by omega
  have hg1 : 2 * (k / 2) + 1 < 256 := by omega
  obtain ⟨hm1, hm2, _, _⟩ := basemul_cached_main (a (2 * (k / 2))) (a (2 * (k / 2) + 1))
    (b (2 * (k / 2))) (b (2 * (k / 2) + 1)) (c (k / 2))
    (ha _ hg0) (ha _ hg1) (hb _ hg0) (hb _ hg1) (hc (k / 2) (by omega))
  unfold poly_basemul_montgomery_cached
  have h2 : k % 2 = 0 ∨ k % 2 = 1 := by omega
  rcases h2 with h | h <;> simp only [h, reduceIte] <;> omega

theorem C5_witness :
    (-6657 ≤ (basemul_cached 0 0 0 0 0).1 ∧ (basemul_cached 0 0 0 0 0).1 ≤ 6657) ∧
    (-6657 ≤ (basemul_cached 0 0 0 0 0).2 ∧ (basemul_cached 0 0 0 0 0).2 ≤ 6657) ∧
    65536 * (((basemul_cached 0 0 0 0 0).1 : ℤ) : Zq) = ((0 * 0 + 0 * 0 : ℤ) : Zq) ∧
    65536 * (((basemul_cached 0 0 0 0 0).2 : ℤ) : Zq) = ((0 * 0 + 0 * 0 : ℤ) : Zq) ∧
    (∀ a b c : poly,
      (∀ k < 256, -4095 ≤ a k ∧ a k ≤ 4095) →
      (∀ k < 256, -32768 ≤ b k ∧ b k ≤ 32767) →
      (∀ k < 256, -32768 ≤ c k ∧ c k ≤ 32767) →
      ∀ k < 256, -6657 ≤ poly_basemul_montgomery_cached a b c k ∧
        poly_basemul_montgomery_cached a b c k ≤ 6657) :=
  C5_basemul 0 0 0 0 0 (by norm_num) (by norm_num) (by norm_num) (by norm_num) (by norm_num)

/-- C6: packing a canonical polynomial with `poly_tobytes` and unpacking
with `poly_frombytes` round-trips exactly, coefficient by coefficient. -/
theorem C6_roundtrip (p : poly) (hc : ∀ k < 256, 0 ≤ p k ∧ p k < 3329) :
    ∀ k < 256, poly_frombytes (poly_tobytes p) k = p k :=
  poly_frombytes_tobytes p hc

theorem C6_witness : poly_frombytes (poly_tobytes (fun _ => 0)) 0 = 0 :=
  C6_roundtrip (fun _ => 0) (fun _ _ => ⟨by norm_num, by norm_num⟩) 0 (by norm_num)

/-- C7: in the d = 10 configuration, `poly_compress_du` emits exactly the
bytes the spec's packing formulas give (`b[5j+1] = (t0>>8)|(t1<<2)`
truncated to 8 bits, and so on) — for every input and byte index, with the
spec-side formulas embodied by `spec_compress_du`. -/
theorem C7_compress_du_bytes :
    ∀ (a : poly) (n : ℕ), poly_compress_du a n = spec_compress_du a n :=
  fun a n => compress_du_eq_spec a n

/-- C8: `poly_frommsg` sets coefficient `8i + j` to `HALF_Q = 1665`
exactly when bit `j` of message byte `i` is set, and to `0` otherwise; on
the message `[0xFF, 0x00, ..., 0x00]` the first 8 coefficients are `1665`
and all others `0`. -/
theorem C8_frommsg :
    (∀ (msg : ℕ → ℕ) (k : ℕ),
      poly_frommsg msg k = if (msg (k / 8)).testBit (k % 8) then 1665 else 0) ∧
    (∀ k : ℕ, poly_frommsg msg_ff k = if k < 8 then 1665 else 0) := by
  have hmain : ∀ (msg : ℕ → ℕ) (k : ℕ),
      poly_frommsg msg k = if (msg (k / 8)).testBit (k % 8) then 1665 else 0 := by
    intro msg k
    unfold poly_frommsg ct_sel_int16 value_barrier_u8 HALF_Q
    rw [Nat.one_shiftLeft, Nat.and_two_pow]
    cases hbit : (msg (k / 8)).testBit (k % 8)
    · simp [hbit]
    · have hp : (2:ℕ) ^ (k % 8) ≠ 0 := (Nat.pos_pow_of_pos _ (by norm_num)).ne'
      simp [hbit, hp]
  refine ⟨hmain, fun k => ?_⟩
  rw [hmain]
  rcases Nat.lt_or_ge k 8 with h8 | h8
  · have e1 : k / 8 = 0 := by omega
    have e2 : k % 8 = k := by omega
    rw [e1, e2, if_pos h8]
    have hm : msg_ff 0 = 255 := rfl
    rw [hm]
    interval_cases k <;> decide
  · have hne : msg_ff (k / 8) = 0 := by
      unfold msg_ff
      rw [if_neg (by omega)]
    have hr : (if k < 8 then (1665:ℤ) else 0) = 0 := if_neg (by omega)
    rw [hne, Nat.zero_testBit, hr]
    simp

/-- C9: the two forward-NTT implementations of the tree — `poly_ntt` of
`part_000` over the tables of `zetas.i`, and `poly_ntt` of `part_001`
over its file-local tables with commuted `fqmul` arguments in layers 6
and 7 — agree on every input and coefficient. -/
theorem C9_ntt_equiv (p : poly) : ∀ i, Alt.poly_ntt p i = Ref.poly_ntt p i :=
  fun i => congrFun (alt_poly_ntt_eq p) i

/-- C10: for arbitrary byte input, `poly_decompress_du` (d = 10) and
`poly_decompress_dv` (d = 4) only produce coefficients in the canonical
range `[0, q)`, while `poly_frombytes` can reach `4095`. -/
theorem C10_decompress_canonical :
    (∀ (a : ℕ → ℕ) (k : ℕ),
      0 ≤ poly_decompress_du a k ∧ poly_decompress_du a k < 3329) ∧
    (∀ (a : ℕ → ℕ) (k : ℕ),
      0 ≤ poly_decompress_dv a k ∧ poly_decompress_dv a k < 3329) ∧
    poly_frombytes (fun _ => 255) 0 = 4095 := by
  refine ⟨fun a k => ?_, fun a k => ?_, by decide⟩
  · have hb : ∀ t : ℕ, t < 1024 →
        0 ≤ (scalar_decompress_d10 t : ℤ) ∧ (scalar_decompress_d10 t : ℤ) < 3329 := by
      intro t ht
      exact ⟨Int.natCast_nonneg _, by exact_mod_cast scalar_decompress_d10_lt t ht⟩
    unfold poly_decompress_du
    have h4 : k % 4 = 0 ∨ k % 4 = 1 ∨ k % 4 = 2 ∨ k % 4 = 3 := by omega
    rcases h4 with h | h | h | h <;> simp only [h, reduceIte] <;>
      exact hb _ (by rw [and1023_eq]; exact Nat.mod_lt _ (by norm_num))
  · have hb : ∀ t : ℕ, t < 16 →
        0 ≤ (scalar_decompress_d4 t : ℤ) ∧ (scalar_decompress_d4 t : ℤ) < 3329 := by
      intro t ht
      exact ⟨Int.natCast_nonneg _, by exact_mod_cast scalar_decompress_d4_lt t ht⟩
    unfold poly_decompress_dv
    have h2 : k % 2 = 0 ∨ k % 2 = 1 := by omega
    rcases h2 with h | h <;> simp only [h, reduceIte] <;>
      exact hb _ (by rw [and15_eq]; exact Nat.mod_lt _ (by norm_num))
